import Mathlib

/-!
go-azimuth: the event-effect engine of `pkg/db/events.go`.

A shallow embedding of the Effect Compiler (`AzimuthEventLog.Effects`), of the
topic decoders, of `Save` and of the replay loop (`PlayAzimuthLogs`,
`ApplyEventEffects`), followed by the properties established about them.

Conventions.
* A Go `panic` is an `Except` error; `uint32`/`uint64` values are natural numbers.
* The Keccak-256 primitive of `golang.org/x/crypto/sha3` is a parameter `K` of the
  development: every result holds for any hash function, under the stated
  assumption that the fourteen catalogue fingerprints are pairwise distinct.
* SQL text is represented by the syntax tree of the statement it spells.
-/

namespace Azimuth

/-! ## Bytes, hashes, addresses -/

/-- One octet. -/
abbrev Byte := Fin 256

/-- The type `common.Hash`, a `[32]byte`. -/
abbrev Hash := { l : List Byte // l.length = 32 }

/-- The type `common.Address`, a `[20]byte`. -/
abbrev Address := { l : List Byte // l.length = 20 }

/-- Modelled from the spec: the type `AzimuthNumber` is declared outside `events.go`;
the spec calls it a 32-bit identity identifier and the source converts a `uint32` to it. -/
abbrev AzimuthNumber := Nat

/-- The zero value of `common.Address`. -/
def zeroAddress : Address := ⟨List.replicate 20 0, by simp⟩

/-- The zero value of `common.Hash`. -/
def zeroHash : Hash := ⟨List.replicate 32 0, by simp⟩

/-- The conversion `[]byte(s)`: the UTF-8 encoding of a Go string. -/
def utf8Bytes (s : String) : List Byte :=
  s.data.flatMap fun c => (String.utf8EncodeChar c).map fun u => Fin.ofNat u.toNat

/-- The function `get_hash`: the legacy Keccak-256 digest `K` of the bytes of `s`. -/
def get_hash (K : List Byte → Hash) (s : String) : Hash :=
  K (utf8Bytes s)

/-! ## The event catalogue -/

section Catalogue

variable (K : List Byte → Hash)

def SPAWNED : Hash := get_hash K "Spawned(uint32,uint32)"
def ACTIVATED : Hash := get_hash K "Activated(uint32)"
def OWNER_CHANGED : Hash := get_hash K "OwnerChanged(uint32,address)"
def CHANGED_SPAWN_PROXY : Hash := get_hash K "ChangedSpawnProxy(uint32,address)"
def CHANGED_TRANSFER_PROXY : Hash := get_hash K "ChangedTransferProxy(uint32,address)"
def CHANGED_MANAGEMENT_PROXY : Hash := get_hash K "ChangedManagementProxy(uint32,address)"
def CHANGED_VOTING_PROXY : Hash := get_hash K "ChangedVotingProxy(uint32,address)"
def ESCAPE_REQUESTED : Hash := get_hash K "EscapeRequested(uint32,uint32)"
def ESCAPE_CANCELED : Hash := get_hash K "EscapeCanceled(uint32,uint32)"
def ESCAPE_ACCEPTED : Hash := get_hash K "EscapeAccepted(uint32,uint32)"
def LOST_SPONSOR : Hash := get_hash K "LostSponsor(uint32,uint32)"
def BROKE_CONTINUITY : Hash := get_hash K "BrokeContinuity(uint32,uint32)"
def CHANGED_KEYS : Hash := get_hash K "ChangedKeys(uint32,bytes32,bytes32,uint32,uint32)"
def CHANGED_DNS : Hash := get_hash K "ChangedDns(string,string,string)"

/-- The map `EVENT_NAMES`, as the list of the assignments made by `init`, in order. -/
def EVENT_NAMES : List (Hash × String) :=
  [ (OWNER_CHANGED K, "OwnerChanged"),
    (ACTIVATED K, "Activated"),
    (SPAWNED K, "Spawned"),
    (ESCAPE_REQUESTED K, "EscapeRequested"),
    (ESCAPE_CANCELED K, "EscapeCanceled"),
    (ESCAPE_ACCEPTED K, "EscapeAccepted"),
    (LOST_SPONSOR K, "LostSponsor"),
    (CHANGED_KEYS K, "ChangedKeys"),
    (BROKE_CONTINUITY K, "BrokeContinuity"),
    (CHANGED_SPAWN_PROXY K, "ChangedSpawnProxy"),
    (CHANGED_TRANSFER_PROXY K, "ChangedTransferProxy"),
    (CHANGED_MANAGEMENT_PROXY K, "ChangedManagementProxy"),
    (CHANGED_VOTING_PROXY K, "ChangedVotingProxy"),
    (CHANGED_DNS K, "ChangedDns") ]

/-- The fourteen fingerprints, in the order of the `var` block. -/
def fingerprints : List Hash :=
  [ SPAWNED K, ACTIVATED K, OWNER_CHANGED K, CHANGED_SPAWN_PROXY K,
    CHANGED_TRANSFER_PROXY K, CHANGED_MANAGEMENT_PROXY K, CHANGED_VOTING_PROXY K,
    ESCAPE_REQUESTED K, ESCAPE_CANCELED K, ESCAPE_ACCEPTED K, LOST_SPONSOR K,
    BROKE_CONTINUITY K, CHANGED_KEYS K, CHANGED_DNS K ]

/-- A topic is catalogued when it is a key of `EVENT_NAMES`. -/
def Catalogued (h : Hash) : Prop := h ∈ (EVENT_NAMES K).map Prod.fst

instance (h : Hash) : Decidable (Catalogued K h) := by
  unfold Catalogued; infer_instance

/-- The hash function sends the fourteen signatures to fourteen different fingerprints. -/
def FingerprintsDistinct : Prop := (fingerprints K).Nodup

instance : Decidable (FingerprintsDistinct K) := by
  unfold FingerprintsDistinct; infer_instance

end Catalogue

/-! ## Records -/

/-- Modelled from the spec: the struct `Point` is declared outside `events.go`; its fields
are the ones `Effects` assigns and section 3 of the spec lists, and a composite literal leaves
every field it does not name at its zero value. -/
structure Point where
  Number : AzimuthNumber := 0
  OwnerAddress : Address := zeroAddress
  SpawnAddress : Address := zeroAddress
  TransferAddress : Address := zeroAddress
  ManagementAddress : Address := zeroAddress
  VotingAddress : Address := zeroAddress
  IsActive : Bool := false
  HasSponsor : Bool := false
  Sponsor : AzimuthNumber := 0
  IsEscapeRequested : Bool := false
  EscapeRequestedTo : AzimuthNumber := 0
  Rift : Nat := 0
  EncryptionKey : List Byte := []
  AuthKey : List Byte := []
  CryptoSuiteVersion : Nat := 0
  Life : Nat := 0
deriving DecidableEq

/-- The struct `AzimuthEventLog`. -/
structure AzimuthEventLog where
  BlockNumber : Nat := 0
  BlockHash : Hash := zeroHash
  TxHash : Hash := zeroHash
  LogIndex : Nat := 0
  ContractAddress : Address := zeroAddress
  Name : String := ""
  Topic0 : Hash := zeroHash
  Topic1 : Hash := zeroHash
  Topic2 : Hash := zeroHash
  Data : List Byte := []
  IsProcessed : Bool := false
deriving DecidableEq

/-! ## SQL statements on the `points` table -/

/-- The columns of the `points` table named by the statements of `Effects`. -/
inductive Column where
  | azimuth_number
  | owner_address
  | spawn_address
  | transfer_address
  | management_address
  | voting_address
  | is_active
  | has_sponsor
  | sponsor
  | is_escape_requested
  | escape_requested_to
  | rift
  | encryption_key
  | auth_key
  | crypto_suite_version
  | life
deriving DecidableEq

/-- A value expression of a statement: a named parameter `:c` or an integer literal. -/
inductive SqlExpr where
  | named (c : Column)
  | lit (n : Nat)
deriving DecidableEq

/-- The statement `insert into points (columns) values (values)`, optionally followed by
`on conflict do update set c = e, ...`. -/
structure InsertStmt where
  columns : List Column
  values : List SqlExpr
  onConflictDoUpdate : Option (List (Column × SqlExpr))
deriving DecidableEq

/-- The SQL text of a `Query`: the empty string or an insert statement. -/
inductive SqlText where
  | empty
  | insert (s : InsertStmt)
deriving DecidableEq

/-- The struct `Query`; `Query{}` has the empty text and a nil `BindValues`. -/
structure Query where
  SQL : SqlText := SqlText.empty
  BindValues : Option Point := none
deriving DecidableEq

/-- The errors a statement on the `points` table can return. -/
inductive StorageError where
  | uniqueConstraint
  | typeMismatch
  | missingBindValues
deriving DecidableEq

/-- The panics of `events.go`. -/
inductive Panic where
  | unknownEvent
  | badDataLength (n : Nat)
  | storage (err : StorageError)
deriving DecidableEq

/-- Equality of results is decidable, so that the embedding can be evaluated. -/
instance instDecidableEqExcept {ε α : Type} [DecidableEq ε] [DecidableEq α] :
    DecidableEq (Except ε α)
  | .ok a, .ok b => if h : a = b then isTrue (by rw [h]) else isFalse (by simpa using h)
  | .error a, .error b => if h : a = b then isTrue (by rw [h]) else isFalse (by simpa using h)
  | .ok _, .error _ => isFalse (by simp)
  | .error _, .ok _ => isFalse (by simp)

/-! ## Topic decoders -/

/-- The library function `binary.BigEndian.Uint32`; it reads `b[0..3]` and needs four bytes. -/
def BigEndian_Uint32 (b : List Byte) (hb : 4 ≤ b.length) : Nat :=
  (b.get ⟨3, by omega⟩).val ||| (b.get ⟨2, by omega⟩).val <<< 8
    ||| (b.get ⟨1, by omega⟩).val <<< 16 ||| (b.get ⟨0, by omega⟩).val <<< 24

/-- The function `topic_to_uint32`: `binary.BigEndian.Uint32(h[28:])`. -/
def topic_to_uint32 (h : Hash) : Nat :=
  BigEndian_Uint32 (h.val.drop 28) (by simp [h.property])

/-- The function `topic_to_azimuth_number`. -/
def topic_to_azimuth_number (h : Hash) : AzimuthNumber :=
  topic_to_uint32 h

/-- The function `topic_to_eth_address`: `common.BytesToAddress(h[:])` keeps the last
twenty bytes of a longer slice. -/
def topic_to_eth_address (h : Hash) : Address :=
  ⟨h.val.drop 12, by simp [h.property]⟩

/-! ## The Effect Compiler -/

/-- The statement text of the `SPAWNED` case: a plain insert. -/
def spawnedSQL : SqlText :=
  .insert ⟨[.azimuth_number], [.named .azimuth_number], none⟩

/-- The statement text of the `ACTIVATED` case. -/
def activatedSQL : SqlText :=
  .insert ⟨[.azimuth_number, .is_active, .has_sponsor, .sponsor],
    [.named .azimuth_number, .named .is_active, .named .has_sponsor, .named .sponsor],
    some [(.is_active, .named .is_active), (.has_sponsor, .named .has_sponsor),
      (.sponsor, .named .sponsor)]⟩

/-- The statement text of the `OWNER_CHANGED` case. -/
def ownerChangedSQL : SqlText :=
  .insert ⟨[.azimuth_number, .owner_address],
    [.named .azimuth_number, .named .owner_address],
    some [(.owner_address, .named .owner_address)]⟩

/-- The statement text of the `CHANGED_SPAWN_PROXY` case. -/
def changedSpawnProxySQL : SqlText :=
  .insert ⟨[.azimuth_number, .spawn_address],
    [.named .azimuth_number, .named .spawn_address],
    some [(.spawn_address, .named .spawn_address)]⟩

/-- The statement text of the `CHANGED_TRANSFER_PROXY` case. -/
def changedTransferProxySQL : SqlText :=
  .insert ⟨[.azimuth_number, .transfer_address],
    [.named .azimuth_number, .named .transfer_address],
    some [(.transfer_address, .named .transfer_address)]⟩

/-- The statement text of the `CHANGED_MANAGEMENT_PROXY` case. -/
def changedManagementProxySQL : SqlText :=
  .insert ⟨[.azimuth_number, .management_address],
    [.named .azimuth_number, .named .management_address],
    some [(.management_address, .named .management_address)]⟩

/-- The statement text of the `CHANGED_VOTING_PROXY` case. -/
def changedVotingProxySQL : SqlText :=
  .insert ⟨[.azimuth_number, .voting_address],
    [.named .azimuth_number, .named .voting_address],
    some [(.voting_address, .named .voting_address)]⟩

/-- The statement text of the `ESCAPE_REQUESTED` case; the flag is the literal `1`. -/
def escapeRequestedSQL : SqlText :=
  .insert ⟨[.azimuth_number, .is_escape_requested, .escape_requested_to],
    [.named .azimuth_number, .lit 1, .named .escape_requested_to],
    some [(.is_escape_requested, .lit 1),
      (.escape_requested_to, .named .escape_requested_to)]⟩

/-- The statement text of the `ESCAPE_CANCELED` case; both values are the literal `0`. -/
def escapeCanceledSQL : SqlText :=
  .insert ⟨[.azimuth_number, .is_escape_requested, .escape_requested_to],
    [.named .azimuth_number, .lit 0, .lit 0],
    some [(.is_escape_requested, .lit 0), (.escape_requested_to, .lit 0)]⟩

/-- The statement text of the `ESCAPE_ACCEPTED` case. -/
def escapeAcceptedSQL : SqlText :=
  .insert ⟨[.azimuth_number, .is_escape_requested, .escape_requested_to, .has_sponsor,
      .sponsor],
    [.named .azimuth_number, .named .is_escape_requested, .named .escape_requested_to,
      .named .has_sponsor, .named .sponsor],
    some [(.is_escape_requested, .named .is_escape_requested),
      (.escape_requested_to, .named .escape_requested_to),
      (.has_sponsor, .named .has_sponsor), (.sponsor, .named .sponsor)]⟩

/-- The statement text of the `LOST_SPONSOR` case. -/
def lostSponsorSQL : SqlText :=
  .insert ⟨[.azimuth_number, .has_sponsor],
    [.named .azimuth_number, .named .has_sponsor],
    some [(.has_sponsor, .named .has_sponsor)]⟩

/-- The statement text of the `BROKE_CONTINUITY` case. -/
def brokeContinuitySQL : SqlText :=
  .insert ⟨[.azimuth_number, .rift],
    [.named .azimuth_number, .named .rift],
    some [(.rift, .named .rift)]⟩

/-- The statement text of the `CHANGED_KEYS` case. -/
def changedKeysSQL : SqlText :=
  .insert ⟨[.azimuth_number, .encryption_key, .auth_key, .crypto_suite_version, .life],
    [.named .azimuth_number, .named .encryption_key, .named .auth_key,
      .named .crypto_suite_version, .named .life],
    some [(.encryption_key, .named .encryption_key), (.auth_key, .named .auth_key),
      (.crypto_suite_version, .named .crypto_suite_version), (.life, .named .life)]⟩

/-- The bound Point of the `ACTIVATED` case, for the decoded number `n`. -/
def activatedPoint (n : AzimuthNumber) : Point :=
  let p : Point := { Number := n, IsActive := true, HasSponsor := true }
  if p.Number < 0x10000 then
    { p with Sponsor := p.Number % 0x100 }
  else
    { p with Sponsor := p.Number % 0x10000 }

/-- The bound Point of the `CHANGED_KEYS` case, for a payload of exactly 128 bytes. -/
def changedKeysPoint (e : AzimuthEventLog) (hlen : e.Data.length = 32 * 4) : Point :=
  { Number := topic_to_azimuth_number e.Topic1,
    EncryptionKey := e.Data.take 32,
    AuthKey := (e.Data.take (32 * 2)).drop 32,
    CryptoSuiteVersion :=
      BigEndian_Uint32 ((e.Data.take (32 * 3)).drop (32 * 3 - 4)) (by simp; omega),
    Life := BigEndian_Uint32 ((e.Data.take (32 * 4)).drop (32 * 4 - 4)) (by simp; omega) }

/-- The method `AzimuthEventLog.Effects`: a `switch` on `Topic0`, the cases tried in
source order; `panic` is the error result. -/
def Effects (K : List Byte → Hash) (e : AzimuthEventLog) : Except Panic Query :=
  if e.Topic0 = SPAWNED K then
    .ok ⟨spawnedSQL, some { Number := topic_to_azimuth_number e.Topic2 }⟩
  else if e.Topic0 = ACTIVATED K then
    .ok ⟨activatedSQL, some (activatedPoint (topic_to_azimuth_number e.Topic1))⟩
  else if e.Topic0 = OWNER_CHANGED K then
    .ok ⟨ownerChangedSQL, some { Number := topic_to_azimuth_number e.Topic1,
                                 OwnerAddress := topic_to_eth_address e.Topic2 }⟩
  else if e.Topic0 = CHANGED_SPAWN_PROXY K then
    .ok ⟨changedSpawnProxySQL, some { Number := topic_to_azimuth_number e.Topic1,
                                      SpawnAddress := topic_to_eth_address e.Topic2 }⟩
  else if e.Topic0 = CHANGED_TRANSFER_PROXY K then
    .ok ⟨changedTransferProxySQL, some { Number := topic_to_azimuth_number e.Topic1,
                                         TransferAddress := topic_to_eth_address e.Topic2 }⟩
  else if e.Topic0 = CHANGED_MANAGEMENT_PROXY K then
    .ok ⟨changedManagementProxySQL, some { Number := topic_to_azimuth_number e.Topic1,
                                           ManagementAddress := topic_to_eth_address e.Topic2 }⟩
  else if e.Topic0 = CHANGED_VOTING_PROXY K then
    .ok ⟨changedVotingProxySQL, some { Number := topic_to_azimuth_number e.Topic1,
                                       VotingAddress := topic_to_eth_address e.Topic2 }⟩
  else if e.Topic0 = ESCAPE_REQUESTED K then
    .ok ⟨escapeRequestedSQL, some { Number := topic_to_azimuth_number e.Topic1,
                                    IsEscapeRequested := true,
                                    EscapeRequestedTo := topic_to_azimuth_number e.Topic2 }⟩
  else if e.Topic0 = ESCAPE_CANCELED K then
    .ok ⟨escapeCanceledSQL, some { Number := topic_to_azimuth_number e.Topic1,
                                   IsEscapeRequested := false,
                                   EscapeRequestedTo := 0 }⟩
  else if e.Topic0 = ESCAPE_ACCEPTED K then
    .ok ⟨escapeAcceptedSQL, some { Number := topic_to_azimuth_number e.Topic1,
                                   IsEscapeRequested := false,
                                   EscapeRequestedTo := 0,
                                   HasSponsor := true,
                                   Sponsor := topic_to_azimuth_number e.Topic2 }⟩
  else if e.Topic0 = LOST_SPONSOR K then
    .ok ⟨lostSponsorSQL, some { Number := topic_to_azimuth_number e.Topic1,
                                HasSponsor := false }⟩
  else if e.Topic0 = BROKE_CONTINUITY K then
    .ok ⟨brokeContinuitySQL, some { Number := topic_to_azimuth_number e.Topic1,
                                    Rift := topic_to_uint32 e.Topic2 }⟩
  else if e.Topic0 = CHANGED_KEYS K then
    if hlen : e.Data.length = 32 * 4 then
      .ok ⟨changedKeysSQL, some (changedKeysPoint e hlen)⟩
    else
      .error (.badDataLength e.Data.length)
  else if e.Topic0 = CHANGED_DNS K then
    .ok {}
  else
    .error .unknownEvent

/-! ## A concrete digest table

The legacy Keccak-256 digests of the fourteen signatures, used to instantiate the
hash parameter on concrete inputs. -/

/-- The Keccak-256 digest of each catalogue signature. -/
def keccakTable : List (String × Hash) :=
  [
    ("Spawned(uint32,uint32)",
      ⟨[178, 211, 166, 231, 163, 57, 245, 200, 255, 150, 38, 94, 47, 3, 160, 16, 168, 84, 16, 112, 243, 116, 74, 36, 112, 144, 150, 68, 21, 8, 21, 70], rfl⟩),
    ("Activated(uint32)",
      ⟨[231, 76, 3, 128, 157, 7, 105, 225, 177, 247, 6, 204, 132, 20, 37, 140, 209, 243, 182, 254, 2, 12, 209, 93, 1, 101, 194, 16, 186, 80, 58, 15], rfl⟩),
    ("OwnerChanged(uint32,address)",
      ⟨[22, 208, 245, 57, 212, 156, 108, 173, 130, 43, 118, 122, 148, 69, 191, 177, 207, 126, 166, 242, 166, 194, 177, 32, 167, 234, 76, 199, 102, 13, 143, 218], rfl⟩),
    ("ChangedSpawnProxy(uint32,address)",
      ⟨[144, 39, 54, 175, 123, 60, 239, 225, 13, 158, 132, 10, 237, 13, 104, 126, 53, 200, 64, 149, 18, 43, 37, 5, 26, 32, 234, 216, 134, 111, 0, 109], rfl⟩),
    ("ChangedTransferProxy(uint32,address)",
      ⟨[207, 227, 105, 183, 25, 126, 127, 12, 240, 103, 147, 174, 36, 114, 169, 177, 53, 131, 254, 203, 237, 47, 120, 223, 161, 77, 31, 16, 121, 107, 132, 124], rfl⟩),
    ("ChangedManagementProxy(uint32,address)",
      ⟨[171, 156, 147, 39, 207, 253, 42, 204, 22, 143, 175, 237, 190, 6, 19, 159, 95, 85, 203, 132, 199, 97, 223, 5, 224, 81, 28, 37, 30, 46, 233, 191], rfl⟩),
    ("ChangedVotingProxy(uint32,address)",
      ⟨[203, 214, 38, 158, 199, 20, 87, 242, 199, 177, 162, 39, 116, 242, 70, 246, 197, 162, 234, 227, 121, 94, 215, 48, 13, 181, 23, 104, 12, 97, 200, 5], rfl⟩),
    ("EscapeRequested(uint32,uint32)",
      ⟨[180, 212, 133, 11, 143, 33, 130, 24, 20, 28, 86, 101, 203, 163, 121, 229, 62, 155, 176, 21, 181, 30, 141, 147, 75, 231, 2, 16, 174, 173, 135, 74], rfl⟩),
    ("EscapeCanceled(uint32,uint32)",
      ⟨[214, 83, 187, 14, 11, 183, 206, 131, 147, 230, 36, 217, 143, 191, 23, 205, 165, 144, 44, 131, 40, 237, 12, 208, 153, 136, 243, 104, 144, 217, 147, 42], rfl⟩),
    ("EscapeAccepted(uint32,uint32)",
      ⟨[126, 68, 124, 155, 27, 218, 75, 23, 75, 7, 150, 225, 0, 191, 127, 52, 235, 243, 109, 187, 127, 230, 101, 73, 11, 27, 252, 230, 36, 106, 157, 165], rfl⟩),
    ("LostSponsor(uint32,uint32)",
      ⟨[215, 112, 79, 154, 37, 25, 61, 189, 11, 12, 180, 168, 9, 254, 255, 255, 167, 241, 157, 26, 174, 136, 23, 167, 19, 70, 193, 148, 68, 130, 16, 213], rfl⟩),
    ("BrokeContinuity(uint32,uint32)",
      ⟨[41, 41, 71, 153, 241, 194, 26, 55, 239, 131, 142, 21, 247, 157, 217, 27, 206, 226, 223, 153, 214, 60, 209, 193, 138, 201, 104, 177, 41, 81, 78, 110], rfl⟩),
    ("ChangedKeys(uint32,bytes32,bytes32,uint32,uint32)",
      ⟨[170, 16, 231, 160, 17, 125, 67, 35, 241, 217, 157, 99, 14, 193, 105, 190, 187, 58, 152, 142, 137, 87, 112, 227, 81, 152, 126, 1, 255, 84, 35, 213], rfl⟩),
    ("ChangedDns(string,string,string)",
      ⟨[250, 253, 4, 173, 225, 218, 174, 46, 31, 219, 15, 193, 204, 106, 137, 159, 212, 36, 6, 62, 213, 201, 33, 32, 230, 126, 7, 48, 83, 185, 72, 152], rfl⟩) ]

/-- A hash function that agrees with Keccak-256 on the catalogue signatures and sends
every other input to the zero hash. -/
def tableKeccak (b : List Byte) : Hash :=
  match keccakTable.find? (fun r => decide (utf8Bytes r.1 = b)) with
  | some r => r.2
  | none => zeroHash

/-- A topic whose low four bytes spell `n` in big-endian order, the rest being zero. -/
def uint32Topic (n : Nat) : Hash :=
  ⟨List.replicate 28 0 ++
    [Fin.ofNat (n / 2 ^ 24), Fin.ofNat (n / 2 ^ 16), Fin.ofNat (n / 2 ^ 8), Fin.ofNat n],
   by simp⟩

/-! ## The Point Store -/

/-- A value bound to a named parameter or stored in a column: booleans and numbers travel as
integers, addresses and keys as byte strings. -/
inductive SqlValue where
  | int (n : Nat)
  | blob (b : List Byte)
deriving DecidableEq

/-- The value a field of the bound struct gives to the named parameter of its `db` tag. -/
def Point.get (p : Point) : Column → SqlValue
  | .azimuth_number => .int p.Number
  | .owner_address => .blob p.OwnerAddress.val
  | .spawn_address => .blob p.SpawnAddress.val
  | .transfer_address => .blob p.TransferAddress.val
  | .management_address => .blob p.ManagementAddress.val
  | .voting_address => .blob p.VotingAddress.val
  | .is_active => .int (if p.IsActive then 1 else 0)
  | .has_sponsor => .int (if p.HasSponsor then 1 else 0)
  | .sponsor => .int p.Sponsor
  | .is_escape_requested => .int (if p.IsEscapeRequested then 1 else 0)
  | .escape_requested_to => .int p.EscapeRequestedTo
  | .rift => .int p.Rift
  | .encryption_key => .blob p.EncryptionKey
  | .auth_key => .blob p.AuthKey
  | .crypto_suite_version => .int p.CryptoSuiteVersion
  | .life => .int p.Life

/-- The integers a boolean column holds. -/
def boolOfInt : Nat → Option Bool
  | 0 => some false
  | 1 => some true
  | _ => none

/-- The byte strings an address column holds. -/
def addressOfBlob (b : List Byte) : Option Address :=
  if h : b.length = 20 then some ⟨b, h⟩ else none

/-- Storing a value in one column of a row; a value of the wrong kind is refused. -/
def Point.set (row : Point) : Column → SqlValue → Option Point
  | .azimuth_number, .int n => some { row with Number := n }
  | .owner_address, .blob b => (addressOfBlob b).map fun a => { row with OwnerAddress := a }
  | .spawn_address, .blob b => (addressOfBlob b).map fun a => { row with SpawnAddress := a }
  | .transfer_address, .blob b =>
      (addressOfBlob b).map fun a => { row with TransferAddress := a }
  | .management_address, .blob b =>
      (addressOfBlob b).map fun a => { row with ManagementAddress := a }
  | .voting_address, .blob b => (addressOfBlob b).map fun a => { row with VotingAddress := a }
  | .is_active, .int n => (boolOfInt n).map fun v => { row with IsActive := v }
  | .has_sponsor, .int n => (boolOfInt n).map fun v => { row with HasSponsor := v }
  | .sponsor, .int n => some { row with Sponsor := n }
  | .is_escape_requested, .int n =>
      (boolOfInt n).map fun v => { row with IsEscapeRequested := v }
  | .escape_requested_to, .int n => some { row with EscapeRequestedTo := n }
  | .rift, .int n => some { row with Rift := n }
  | .encryption_key, .blob b => some { row with EncryptionKey := b }
  | .auth_key, .blob b => some { row with AuthKey := b }
  | .crypto_suite_version, .int n => some { row with CryptoSuiteVersion := n }
  | .life, .int n => some { row with Life := n }
  | _, _ => none

/-- The value of an expression under the bound struct. -/
def SqlExpr.eval (bind : Point) : SqlExpr → SqlValue
  | .named c => bind.get c
  | .lit n => .int n

/-- Carrying out the assignments `c = e, ...` on one row, left to right. -/
def assignAll (bind : Point) : List (Column × SqlExpr) → Point → Option Point
  | [], row => some row
  | (c, e) :: rest, row => (row.set c (e.eval bind)).bind (assignAll bind rest)

/-- The `do update set ...` clause applied to every row whose key is `key`. -/
def updateRows (bind : Point) (sets : List (Column × SqlExpr)) (key : AzimuthNumber) :
    List Point → Option (List Point)
  | [] => some []
  | r :: rs =>
    if r.Number = key then
      match assignAll bind sets r, updateRows bind sets key rs with
      | some r1, some rs1 => some (r1 :: rs1)
      | _, _ => none
    else
      (updateRows bind sets key rs).map fun rs1 => r :: rs1

/-- Modelled from the spec: the `points` table and the engine that executes a statement on it
are outside `events.go`. The spec makes `azimuth_number` the primary key and lets the fields of
a new row default to zero/false: an insert builds the new row from the listed columns, appends
it when no row has its key, and otherwise either runs the `on conflict do update` clause on the
conflicting row or, when the statement has no such clause, fails on the key. -/
def InsertStmt.exec (s : InsertStmt) (bind : Point) (pts : List Point) :
    Except StorageError (List Point) :=
  match assignAll bind (s.columns.zip s.values) {} with
  | none => .error .typeMismatch
  | some row =>
    if pts.all (fun r => decide (r.Number ≠ row.Number)) then
      .ok (pts ++ [row])
    else
      match s.onConflictDoUpdate with
      | none => .error .uniqueConstraint
      | some sets =>
        match updateRows bind sets row.Number pts with
        | none => .error .typeMismatch
        | some pts1 => .ok pts1

/-- The call `db.DB.NamedExec(sql, bind)` on the `points` table. -/
def NamedExec (sql : SqlText) (bind : Option Point) (pts : List Point) :
    Except StorageError (List Point) :=
  match sql, bind with
  | .empty, _ => .ok pts
  | .insert s, some p => s.exec p pts
  | .insert _, none => .error .missingBindValues

/-! ## The Replay Engine -/

/-- The two tables the engine reads and writes. -/
structure DBState where
  event_logs : List AzimuthEventLog := []
  points : List Point := []
deriving DecidableEq

/-- The statement `update event_logs set is_processed=1 where block_number = :block_number
and log_index = :log_index`, bound to `e`. -/
def markProcessed (e : AzimuthEventLog) (logs : List AzimuthEventLog) : List AzimuthEventLog :=
  logs.map fun r =>
    if r.BlockNumber = e.BlockNumber ∧ r.LogIndex = e.LogIndex then
      { r with IsProcessed := true }
    else r

/-- A transaction handle (`*sql.Tx`): the statements issued on the handle, which take effect
on commit and are discarded on rollback. A statement issued on the database handle
(`db.DB.NamedExec`) is not part of it and takes effect at once. -/
structure Tx where
  pending : List Query := []
deriving DecidableEq

/-- The call `db.DB.Begin()`. -/
def Begin (_db : DBState) : Tx := {}

/-- The call `tx.Rollback()`: the statements of the handle are dropped. -/
def Tx.Rollback (_tx : Tx) (db : DBState) : DBState := db

/-- The call `tx.Commit()`: the statements of the handle are carried out. -/
def Tx.Commit (tx : Tx) (db : DBState) : Except StorageError DBState :=
  match tx.pending.foldlM (fun pts q => NamedExec q.SQL q.BindValues pts) db.points with
  | .error err => .error err
  | .ok pts => .ok { db with points := pts }

/-- The step `if effects.SQL != "" then db.DB.NamedExec(effects.SQL, effects.BindValues)` of
the loop of `ApplyEventEffects`. -/
def applyEffect (effects : Query) (pts : List Point) : Except StorageError (List Point) :=
  if effects.SQL ≠ SqlText.empty then
    NamedExec effects.SQL effects.BindValues pts
  else
    .ok pts

/-- The loop `for _, e := range events` of `ApplyEventEffects`. An error carries the panic and
the state of the database at that moment. Both statements of the body are issued on the
database handle, so they take effect at once and `tx` receives nothing; a panic raised inside
`Effects` reaches no `tx.Rollback()`. The update of `event_logs` succeeds on every table, so
the second rollback branch of the source has no counterpart here. -/
def applyEvents (K : List Byte → Hash) (tx : Tx) :
    List AzimuthEventLog → DBState → Except (Panic × DBState) DBState
  | [], db => .ok db
  | e :: rest, db =>
    match Effects K e with
    | .error p => .error (p, db)
    | .ok effects =>
      match applyEffect effects db.points with
      | .error err => .error (.storage err, tx.Rollback db)
      | .ok pts =>
        applyEvents K tx rest
          { event_logs := markProcessed e db.event_logs, points := pts }

/-- The method `DB.ApplyEventEffects`. -/
def ApplyEventEffects (K : List Byte → Hash) (db : DBState) (events : List AzimuthEventLog) :
    Except (Panic × DBState) DBState :=
  let tx := Begin db
  match applyEvents K tx events db with
  | .error r => .error r
  | .ok db1 =>
    match tx.Commit db1 with
    | .error err => .error (.storage err, db1)
    | .ok db2 => .ok db2

/-- The order of `order by block_number, log_index asc`. -/
def logLe (a b : AzimuthEventLog) : Prop :=
  a.BlockNumber < b.BlockNumber ∨ (a.BlockNumber = b.BlockNumber ∧ a.LogIndex ≤ b.LogIndex)

instance : DecidableRel logLe := fun a b => by
  unfold logLe; infer_instance

/-- The rows `where is_processed = 0 order by block_number, log_index asc`. -/
def unprocessed (logs : List AzimuthEventLog) : List AzimuthEventLog :=
  (logs.filter fun e => !e.IsProcessed).insertionSort logLe

/-- The query of `PlayAzimuthLogs`, with its `limit`; the result replaces the contents of
the slice `events`. -/
def selectBatch (limit : Nat) (logs : List AzimuthEventLog) : List AzimuthEventLog :=
  (unprocessed logs).take limit

/-- The loop of `PlayAzimuthLogs` for a batch size `limit`, run for at most `fuel` rounds;
`none` means the rounds ran out. -/
def PlayAzimuthLogsWith (K : List Byte → Hash) (limit : Nat) :
    Nat → DBState → Option (Except (Panic × DBState) DBState)
  | 0, _ => none
  | fuel + 1, db =>
    let events := selectBatch limit db.event_logs
    if events.length = 0 then
      some (.ok db)
    else
      match ApplyEventEffects K db events with
      | .error r => some (.error r)
      | .ok db1 => PlayAzimuthLogsWith K limit fuel db1

/-- The method `DB.PlayAzimuthLogs`: batches of 500. -/
def PlayAzimuthLogs (K : List Byte → Hash) (fuel : Nat) (db : DBState) :
    Option (Except (Panic × DBState) DBState) :=
  PlayAzimuthLogsWith K 500 fuel db

/-! ## Reference notions used in the statements -/

/-- The number a byte string spells in big-endian order. -/
def beValue (b : List Byte) : Nat :=
  b.foldl (fun acc x => acc * 256 + x.val) 0

/-- The bytes `data[i..j)` of a payload. -/
def sliceBytes (data : List Byte) (i j : Nat) : List Byte :=
  (data.take j).drop i

/-- Pairwise distinctness, spelled out with the later fingerprint on the left. -/
def LaterNeEarlier (K : List Byte → Hash) : Prop :=
  (fingerprints K).reverse.Nodup

/-- The number spelled by the low four bytes of a topic, big-endian. -/
def low4 (h : Hash) : Nat :=
  beValue (h.val.drop 28)

/-- The columns assigned by the `on conflict do update set` clause of a statement. -/
def SqlText.setColumns : SqlText → List Column
  | .empty => []
  | .insert s =>
    match s.onConflictDoUpdate with
    | none => []
    | some sets => sets.map Prod.fst

/-! ## Sample inputs -/

/-- A log entry at position `(blk, idx)` with the given fingerprint, topics spelling `t1` and
`t2`, and payload `data`. -/
def mkLog (blk idx : Nat) (topic0 : Hash) (t1 t2 : Nat) (data : List Byte) : AzimuthEventLog :=
  { BlockNumber := blk, LogIndex := idx, Topic0 := topic0, Topic1 := uint32Topic t1,
    Topic2 := uint32Topic t2, Data := data }

/-- A 32-byte EVM word repeating one byte. -/
def constWord (b : Byte) : List Byte := List.replicate 32 b

/-- The payload of a `ChangedKeys` event: two keys, a suite version and a revision number. -/
def keysPayload (enc auth : List Byte) (suite life : Nat) : List Byte :=
  enc ++ auth ++ (uint32Topic suite).val ++ (uint32Topic life).val

/-! ## Reference notions for the Point Store -/

/-- Copying one column of `bind` into `row`. -/
def Point.put (row bind : Point) : Column → Point
  | .azimuth_number => { row with Number := bind.Number }
  | .owner_address => { row with OwnerAddress := bind.OwnerAddress }
  | .spawn_address => { row with SpawnAddress := bind.SpawnAddress }
  | .transfer_address => { row with TransferAddress := bind.TransferAddress }
  | .management_address => { row with ManagementAddress := bind.ManagementAddress }
  | .voting_address => { row with VotingAddress := bind.VotingAddress }
  | .is_active => { row with IsActive := bind.IsActive }
  | .has_sponsor => { row with HasSponsor := bind.HasSponsor }
  | .sponsor => { row with Sponsor := bind.Sponsor }
  | .is_escape_requested => { row with IsEscapeRequested := bind.IsEscapeRequested }
  | .escape_requested_to => { row with EscapeRequestedTo := bind.EscapeRequestedTo }
  | .rift => { row with Rift := bind.Rift }
  | .encryption_key => { row with EncryptionKey := bind.EncryptionKey }
  | .auth_key => { row with AuthKey := bind.AuthKey }
  | .crypto_suite_version => { row with CryptoSuiteVersion := bind.CryptoSuiteVersion }
  | .life => { row with Life := bind.Life }

/-- Copying the listed columns of `bind` into `row`. -/
def putAll (cols : List Column) (bind row : Point) : Point :=
  cols.foldl (fun r c => r.put bind c) row

/-- An upsert keyed by `azimuth_number`: when no row has the key of `p` the row `p` is
appended; otherwise the listed columns of the rows with that key are overwritten by those of
`p`. -/
def upsertRows (cols : List Column) (p : Point) (pts : List Point) : List Point :=
  if pts.all (fun r => decide (r.Number ≠ p.Number)) then
    pts ++ [p]
  else
    pts.map fun r => if r.Number = p.Number then putAll cols p r else r

/-- An effect that behaves as an upsert of its bound Point on the columns of its
`do update set` clause, and never fails. -/
def IsUpsert (q : Query) : Prop :=
  ∃ p, q.BindValues = some p ∧ q.SQL ≠ SqlText.empty
    ∧ Column.azimuth_number ∉ q.SQL.setColumns
    ∧ ∀ pts, applyEffect q pts = .ok (upsertRows q.SQL.setColumns p pts)

/-- Modelled from the spec: the columns each rule of the table of section 4.2 sets, by event
name (`Created` is the event the source calls `Spawned`). -/
def ruleColumns (name : String) : List Column :=
  if name = "Activated" then [.is_active, .has_sponsor, .sponsor]
  else if name = "OwnerChanged" then [.owner_address]
  else if name = "ChangedSpawnProxy" then [.spawn_address]
  else if name = "ChangedTransferProxy" then [.transfer_address]
  else if name = "ChangedManagementProxy" then [.management_address]
  else if name = "ChangedVotingProxy" then [.voting_address]
  else if name = "EscapeRequested" then [.is_escape_requested, .escape_requested_to]
  else if name = "EscapeCanceled" then [.is_escape_requested, .escape_requested_to]
  else if name = "EscapeAccepted" then
    [.is_escape_requested, .escape_requested_to, .has_sponsor, .sponsor]
  else if name = "LostSponsor" then [.has_sponsor]
  else if name = "BrokeContinuity" then [.rift]
  else if name = "ChangedKeys" then
    [.encryption_key, .auth_key, .crypto_suite_version, .life]
  else []

/-- A store used on concrete inputs: identity `0x42`, active with sponsor `7`, and the bare
identity `5`. -/
def sampleStore : List Point :=
  [{ Number := 0x42, IsActive := true, HasSponsor := true, Sponsor := 7 }, { Number := 5 }]

/-- The effect of an OwnerChanged entry for identity `0x42` with owner topic `0x99`. -/
def sampleOwnerEffect : Query :=
  ⟨ownerChangedSQL, some { Number := 0x42, OwnerAddress := topic_to_eth_address (uint32Topic 0x99) }⟩

/-- The store `sampleStore` after the effect `sampleOwnerEffect`. -/
def sampleStoreOwned : List Point :=
  [{ Number := 0x42, IsActive := true, HasSponsor := true, Sponsor := 7,
     OwnerAddress := topic_to_eth_address (uint32Topic 0x99) }, { Number := 5 }]

/-- A Spawned entry at position `(1, idx)` announcing the child identity `5`. -/
def spawnedFive (idx : Nat) : AzimuthEventLog :=
  mkLog 1 idx (SPAWNED tableKeccak) 0 5 []

/-- A table of two unprocessed entries: Activated for identity `0x42`, then an entry whose
topic0 is no catalogued fingerprint. -/
def logsWithUnknown : List AzimuthEventLog :=
  [mkLog 1 0 (ACTIVATED tableKeccak) 0x42 0 [], mkLog 1 1 zeroHash 0 0 []]

/-- A table of two unprocessed Spawned entries for the same child identity `5`. -/
def logsSpawnedTwice : List AzimuthEventLog :=
  [spawnedFive 0, spawnedFive 1]

/-! ## Reference notions for the replay loop -/

/-- One entry applied to the Point Store: its effect is compiled, and executed when its
text is not empty. -/
def applyEntry (K : List Byte → Hash) (pts : List Point) (e : AzimuthEventLog) :
    Except Panic (List Point) :=
  match Effects K e with
  | .error p => .error p
  | .ok q =>
    match applyEffect q pts with
    | .error err => .error (.storage err)
    | .ok pts1 => .ok pts1

/-- The entries of a list applied to the Point Store one by one, in the order of the list. -/
def applyInOrder (K : List Byte → Hash) :
    List AzimuthEventLog → List Point → Except Panic (List Point)
  | [], pts => .ok pts
  | e :: es, pts =>
    match applyEntry K pts e with
    | .error p => .error p
    | .ok pts1 => applyInOrder K es pts1

/-- The position `(block_number, log_index)` of an entry. -/
def logKey (e : AzimuthEventLog) : Nat × Nat :=
  (e.BlockNumber, e.LogIndex)

/-- Modelled from the spec: the schema of `event_logs` is outside `events.go`; section 6 of
the spec makes `(block_number, log_index)` the unique identity of a row. -/
def UniqueKeys (logs : List AzimuthEventLog) : Prop :=
  (logs.map logKey).Nodup

instance (logs : List AzimuthEventLog) : Decidable (UniqueKeys logs) := by
  unfold UniqueKeys; infer_instance

/-- The table after the entries of a batch have been marked processed, one after the other. -/
def markAll (events logs : List AzimuthEventLog) : List AzimuthEventLog :=
  events.foldl (fun l e => markProcessed e l) logs

/-- The strict order `(block_number, log_index)`. -/
def logLt (a b : AzimuthEventLog) : Prop :=
  a.BlockNumber < b.BlockNumber ∨ (a.BlockNumber = b.BlockNumber ∧ a.LogIndex < b.LogIndex)

instance : IsTotal AzimuthEventLog logLe :=
  ⟨fun a b => by unfold logLe; omega⟩

instance : IsTrans AzimuthEventLog logLe :=
  ⟨fun a b c => by unfold logLe; omega⟩

instance : IsAntisymm AzimuthEventLog logLt :=
  ⟨fun a b => by unfold logLt; omega⟩

/-- A database with three unprocessed entries (out of order in the table) and one processed
entry: Spawned, Activated and OwnerChanged for identity `0x42`, after an already processed
Spawned for identity `5`. -/
def sampleReplayDB : DBState :=
  { event_logs :=
      [mkLog 2 0 (OWNER_CHANGED tableKeccak) 0x42 0x99 [],
       mkLog 1 1 (ACTIVATED tableKeccak) 0x42 0 [],
       mkLog 1 0 (SPAWNED tableKeccak) 0 0x42 [],
       { mkLog 0 0 (SPAWNED tableKeccak) 0 5 [] with IsProcessed := true }],
    points := [{ Number := 5 }] }

/-- The Point Store after the replay of `sampleReplayDB`. -/
def sampleReplayPoints : List Point :=
  [{ Number := 5 },
   { Number := 0x42, IsActive := true, HasSponsor := true, Sponsor := 0x42,
     OwnerAddress := topic_to_eth_address (uint32Topic 0x99) }]

/-- Every unprocessed entry of the table has a catalogued topic0 and, when it is a ChangedKeys
entry, a payload of 128 bytes. -/
def WellFormedLogs (K : List Byte → Hash) (logs : List AzimuthEventLog) : Prop :=
  ∀ e ∈ logs, e.IsProcessed = false →
    Catalogued K e.Topic0 ∧ (e.Topic0 = CHANGED_KEYS K → e.Data.length = 128)

instance (K : List Byte → Hash) (logs : List AzimuthEventLog) :
    Decidable (WellFormedLogs K logs) := by
  unfold WellFormedLogs; infer_instance

/-- The outcome is a storage error. -/
def IsStorageError (r : Except (Panic × DBState) DBState) : Prop :=
  ∃ err db1, r = .error (.storage err, db1)

/-- A topic with non-zero high bytes whose last twenty bytes spell `0x99`. -/
def paddedTopic : Hash :=
  ⟨List.replicate 12 0xFF ++ List.replicate 16 0 ++ [0, 0, 0, 0x99], by simp⟩

/-- The address whose last byte is `0x99`. -/
def sampleOwner : Address :=
  ⟨List.replicate 19 0 ++ [0x99], by simp⟩

/-- Modelled from the spec: the schema of `event_logs` is outside `events.go`; section 6 of
the spec makes `(block_number, log_index)` the unique identity of a row, so the insert of a
row at a position already present is refused. -/
def insertEventLog (row : AzimuthEventLog) (logs : List AzimuthEventLog) :
    Except StorageError (List AzimuthEventLog) :=
  if logs.all (fun r => decide (logKey r ≠ logKey row)) then
    .ok (logs ++ [row])
  else
    .error .uniqueConstraint

/-- The method `DB.Save`: the insert binds every column it lists from `e`, `is_processed`
included; `name` is not among them, so the stored row has none. An error of the insert is a
panic. -/
def Save (db : DBState) (e : AzimuthEventLog) : Except Panic DBState :=
  match insertEventLog { e with Name := "" } db.event_logs with
  | .error err => .error (.storage err)
  | .ok logs => .ok { db with event_logs := logs }

/-- An entry handed to `Save` with its `IsProcessed` field already set. -/
def processedLog : AzimuthEventLog :=
  { mkLog 7 0 (ACTIVATED tableKeccak) 0x42 0 [] with IsProcessed := true }

/-- The row of `event_logs` with its `is_processed` flag set and every other column kept. -/
def processedRow (r : AzimuthEventLog) : AzimuthEventLog :=
  { r with IsProcessed := true }

/-! ## Reference notions for order independence -/

/-- The identity number the effect of an entry is keyed by, when the entry compiles to a
statement. -/
def entryTarget (K : List Byte → Hash) (e : AzimuthEventLog) : Option AzimuthNumber :=
  match Effects K e with
  | .ok q => q.BindValues.map fun p => p.Number
  | .error _ => none

/-- `Interleaving A B l`: the list `l` merges `A` and `B`, keeping the order of each. -/
inductive Interleaving :
    List AzimuthEventLog → List AzimuthEventLog → List AzimuthEventLog → Prop where
  | nil : Interleaving [] [] []
  | left (a : AzimuthEventLog) {A B l : List AzimuthEventLog} :
      Interleaving A B l → Interleaving (a :: A) B (a :: l)
  | right (b : AzimuthEventLog) {A B l : List AzimuthEventLog} :
      Interleaving A B l → Interleaving A (b :: B) (b :: l)

/-- Two results of `applyInOrder` agree: both are failures, or both are stores holding the
same rows (a table is a bag of rows, the position of a row in the list carries no meaning).
A failed `applyInOrder` carries no store, so this relation says nothing about the rows a
failed run leaves behind; those are given by `ApplyEventEffects`. -/
def SameOutcome (r1 r2 : Except Panic (List Point)) : Prop :=
  match r1, r2 with
  | .ok s1, .ok s2 => s1.Perm s2
  | .error _, .error _ => True
  | _, _ => False

/-- A statement keyed by the number of `p`: the row `p` is appended when no row has that
number; otherwise the rows with that number are rewritten by `onConflict`, or the statement
fails when there is no conflict clause. -/
def keyedInsert (onConflict : Option (Point → Point)) (p : Point) (s : List Point) :
    Except Panic (List Point) :=
  if s.all (fun r => decide (r.Number ≠ p.Number)) then
    .ok (s ++ [p])
  else
    match onConflict with
    | none => .error (.storage .uniqueConstraint)
    | some f => .ok (s.map fun r => if r.Number = p.Number then f r else r)

/-- Rewriting the rows numbered `k` by `f`. -/
def onKey (k : AzimuthNumber) (f : Point → Point) (r : Point) : Point :=
  if r.Number = k then f r else r

/-- Running a second step on the outcome of a first one. -/
def andThen (r : Except Panic (List Point)) (F : List Point → Except Panic (List Point)) :
    Except Panic (List Point) :=
  match r with
  | .error p => .error p
  | .ok s => F s

/-- Sample entries for two identities: Activated and OwnerChanged for `0x42`, Activated for
`7`. -/
def activated42 : AzimuthEventLog := mkLog 1 0 (ACTIVATED tableKeccak) 0x42 0 []

/-- An OwnerChanged entry for identity `0x42`. -/
def owner42 : AzimuthEventLog := mkLog 2 0 (OWNER_CHANGED tableKeccak) 0x42 0x99 []

/-- An Activated entry for identity `7`. -/
def activated7 : AzimuthEventLog := mkLog 1 1 (ACTIVATED tableKeccak) 7 0 []

/-! ## Decoder lemmas -/

theorem or_shiftLeft_eq_add (hi lo k : Nat) (h : lo < 2 ^ k) :
    lo ||| hi <<< k = hi * 2 ^ k + lo := by
  rw [Nat.lor_comm, Nat.shiftLeft_eq, Nat.mul_comm, ← Nat.mul_add_lt_is_or h]

theorem BigEndian_Uint32_cons (a b c d : Byte) (rest : List Byte)
    (hb : 4 ≤ (a :: b :: c :: d :: rest).length) :
    BigEndian_Uint32 (a :: b :: c :: d :: rest) hb
      = a.val * 2 ^ 24 + b.val * 2 ^ 16 + c.val * 2 ^ 8 + d.val := by
  have ha := a.isLt
  have hb1 := b.isLt
  have hc := c.isLt
  have hd := d.isLt
  simp only [BigEndian_Uint32, List.get]
  rw [or_shiftLeft_eq_add _ _ 8 (by omega), or_shiftLeft_eq_add _ _ 16 (by omega),
    or_shiftLeft_eq_add _ _ 24 (by omega)]
  omega

theorem beValue_four (a b c d : Byte) :
    beValue [a, b, c, d] = a.val * 2 ^ 24 + b.val * 2 ^ 16 + c.val * 2 ^ 8 + d.val := by
  simp only [beValue, List.foldl]
  omega

theorem list_length_four {α : Type} (l : List α) (h : l.length = 4) :
    ∃ a b c d, l = [a, b, c, d] := by
  match l, h with
  | [a, b, c, d], _ => exact ⟨a, b, c, d, rfl⟩

theorem BigEndian_Uint32_eq_beValue (l : List Byte) (h4 : l.length = 4) (hb : 4 ≤ l.length) :
    BigEndian_Uint32 l hb = beValue l := by
  obtain ⟨a, b, c, d, rfl⟩ := list_length_four l h4
  rw [BigEndian_Uint32_cons, beValue_four]

theorem topic_to_uint32_eq (h : Hash) : topic_to_uint32 h = beValue (h.val.drop 28) := by
  unfold topic_to_uint32
  exact BigEndian_Uint32_eq_beValue _ (by simp [h.property]) _

theorem topic_to_azimuth_number_eq (h : Hash) :
    topic_to_azimuth_number h = beValue (h.val.drop 28) :=
  topic_to_uint32_eq h

/-! ## Dispatch lemmas -/

variable {K : List Byte → Hash}

set_option maxRecDepth 8000

theorem later_ne_earlier (hd : FingerprintsDistinct K) : LaterNeEarlier K :=
  List.nodup_reverse.mpr hd

theorem Effects_spawned (e : AzimuthEventLog) (h0 : e.Topic0 = SPAWNED K) :
    Effects K e = .ok ⟨spawnedSQL, some { Number := topic_to_azimuth_number e.Topic2 }⟩ := by
  simp [Effects, h0]

theorem Effects_activated (hd : FingerprintsDistinct K) (e : AzimuthEventLog)
    (h0 : e.Topic0 = ACTIVATED K) :
    Effects K e = .ok ⟨activatedSQL, some (activatedPoint (topic_to_azimuth_number e.Topic1))⟩ := by
  have h1 := later_ne_earlier hd
  simp only [LaterNeEarlier, fingerprints, List.reverse_cons, List.reverse_nil, List.nil_append,
    List.cons_append, List.nodup_cons, List.mem_cons, List.mem_singleton, List.not_mem_nil,
    not_or, or_false, List.nodup_nil, and_true] at h1
  simp [Effects, h0, h1]

theorem Effects_owner_changed (hd : FingerprintsDistinct K) (e : AzimuthEventLog)
    (h0 : e.Topic0 = OWNER_CHANGED K) :
    Effects K e = .ok ⟨ownerChangedSQL, some {
        Number := topic_to_azimuth_number e.Topic1,
        OwnerAddress := topic_to_eth_address e.Topic2 }⟩ := by
  have h1 := later_ne_earlier hd
  simp only [LaterNeEarlier, fingerprints, List.reverse_cons, List.reverse_nil, List.nil_append,
    List.cons_append, List.nodup_cons, List.mem_cons, List.mem_singleton, List.not_mem_nil,
    not_or, or_false, List.nodup_nil, and_true] at h1
  simp [Effects, h0, h1]

theorem Effects_changed_spawn_proxy (hd : FingerprintsDistinct K) (e : AzimuthEventLog)
    (h0 : e.Topic0 = CHANGED_SPAWN_PROXY K) :
    Effects K e = .ok ⟨changedSpawnProxySQL, some {
        Number := topic_to_azimuth_number e.Topic1,
        SpawnAddress := topic_to_eth_address e.Topic2 }⟩ := by
  have h1 := later_ne_earlier hd
  simp only [LaterNeEarlier, fingerprints, List.reverse_cons, List.reverse_nil, List.nil_append,
    List.cons_append, List.nodup_cons, List.mem_cons, List.mem_singleton, List.not_mem_nil,
    not_or, or_false, List.nodup_nil, and_true] at h1
  simp [Effects, h0, h1]

theorem Effects_changed_transfer_proxy (hd : FingerprintsDistinct K) (e : AzimuthEventLog)
    (h0 : e.Topic0 = CHANGED_TRANSFER_PROXY K) :
    Effects K e = .ok ⟨changedTransferProxySQL, some {
        Number := topic_to_azimuth_number e.Topic1,
        TransferAddress := topic_to_eth_address e.Topic2 }⟩ := by
  have h1 := later_ne_earlier hd
  simp only [LaterNeEarlier, fingerprints, List.reverse_cons, List.reverse_nil, List.nil_append,
    List.cons_append, List.nodup_cons, List.mem_cons, List.mem_singleton, List.not_mem_nil,
    not_or, or_false, List.nodup_nil, and_true] at h1
  simp [Effects, h0, h1]

theorem Effects_changed_management_proxy (hd : FingerprintsDistinct K) (e : AzimuthEventLog)
    (h0 : e.Topic0 = CHANGED_MANAGEMENT_PROXY K) :
    Effects K e = .ok ⟨changedManagementProxySQL, some {
        Number := topic_to_azimuth_number e.Topic1,
        ManagementAddress := topic_to_eth_address e.Topic2 }⟩ := by
  have h1 := later_ne_earlier hd
  simp only [LaterNeEarlier, fingerprints, List.reverse_cons, List.reverse_nil, List.nil_append,
    List.cons_append, List.nodup_cons, List.mem_cons, List.mem_singleton, List.not_mem_nil,
    not_or, or_false, List.nodup_nil, and_true] at h1
  simp [Effects, h0, h1]

theorem Effects_changed_voting_proxy (hd : FingerprintsDistinct K) (e : AzimuthEventLog)
    (h0 : e.Topic0 = CHANGED_VOTING_PROXY K) :
    Effects K e = .ok ⟨changedVotingProxySQL, some {
        Number := topic_to_azimuth_number e.Topic1,
        VotingAddress := topic_to_eth_address e.Topic2 }⟩ := by
  have h1 := later_ne_earlier hd
  simp only [LaterNeEarlier, fingerprints, List.reverse_cons, List.reverse_nil, List.nil_append,
    List.cons_append, List.nodup_cons, List.mem_cons, List.mem_singleton, List.not_mem_nil,
    not_or, or_false, List.nodup_nil, and_true] at h1
  simp [Effects, h0, h1]

theorem Effects_escape_requested (hd : FingerprintsDistinct K) (e : AzimuthEventLog)
    (h0 : e.Topic0 = ESCAPE_REQUESTED K) :
    Effects K e = .ok ⟨escapeRequestedSQL, some {
        Number := topic_to_azimuth_number e.Topic1,
        IsEscapeRequested := true,
        EscapeRequestedTo := topic_to_azimuth_number e.Topic2 }⟩ := by
  have h1 := later_ne_earlier hd
  simp only [LaterNeEarlier, fingerprints, List.reverse_cons, List.reverse_nil, List.nil_append,
    List.cons_append, List.nodup_cons, List.mem_cons, List.mem_singleton, List.not_mem_nil,
    not_or, or_false, List.nodup_nil, and_true] at h1
  simp [Effects, h0, h1]

theorem Effects_escape_canceled (hd : FingerprintsDistinct K) (e : AzimuthEventLog)
    (h0 : e.Topic0 = ESCAPE_CANCELED K) :
    Effects K e = .ok ⟨escapeCanceledSQL, some {
        Number := topic_to_azimuth_number e.Topic1,
        IsEscapeRequested := false,
        EscapeRequestedTo := 0 }⟩ := by
  have h1 := later_ne_earlier hd
  simp only [LaterNeEarlier, fingerprints, List.reverse_cons, List.reverse_nil, List.nil_append,
    List.cons_append, List.nodup_cons, List.mem_cons, List.mem_singleton, List.not_mem_nil,
    not_or, or_false, List.nodup_nil, and_true] at h1
  simp [Effects, h0, h1]

theorem Effects_escape_accepted (hd : FingerprintsDistinct K) (e : AzimuthEventLog)
    (h0 : e.Topic0 = ESCAPE_ACCEPTED K) :
    Effects K e = .ok ⟨escapeAcceptedSQL, some {
        Number := topic_to_azimuth_number e.Topic1,
        IsEscapeRequested := false,
        EscapeRequestedTo := 0,
        HasSponsor := true,
        Sponsor := topic_to_azimuth_number e.Topic2 }⟩ := by
  have h1 := later_ne_earlier hd
  simp only [LaterNeEarlier, fingerprints, List.reverse_cons, List.reverse_nil, List.nil_append,
    List.cons_append, List.nodup_cons, List.mem_cons, List.mem_singleton, List.not_mem_nil,
    not_or, or_false, List.nodup_nil, and_true] at h1
  simp [Effects, h0, h1]

theorem Effects_lost_sponsor (hd : FingerprintsDistinct K) (e : AzimuthEventLog)
    (h0 : e.Topic0 = LOST_SPONSOR K) :
    Effects K e = .ok ⟨lostSponsorSQL, some {
        Number := topic_to_azimuth_number e.Topic1,
        HasSponsor := false }⟩ := by
  have h1 := later_ne_earlier hd
  simp only [LaterNeEarlier, fingerprints, List.reverse_cons, List.reverse_nil, List.nil_append,
    List.cons_append, List.nodup_cons, List.mem_cons, List.mem_singleton, List.not_mem_nil,
    not_or, or_false, List.nodup_nil, and_true] at h1
  simp [Effects, h0, h1]

theorem Effects_broke_continuity (hd : FingerprintsDistinct K) (e : AzimuthEventLog)
    (h0 : e.Topic0 = BROKE_CONTINUITY K) :
    Effects K e = .ok ⟨brokeContinuitySQL, some {
        Number := topic_to_azimuth_number e.Topic1,
        Rift := topic_to_uint32 e.Topic2 }⟩ := by
  have h1 := later_ne_earlier hd
  simp only [LaterNeEarlier, fingerprints, List.reverse_cons, List.reverse_nil, List.nil_append,
    List.cons_append, List.nodup_cons, List.mem_cons, List.mem_singleton, List.not_mem_nil,
    not_or, or_false, List.nodup_nil, and_true] at h1
  simp [Effects, h0, h1]

theorem Effects_changed_dns (hd : FingerprintsDistinct K) (e : AzimuthEventLog)
    (h0 : e.Topic0 = CHANGED_DNS K) :
    Effects K e = .ok {} := by
  have h1 := later_ne_earlier hd
  simp only [LaterNeEarlier, fingerprints, List.reverse_cons, List.reverse_nil, List.nil_append,
    List.cons_append, List.nodup_cons, List.mem_cons, List.mem_singleton, List.not_mem_nil,
    not_or, or_false, List.nodup_nil, and_true] at h1
  simp [Effects, h0, h1]

theorem Effects_changed_keys (hd : FingerprintsDistinct K) (e : AzimuthEventLog)
    (h0 : e.Topic0 = CHANGED_KEYS K) (hlen : e.Data.length = 32 * 4) :
    Effects K e = .ok ⟨changedKeysSQL, some (changedKeysPoint e hlen)⟩ := by
  have h1 := later_ne_earlier hd
  simp only [LaterNeEarlier, fingerprints, List.reverse_cons, List.reverse_nil, List.nil_append,
    List.cons_append, List.nodup_cons, List.mem_cons, List.mem_singleton, List.not_mem_nil,
    not_or, or_false, List.nodup_nil, and_true] at h1
  simp [Effects, h0, h1, hlen]

theorem Effects_changed_keys_bad (hd : FingerprintsDistinct K) (e : AzimuthEventLog)
    (h0 : e.Topic0 = CHANGED_KEYS K) (hlen : e.Data.length ≠ 32 * 4) :
    Effects K e = .error (.badDataLength e.Data.length) := by
  have h1 := later_ne_earlier hd
  simp only [LaterNeEarlier, fingerprints, List.reverse_cons, List.reverse_nil, List.nil_append,
    List.cons_append, List.nodup_cons, List.mem_cons, List.mem_singleton, List.not_mem_nil,
    not_or, or_false, List.nodup_nil, and_true] at h1
  simp [Effects, h0, h1, hlen]

theorem tableKeccak_distinct : FingerprintsDistinct tableKeccak := by decide

/-! ## The Effect Compiler: decoding rules -/

/-- C1: for an entry whose topic0 is the Activated fingerprint, with `n` the big-endian value
of the low four bytes of topic1, `Effects` returns the Activated statement bound to
`azimuth_number = n`, `is_active = true`, `has_sponsor = true` and `sponsor = n mod 0x100` when
`n` is a star (`0x100 ≤ n < 0x10000`), `n mod 0x10000` otherwise. -/
theorem activated_sponsor_derivation (hd : FingerprintsDistinct K) (e : AzimuthEventLog)
    (h0 : e.Topic0 = ACTIVATED K) :
    Effects K e = .ok ⟨activatedSQL, some {
      Number := low4 e.Topic1,
      IsActive := true,
      HasSponsor := true,
      Sponsor := if 0x100 ≤ low4 e.Topic1 ∧ low4 e.Topic1 < 0x10000 then low4 e.Topic1 % 0x100
                 else low4 e.Topic1 % 0x10000 }⟩ := by
  rw [Effects_activated hd e h0, topic_to_azimuth_number_eq]
  show Except.ok _ = Except.ok _
  congr 2
  simp only [activatedPoint, low4]
  by_cases h1 : beValue (e.Topic1.val.drop 28) < 0x10000
  · by_cases h2 : 0x100 ≤ beValue (e.Topic1.val.drop 28)
    · simp [h1, h2]
    · have h3 : beValue (e.Topic1.val.drop 28) % 0x100 = beValue (e.Topic1.val.drop 28) % 0x10000 := by
        omega
      simp [h1, h2, h3]
  · simp [h1]

/-- Witness of C1 on the two inputs of the spec: identity `0x42` gets sponsor `0x42`, identity
`0x00020005` gets sponsor `0x0005`. -/
theorem activated_sponsor_derivation_witness :
    Effects tableKeccak (mkLog 1 0 (ACTIVATED tableKeccak) 0x42 0 [])
        = .ok ⟨activatedSQL, some {
            Number := 0x42, IsActive := true, HasSponsor := true, Sponsor := 0x42 }⟩
    ∧ Effects tableKeccak (mkLog 1 1 (ACTIVATED tableKeccak) 0x00020005 0 [])
        = .ok ⟨activatedSQL, some {
            Number := 0x00020005, IsActive := true, HasSponsor := true, Sponsor := 0x0005 }⟩ :=
  ⟨(activated_sponsor_derivation tableKeccak_distinct _ rfl).trans (by decide),
   (activated_sponsor_derivation tableKeccak_distinct _ rfl).trans (by decide)⟩

/-- C2: for an entry whose topic0 is the ChangedKeys fingerprint and whose data is exactly 128
bytes, `Effects` binds `azimuth_number` to the low four bytes of topic1, `encryption_key` to
`data[0..32)`, `auth_key` to `data[32..64)`, `crypto_suite_version` to the big-endian value of
`data[92..96)` and `life` to the big-endian value of `data[124..128)`, and the statement sets
exactly these four columns. -/
theorem changed_keys_decoding (hd : FingerprintsDistinct K) (e : AzimuthEventLog)
    (h0 : e.Topic0 = CHANGED_KEYS K) (hlen : e.Data.length = 128) :
    Effects K e = .ok ⟨changedKeysSQL, some {
      Number := low4 e.Topic1,
      EncryptionKey := sliceBytes e.Data 0 32,
      AuthKey := sliceBytes e.Data 32 64,
      CryptoSuiteVersion := beValue (sliceBytes e.Data 92 96),
      Life := beValue (sliceBytes e.Data 124 128) }⟩
    ∧ changedKeysSQL.setColumns
        = [Column.encryption_key, Column.auth_key, Column.crypto_suite_version, Column.life] := by
  refine ⟨?_, rfl⟩
  rw [Effects_changed_keys hd e h0 hlen]
  show Except.ok _ = Except.ok _
  congr 2
  simp only [changedKeysPoint, low4, sliceBytes, topic_to_azimuth_number_eq, List.drop_zero]
  rw [BigEndian_Uint32_eq_beValue _ (by simp; omega), BigEndian_Uint32_eq_beValue _ (by simp; omega)]

/-- Witness of C2 on the input of the spec: the payload `(E, A, 3, 7)` gives
`encryption_key = E`, `auth_key = A`, `crypto_suite_version = 3`, `life = 7`. -/
theorem changed_keys_decoding_witness :
    Effects tableKeccak
        (mkLog 1 0 (CHANGED_KEYS tableKeccak) 0x42 0
          (keysPayload (constWord 0xEE) (constWord 0xAA) 3 7))
      = .ok ⟨changedKeysSQL, some {
          Number := 0x42, EncryptionKey := constWord 0xEE, AuthKey := constWord 0xAA,
          CryptoSuiteVersion := 3, Life := 7 }⟩ :=
  (changed_keys_decoding tableKeccak_distinct _ rfl (by decide)).1.trans (by decide)

/-- C3: for an entry whose topic0 is the ChangedKeys fingerprint, `Effects` fails with the
malformed-payload panic exactly when the data is not 128 bytes long, and in that case it
returns no effect at all. -/
theorem changed_keys_length_check (hd : FingerprintsDistinct K) (e : AzimuthEventLog)
    (h0 : e.Topic0 = CHANGED_KEYS K) :
    ((∃ n, Effects K e = .error (.badDataLength n)) ↔ e.Data.length ≠ 128)
    ∧ (e.Data.length ≠ 128 →
        Effects K e = .error (.badDataLength e.Data.length) ∧ ∀ q, Effects K e ≠ .ok q) := by
  by_cases hlen : e.Data.length = 128
  · rw [Effects_changed_keys hd e h0 hlen]
    simp [hlen]
  · rw [Effects_changed_keys_bad hd e h0 hlen]
    simp [hlen]

/-- Witness of C3 on the input of the spec: a payload of 100 bytes is refused. -/
theorem changed_keys_length_check_witness :
    Effects tableKeccak (mkLog 1 0 (CHANGED_KEYS tableKeccak) 0x42 0 (List.replicate 100 0))
      = .error (.badDataLength 100) :=
  ((changed_keys_length_check tableKeccak_distinct
      (mkLog 1 0 (CHANGED_KEYS tableKeccak) 0x42 0 (List.replicate 100 0)) rfl).2
    (by decide)).1

theorem Effects_unknown (K : List Byte → Hash) (e : AzimuthEventLog)
    (h : ¬ Catalogued K e.Topic0) : Effects K e = .error .unknownEvent := by
  simp only [Catalogued, EVENT_NAMES, List.map_cons, List.map_nil, List.mem_cons,
    List.mem_singleton, List.not_mem_nil, not_or, or_false] at h
  simp only [Effects, h, ↓reduceIte]

theorem Effects_total (K : List Byte → Hash) (e : AzimuthEventLog)
    (h : Catalogued K e.Topic0) (hlen : e.Topic0 = CHANGED_KEYS K → e.Data.length = 32 * 4) :
    ∃ q, Effects K e = .ok q := by
  simp only [Catalogued, EVENT_NAMES, List.map_cons, List.map_nil, List.mem_cons,
    List.mem_singleton, List.not_mem_nil, or_false] at h
  unfold Effects
  by_cases c0 : e.Topic0 = SPAWNED K
  · rw [if_pos c0]; exact ⟨_, rfl⟩
  rw [if_neg c0]
  by_cases c1 : e.Topic0 = ACTIVATED K
  · rw [if_pos c1]; exact ⟨_, rfl⟩
  rw [if_neg c1]
  by_cases c2 : e.Topic0 = OWNER_CHANGED K
  · rw [if_pos c2]; exact ⟨_, rfl⟩
  rw [if_neg c2]
  by_cases c3 : e.Topic0 = CHANGED_SPAWN_PROXY K
  · rw [if_pos c3]; exact ⟨_, rfl⟩
  rw [if_neg c3]
  by_cases c4 : e.Topic0 = CHANGED_TRANSFER_PROXY K
  · rw [if_pos c4]; exact ⟨_, rfl⟩
  rw [if_neg c4]
  by_cases c5 : e.Topic0 = CHANGED_MANAGEMENT_PROXY K
  · rw [if_pos c5]; exact ⟨_, rfl⟩
  rw [if_neg c5]
  by_cases c6 : e.Topic0 = CHANGED_VOTING_PROXY K
  · rw [if_pos c6]; exact ⟨_, rfl⟩
  rw [if_neg c6]
  by_cases c7 : e.Topic0 = ESCAPE_REQUESTED K
  · rw [if_pos c7]; exact ⟨_, rfl⟩
  rw [if_neg c7]
  by_cases c8 : e.Topic0 = ESCAPE_CANCELED K
  · rw [if_pos c8]; exact ⟨_, rfl⟩
  rw [if_neg c8]
  by_cases c9 : e.Topic0 = ESCAPE_ACCEPTED K
  · rw [if_pos c9]; exact ⟨_, rfl⟩
  rw [if_neg c9]
  by_cases c10 : e.Topic0 = LOST_SPONSOR K
  · rw [if_pos c10]; exact ⟨_, rfl⟩
  rw [if_neg c10]
  by_cases c11 : e.Topic0 = BROKE_CONTINUITY K
  · rw [if_pos c11]; exact ⟨_, rfl⟩
  rw [if_neg c11]
  by_cases c12 : e.Topic0 = CHANGED_KEYS K
  · rw [if_pos c12, dif_pos (hlen c12)]; exact ⟨_, rfl⟩
  rw [if_neg c12]
  by_cases c13 : e.Topic0 = CHANGED_DNS K
  · rw [if_pos c13]; exact ⟨_, rfl⟩
  rw [if_neg c13]
  exfalso
  tauto

/-- C4: an entry whose topic0 is none of the fourteen catalogued fingerprints makes `Effects`
fail with the unknown-event panic, no effect being returned; an entry whose topic0 is a
catalogued fingerprint other than ChangedKeys makes `Effects` return an effect, whatever
topic1, topic2 and data are. -/
theorem unknown_event_rejected (K : List Byte → Hash) (e : AzimuthEventLog) :
    (¬ Catalogued K e.Topic0 →
        Effects K e = .error .unknownEvent ∧ ∀ q, Effects K e ≠ .ok q)
    ∧ (Catalogued K e.Topic0 → e.Topic0 ≠ CHANGED_KEYS K → ∃ q, Effects K e = .ok q) := by
  constructor
  · intro h
    rw [Effects_unknown K e h]
    simp
  · intro h hk
    exact Effects_total K e h (fun h0 => absurd h0 hk)

/-- Witness of C4: the zero topic is not catalogued and is refused; an OwnerChanged entry
compiles to an effect. -/
theorem unknown_event_rejected_witness :
    Effects tableKeccak (mkLog 1 0 zeroHash 0x42 0 []) = .error .unknownEvent
    ∧ ∃ q, Effects tableKeccak (mkLog 1 0 (OWNER_CHANGED tableKeccak) 0x42 7 []) = .ok q :=
  ⟨((unknown_event_rejected tableKeccak (mkLog 1 0 zeroHash 0x42 0 [])).1 (by decide)).1,
   (unknown_event_rejected tableKeccak (mkLog 1 0 (OWNER_CHANGED tableKeccak) 0x42 7 [])).2
     (by decide) (by decide)⟩

/-! ## The Point Store: statements as upserts -/

theorem boolOfInt_ite (b : Bool) : boolOfInt (if b then 1 else 0) = some b := by
  cases b <;> rfl

theorem addressOfBlob_val (a : Address) : addressOfBlob a.val = some a := by
  simp [addressOfBlob, a.property]

theorem set_get_eq_put (row bind : Point) (c : Column) :
    row.set c (bind.get c) = some (row.put bind c) := by
  cases c <;> simp [Point.set, Point.get, Point.put, boolOfInt_ite, addressOfBlob_val]

theorem put_get_of_ne (row bind : Point) (c d : Column) (h : d ≠ c) :
    (row.put bind c).get d = row.get d := by
  cases c <;> cases d <;> first | exact absurd rfl h | rfl

theorem put_self (p : Point) (c : Column) : p.put p c = p := by
  cases c <;> rfl

theorem put_put (row bind : Point) (c : Column) : (row.put bind c).put bind c = row.put bind c := by
  cases c <;> rfl

theorem put_comm (row bind : Point) (c d : Column) :
    (row.put bind c).put bind d = (row.put bind d).put bind c := by
  cases c <;> cases d <;> rfl

theorem put_Number_of_ne (row bind : Point) (c : Column) (h : c ≠ Column.azimuth_number) :
    (row.put bind c).Number = row.Number := by
  cases c <;> first | exact absurd rfl h | rfl

theorem putAll_get_of_not_mem (cols : List Column) (bind row : Point) (d : Column)
    (h : d ∉ cols) : (putAll cols bind row).get d = row.get d := by
  induction cols generalizing row with
  | nil => rfl
  | cons c cs ih =>
    simp only [List.mem_cons, not_or] at h
    simp only [putAll, List.foldl_cons]
    have := ih (row.put bind c) h.2
    simp only [putAll] at this
    rw [this, put_get_of_ne _ _ _ _ h.1]

theorem putAll_Number (cols : List Column) (bind row : Point)
    (h : Column.azimuth_number ∉ cols) : (putAll cols bind row).Number = row.Number := by
  induction cols generalizing row with
  | nil => rfl
  | cons c cs ih =>
    simp only [List.mem_cons, not_or] at h
    simp only [putAll, List.foldl_cons]
    have := ih (row.put bind c) h.2
    simp only [putAll] at this
    rw [this, put_Number_of_ne _ _ _ (Ne.symm h.1)]

theorem putAll_self (cols : List Column) (p : Point) : putAll cols p p = p := by
  induction cols with
  | nil => rfl
  | cons c cs ih => simpa [putAll, put_self] using ih

theorem updateRows_eq_map (bind : Point) (sets : List (Column × SqlExpr)) (key : AzimuthNumber)
    (f : Point → Point) (hf : ∀ r, assignAll bind sets r = some (f r)) (pts : List Point) :
    updateRows bind sets key pts
      = some (pts.map fun r => if r.Number = key then f r else r) := by
  induction pts with
  | nil => rfl
  | cons r rs ih =>
    by_cases hk : r.Number = key
    · simp [updateRows, hk, hf, ih]
    · simp [updateRows, hk, ih]

theorem insert_isUpsert (s : InsertStmt) (sets : List (Column × SqlExpr)) (p : Point)
    (hs : s.onConflictDoUpdate = some sets)
    (hnew : assignAll p (s.columns.zip s.values) {} = some p)
    (hupd : ∀ r, assignAll p sets r = some (putAll (sets.map Prod.fst) p r))
    (hkey : Column.azimuth_number ∉ sets.map Prod.fst) :
    IsUpsert ⟨.insert s, some p⟩ := by
  refine ⟨p, rfl, by simp, ?_, ?_⟩
  · simpa [SqlText.setColumns, hs] using hkey
  · intro pts
    simp only [applyEffect, NamedExec, InsertStmt.exec, hnew, hs, upsertRows, SqlText.setColumns,
      updateRows_eq_map p sets p.Number _ hupd pts]
    rw [apply_ite Except.ok, if_pos (by simp)]

theorem spawned_apply (n : Nat) (pts : List Point) :
    applyEffect ⟨spawnedSQL, some { Number := n }⟩ pts
      = if pts.all (fun r => decide (r.Number ≠ n)) then .ok (pts ++ [{ Number := n }])
        else .error .uniqueConstraint := by
  simp [applyEffect, spawnedSQL, NamedExec, InsertStmt.exec, assignAll, Point.set, SqlExpr.eval,
    Point.get]

theorem empty_apply (pts : List Point) : applyEffect {} pts = .ok pts := by
  simp [applyEffect]

theorem activatedPoint_eq (n : Nat) :
    activatedPoint n = { Number := n, IsActive := true, HasSponsor := true,
                         Sponsor := if n < 0x10000 then n % 0x100 else n % 0x10000 } := by
  by_cases h : n < 0x10000 <;> simp [activatedPoint, h]

theorem activated_isUpsert (n s : Nat) :
    IsUpsert ⟨activatedSQL, some { Number := n, IsActive := true, HasSponsor := true, Sponsor := s }⟩ := by
  refine insert_isUpsert _ _ _ rfl ?_ ?_ (by decide)
  · simp [assignAll, Point.set, SqlExpr.eval, Point.get, boolOfInt, addressOfBlob_val]
  · intro r
    simp [assignAll, Point.set, SqlExpr.eval, Point.get, boolOfInt, addressOfBlob_val, putAll,
      Point.put]

theorem ownerChanged_isUpsert (n : Nat) (a : Address) :
    IsUpsert ⟨ownerChangedSQL, some { Number := n, OwnerAddress := a }⟩ := by
  refine insert_isUpsert _ _ _ rfl ?_ ?_ (by decide)
  · simp [assignAll, Point.set, SqlExpr.eval, Point.get, boolOfInt, addressOfBlob_val]
  · intro r
    simp [assignAll, Point.set, SqlExpr.eval, Point.get, boolOfInt, addressOfBlob_val, putAll,
      Point.put]

theorem changedSpawnProxy_isUpsert (n : Nat) (a : Address) :
    IsUpsert ⟨changedSpawnProxySQL, some { Number := n, SpawnAddress := a }⟩ := by
  refine insert_isUpsert _ _ _ rfl ?_ ?_ (by decide)
  · simp [assignAll, Point.set, SqlExpr.eval, Point.get, boolOfInt, addressOfBlob_val]
  · intro r
    simp [assignAll, Point.set, SqlExpr.eval, Point.get, boolOfInt, addressOfBlob_val, putAll,
      Point.put]

theorem changedTransferProxy_isUpsert (n : Nat) (a : Address) :
    IsUpsert ⟨changedTransferProxySQL, some { Number := n, TransferAddress := a }⟩ := by
  refine insert_isUpsert _ _ _ rfl ?_ ?_ (by decide)
  · simp [assignAll, Point.set, SqlExpr.eval, Point.get, boolOfInt, addressOfBlob_val]
  · intro r
    simp [assignAll, Point.set, SqlExpr.eval, Point.get, boolOfInt, addressOfBlob_val, putAll,
      Point.put]

theorem changedManagementProxy_isUpsert (n : Nat) (a : Address) :
    IsUpsert ⟨changedManagementProxySQL, some { Number := n, ManagementAddress := a }⟩ := by
  refine insert_isUpsert _ _ _ rfl ?_ ?_ (by decide)
  · simp [assignAll, Point.set, SqlExpr.eval, Point.get, boolOfInt, addressOfBlob_val]
  · intro r
    simp [assignAll, Point.set, SqlExpr.eval, Point.get, boolOfInt, addressOfBlob_val, putAll,
      Point.put]

theorem changedVotingProxy_isUpsert (n : Nat) (a : Address) :
    IsUpsert ⟨changedVotingProxySQL, some { Number := n, VotingAddress := a }⟩ := by
  refine insert_isUpsert _ _ _ rfl ?_ ?_ (by decide)
  · simp [assignAll, Point.set, SqlExpr.eval, Point.get, boolOfInt, addressOfBlob_val]
  · intro r
    simp [assignAll, Point.set, SqlExpr.eval, Point.get, boolOfInt, addressOfBlob_val, putAll,
      Point.put]

theorem escapeRequested_isUpsert (n t : Nat) :
    IsUpsert ⟨escapeRequestedSQL, some { Number := n, IsEscapeRequested := true, EscapeRequestedTo := t }⟩ := by
  refine insert_isUpsert _ _ _ rfl ?_ ?_ (by decide)
  · simp [assignAll, Point.set, SqlExpr.eval, Point.get, boolOfInt, addressOfBlob_val]
  · intro r
    simp [assignAll, Point.set, SqlExpr.eval, Point.get, boolOfInt, addressOfBlob_val, putAll,
      Point.put]

theorem escapeCanceled_isUpsert (n : Nat) :
    IsUpsert ⟨escapeCanceledSQL, some { Number := n, IsEscapeRequested := false, EscapeRequestedTo := 0 }⟩ := by
  refine insert_isUpsert _ _ _ rfl ?_ ?_ (by decide)
  · simp [assignAll, Point.set, SqlExpr.eval, Point.get, boolOfInt, addressOfBlob_val]
  · intro r
    simp [assignAll, Point.set, SqlExpr.eval, Point.get, boolOfInt, addressOfBlob_val, putAll,
      Point.put]

theorem escapeAccepted_isUpsert (n t : Nat) :
    IsUpsert ⟨escapeAcceptedSQL, some { Number := n, IsEscapeRequested := false, EscapeRequestedTo := 0, HasSponsor := true, Sponsor := t }⟩ := by
  refine insert_isUpsert _ _ _ rfl ?_ ?_ (by decide)
  · simp [assignAll, Point.set, SqlExpr.eval, Point.get, boolOfInt, addressOfBlob_val]
  · intro r
    simp [assignAll, Point.set, SqlExpr.eval, Point.get, boolOfInt, addressOfBlob_val, putAll,
      Point.put]

theorem lostSponsor_isUpsert (n : Nat) :
    IsUpsert ⟨lostSponsorSQL, some { Number := n, HasSponsor := false }⟩ := by
  refine insert_isUpsert _ _ _ rfl ?_ ?_ (by decide)
  · simp [assignAll, Point.set, SqlExpr.eval, Point.get, boolOfInt, addressOfBlob_val]
  · intro r
    simp [assignAll, Point.set, SqlExpr.eval, Point.get, boolOfInt, addressOfBlob_val, putAll,
      Point.put]

theorem brokeContinuity_isUpsert (n t : Nat) :
    IsUpsert ⟨brokeContinuitySQL, some { Number := n, Rift := t }⟩ := by
  refine insert_isUpsert _ _ _ rfl ?_ ?_ (by decide)
  · simp [assignAll, Point.set, SqlExpr.eval, Point.get, boolOfInt, addressOfBlob_val]
  · intro r
    simp [assignAll, Point.set, SqlExpr.eval, Point.get, boolOfInt, addressOfBlob_val, putAll,
      Point.put]

theorem changedKeys_isUpsert (n : Nat) (ek ak : List Byte) (v l : Nat) :
    IsUpsert ⟨changedKeysSQL, some { Number := n, EncryptionKey := ek, AuthKey := ak, CryptoSuiteVersion := v, Life := l }⟩ := by
  refine insert_isUpsert _ _ _ rfl ?_ ?_ (by decide)
  · simp [assignAll, Point.set, SqlExpr.eval, Point.get, boolOfInt, addressOfBlob_val]
  · intro r
    simp [assignAll, Point.set, SqlExpr.eval, Point.get, boolOfInt, addressOfBlob_val, putAll,
      Point.put]

theorem upsertRows_of_mem (cols : List Column) (p : Point) (pts : List Point)
    (h : ∃ r ∈ pts, r.Number = p.Number) :
    upsertRows cols p pts
      = pts.map fun r => if r.Number = p.Number then putAll cols p r else r := by
  obtain ⟨r, hr, hk⟩ := h
  have : ¬ (pts.all fun r => decide (r.Number ≠ p.Number)) = true := by
    simp only [List.all_eq_true, decide_eq_true_eq, not_forall]
    exact ⟨r, hr, fun hne => hne hk⟩
  unfold upsertRows
  rw [if_neg this]

theorem IsUpsert.frame {q : Query} (h : IsUpsert q) (pts : List Point)
    (hrow : ∀ p ∈ q.BindValues, ∃ r ∈ pts, r.Number = p.Number) :
    ∃ g : Point → Point, applyEffect q pts = .ok (pts.map g)
      ∧ ∀ r, ((∀ p ∈ q.BindValues, r.Number ≠ p.Number) → g r = r)
          ∧ ∀ c, c ∉ q.SQL.setColumns → (g r).get c = r.get c := by
  obtain ⟨p, hp, _, _, happ⟩ := h
  refine ⟨fun r => if r.Number = p.Number then putAll q.SQL.setColumns p r else r, ?_, ?_⟩
  · rw [happ, upsertRows_of_mem _ _ _ (hrow p (by simp [hp]))]
  · intro r
    constructor
    · intro hne
      have := hne p (by simp [hp])
      simp [this]
    · intro c hc
      by_cases hk : r.Number = p.Number
      · simp only [hk, if_true]
        exact putAll_get_of_not_mem _ _ _ _ hc
      · simp [hk]

theorem boolInt_inj (x y : Bool) (h : (if x then (1 : Nat) else 0) = if y then 1 else 0) :
    x = y := by
  cases x <;> cases y <;> simp at h ⊢

theorem Point.ext_get {a b : Point} (h : ∀ c, a.get c = b.get c) : a = b := by
  have h0 := h .azimuth_number
  have h1 := h .owner_address
  have h2 := h .spawn_address
  have h3 := h .transfer_address
  have h4 := h .management_address
  have h5 := h .voting_address
  have h6 := h .is_active
  have h7 := h .has_sponsor
  have h8 := h .sponsor
  have h9 := h .is_escape_requested
  have h10 := h .escape_requested_to
  have h11 := h .rift
  have h12 := h .encryption_key
  have h13 := h .auth_key
  have h14 := h .crypto_suite_version
  have h15 := h .life
  simp only [Point.get, SqlValue.int.injEq, SqlValue.blob.injEq] at h0 h1 h2 h3 h4 h5 h6 h7 h8 h9 h10 h11 h12 h13 h14 h15
  cases a
  cases b
  simp only [Point.mk.injEq]
  simp only at h0 h1 h2 h3 h4 h5 h6 h7 h8 h9 h10 h11 h12 h13 h14 h15
  exact ⟨h0, Subtype.ext h1, Subtype.ext h2, Subtype.ext h3, Subtype.ext h4, Subtype.ext h5,
    boolInt_inj _ _ h6, boolInt_inj _ _ h7, h8, boolInt_inj _ _ h9, h10, h11, h12, h13, h14, h15⟩

theorem put_get (row bind : Point) (c d : Column) :
    (row.put bind c).get d = if d = c then bind.get d else row.get d := by
  cases c <;> cases d <;> simp [Point.put, Point.get]

theorem putAll_get (cols : List Column) (bind row : Point) (d : Column) :
    (putAll cols bind row).get d = if d ∈ cols then bind.get d else row.get d := by
  induction cols generalizing row with
  | nil => simp [putAll]
  | cons c cs ih =>
    simp only [putAll, List.foldl_cons]
    have := ih (row.put bind c)
    simp only [putAll] at this
    rw [this, put_get]
    by_cases h1 : d ∈ cs <;> by_cases h2 : d = c <;> simp [h1, h2]

theorem putAll_idem (cols : List Column) (bind row : Point) :
    putAll cols bind (putAll cols bind row) = putAll cols bind row := by
  apply Point.ext_get
  intro d
  simp only [putAll_get]
  split <;> rfl

theorem upsertRows_idem (cols : List Column) (p : Point) (pts : List Point)
    (hkey : Column.azimuth_number ∉ cols) :
    upsertRows cols p (upsertRows cols p pts) = upsertRows cols p pts := by
  by_cases hall : (pts.all fun r => decide (r.Number ≠ p.Number)) = true
  · have h1 : upsertRows cols p pts = pts ++ [p] := by
      unfold upsertRows; rw [if_pos hall]
    rw [h1, upsertRows_of_mem _ _ _ ⟨p, by simp, rfl⟩]
    simp only [List.map_append, List.map_cons, List.map_nil, if_true, putAll_self]
    congr 1
    have hid : ∀ r ∈ pts, (fun r => if r.Number = p.Number then putAll cols p r else r) r
        = id r := by
      intro r hr
      have := (List.all_eq_true.mp hall) r hr
      simp only [decide_eq_true_eq] at this
      simp [this]
    rw [List.map_congr_left hid, List.map_id]
  · have h1 : upsertRows cols p pts
        = pts.map fun r => if r.Number = p.Number then putAll cols p r else r := by
      unfold upsertRows; rw [if_neg hall]
    have hex : ∃ r ∈ pts, r.Number = p.Number := by
      simp only [List.all_eq_true, decide_eq_true_eq, not_forall] at hall
      obtain ⟨r, hr, hk⟩ := hall
      exact ⟨r, hr, not_not.mp hk⟩
    have hex2 : ∃ r ∈ upsertRows cols p pts, r.Number = p.Number := by
      obtain ⟨r, hr, hk⟩ := hex
      refine ⟨putAll cols p r, ?_, ?_⟩
      · rw [h1]
        exact List.mem_map.mpr ⟨r, hr, by simp [hk]⟩
      · rw [putAll_Number _ _ _ hkey, hk]
    rw [upsertRows_of_mem _ _ _ hex2, h1, List.map_map]
    apply List.map_congr_left
    intro r _
    simp only [Function.comp]
    by_cases hk : r.Number = p.Number
    · simp [hk, putAll_Number _ _ _ hkey, putAll_idem]
    · simp [hk]

theorem IsUpsert.idempotent {q : Query} (h : IsUpsert q) (pts : List Point) :
    ∃ pts1, applyEffect q pts = .ok pts1 ∧ applyEffect q pts1 = .ok pts1 := by
  obtain ⟨p, _, _, hkey, happ⟩ := h
  exact ⟨_, happ pts, by rw [happ, upsertRows_idem _ _ _ hkey]⟩

theorem Effects_shape (K : List Byte → Hash) (e : AzimuthEventLog) (q : Query)
    (hq : Effects K e = .ok q) :
    q = {} ∨ (∃ n, q = ⟨spawnedSQL, some { Number := n }⟩) ∨ IsUpsert q := by
  unfold Effects at hq
  by_cases c0 : e.Topic0 = SPAWNED K
  · rw [if_pos c0] at hq
    cases hq
    exact Or.inr (Or.inl ⟨_, rfl⟩)
  rw [if_neg c0] at hq
  by_cases c1 : e.Topic0 = ACTIVATED K
  · rw [if_pos c1, activatedPoint_eq] at hq
    cases hq
    exact Or.inr (Or.inr (activated_isUpsert _ _))
  rw [if_neg c1] at hq
  by_cases c2 : e.Topic0 = OWNER_CHANGED K
  · rw [if_pos c2] at hq
    cases hq
    exact Or.inr (Or.inr (ownerChanged_isUpsert _ _))
  rw [if_neg c2] at hq
  by_cases c3 : e.Topic0 = CHANGED_SPAWN_PROXY K
  · rw [if_pos c3] at hq
    cases hq
    exact Or.inr (Or.inr (changedSpawnProxy_isUpsert _ _))
  rw [if_neg c3] at hq
  by_cases c4 : e.Topic0 = CHANGED_TRANSFER_PROXY K
  · rw [if_pos c4] at hq
    cases hq
    exact Or.inr (Or.inr (changedTransferProxy_isUpsert _ _))
  rw [if_neg c4] at hq
  by_cases c5 : e.Topic0 = CHANGED_MANAGEMENT_PROXY K
  · rw [if_pos c5] at hq
    cases hq
    exact Or.inr (Or.inr (changedManagementProxy_isUpsert _ _))
  rw [if_neg c5] at hq
  by_cases c6 : e.Topic0 = CHANGED_VOTING_PROXY K
  · rw [if_pos c6] at hq
    cases hq
    exact Or.inr (Or.inr (changedVotingProxy_isUpsert _ _))
  rw [if_neg c6] at hq
  by_cases c7 : e.Topic0 = ESCAPE_REQUESTED K
  · rw [if_pos c7] at hq
    cases hq
    exact Or.inr (Or.inr (escapeRequested_isUpsert _ _))
  rw [if_neg c7] at hq
  by_cases c8 : e.Topic0 = ESCAPE_CANCELED K
  · rw [if_pos c8] at hq
    cases hq
    exact Or.inr (Or.inr (escapeCanceled_isUpsert _))
  rw [if_neg c8] at hq
  by_cases c9 : e.Topic0 = ESCAPE_ACCEPTED K
  · rw [if_pos c9] at hq
    cases hq
    exact Or.inr (Or.inr (escapeAccepted_isUpsert _ _))
  rw [if_neg c9] at hq
  by_cases c10 : e.Topic0 = LOST_SPONSOR K
  · rw [if_pos c10] at hq
    cases hq
    exact Or.inr (Or.inr (lostSponsor_isUpsert _))
  rw [if_neg c10] at hq
  by_cases c11 : e.Topic0 = BROKE_CONTINUITY K
  · rw [if_pos c11] at hq
    cases hq
    exact Or.inr (Or.inr (brokeContinuity_isUpsert _ _))
  rw [if_neg c11] at hq
  by_cases c12 : e.Topic0 = CHANGED_KEYS K
  · rw [if_pos c12] at hq
    by_cases hlen : e.Data.length = 32 * 4
    · rw [dif_pos hlen] at hq
      cases hq
      exact Or.inr (Or.inr (changedKeys_isUpsert _ _ _ _ _))
    · rw [dif_neg hlen] at hq
      cases hq
  rw [if_neg c12] at hq
  by_cases c13 : e.Topic0 = CHANGED_DNS K
  · rw [if_pos c13] at hq
    cases hq
    exact Or.inl rfl
  rw [if_neg c13] at hq
  cases hq

/-! ## Frame property of the effects -/

/-- C8: for a catalogued event and a store that already holds a row for the entry's
`azimuth_number`, applying the compiled effect rewrites the store row by row, leaves every row
with another number as it was, and leaves every column outside the ones the event's rule
names at its previous value; for every event but Spawned the application succeeds. -/
theorem partial_update_frame (hd : FingerprintsDistinct K) (e : AzimuthEventLog) (name : String)
    (hn : (e.Topic0, name) ∈ EVENT_NAMES K) (q : Query) (hq : Effects K e = .ok q)
    (pts : List Point) (hrow : ∀ p ∈ q.BindValues, ∃ r ∈ pts, r.Number = p.Number) :
    (∀ pts1, applyEffect q pts = .ok pts1 →
      ∃ g : Point → Point, pts1 = pts.map g
        ∧ ∀ r, ((∀ p ∈ q.BindValues, r.Number ≠ p.Number) → g r = r)
            ∧ ∀ c, c ∉ ruleColumns name → (g r).get c = r.get c)
    ∧ (name ≠ "Spawned" → ∃ pts1, applyEffect q pts = .ok pts1) := by
  have key : ∀ cols, IsUpsert q → q.SQL.setColumns = cols → ruleColumns name = cols →
      (∀ pts1, applyEffect q pts = .ok pts1 →
        ∃ g : Point → Point, pts1 = pts.map g
          ∧ ∀ r, ((∀ p ∈ q.BindValues, r.Number ≠ p.Number) → g r = r)
              ∧ ∀ c, c ∉ ruleColumns name → (g r).get c = r.get c)
      ∧ (name ≠ "Spawned" → ∃ pts1, applyEffect q pts = .ok pts1) := by
    intro cols hu hc hr
    obtain ⟨g, hg, hfr⟩ := hu.frame pts hrow
    refine ⟨?_, fun _ => ⟨_, hg⟩⟩
    intro pts1 h1
    rw [hg] at h1
    refine ⟨g, (Except.ok.inj h1).symm, ?_⟩
    intro r
    refine ⟨(hfr r).1, ?_⟩
    intro c hcn
    rw [hr, ← hc] at hcn
    exact (hfr r).2 c hcn
  simp only [EVENT_NAMES, List.mem_cons, List.mem_singleton, List.not_mem_nil, or_false,
    Prod.mk.injEq] at hn
  rcases hn with h | h | h | h | h | h | h | h | h | h | h | h | h | h <;>
    obtain ⟨h0, rfl⟩ := h
  · rw [Effects_owner_changed hd e h0] at hq
    cases hq
    exact key _ (ownerChanged_isUpsert _ _) rfl rfl
  · rw [Effects_activated hd e h0, activatedPoint_eq] at hq
    cases hq
    exact key _ (activated_isUpsert _ _) rfl rfl
  · rw [Effects_spawned e h0] at hq
    cases hq
    constructor
    · intro pts1 h1
      rw [spawned_apply] at h1
      have hex := hrow { Number := topic_to_azimuth_number e.Topic2 } rfl
      obtain ⟨r, hr, hk⟩ := hex
      have : ¬ (pts.all fun r => decide (r.Number ≠ topic_to_azimuth_number e.Topic2)) = true := by
        simp only [List.all_eq_true, decide_eq_true_eq, not_forall]
        exact ⟨r, hr, fun hne => hne hk⟩
      rw [if_neg this] at h1
      cases h1
    · intro hne
      exact absurd rfl hne
  · rw [Effects_escape_requested hd e h0] at hq
    cases hq
    exact key _ (escapeRequested_isUpsert _ _) rfl rfl
  · rw [Effects_escape_canceled hd e h0] at hq
    cases hq
    exact key _ (escapeCanceled_isUpsert _) rfl rfl
  · rw [Effects_escape_accepted hd e h0] at hq
    cases hq
    exact key _ (escapeAccepted_isUpsert _ _) rfl rfl
  · rw [Effects_lost_sponsor hd e h0] at hq
    cases hq
    exact key _ (lostSponsor_isUpsert _) rfl rfl
  · by_cases hlen : e.Data.length = 32 * 4
    · rw [Effects_changed_keys hd e h0 hlen] at hq
      cases hq
      exact key _ (changedKeys_isUpsert _ _ _ _ _) rfl rfl
    · rw [Effects_changed_keys_bad hd e h0 hlen] at hq
      cases hq
  · rw [Effects_broke_continuity hd e h0] at hq
    cases hq
    exact key _ (brokeContinuity_isUpsert _ _) rfl rfl
  · rw [Effects_changed_spawn_proxy hd e h0] at hq
    cases hq
    exact key _ (changedSpawnProxy_isUpsert _ _) rfl rfl
  · rw [Effects_changed_transfer_proxy hd e h0] at hq
    cases hq
    exact key _ (changedTransferProxy_isUpsert _ _) rfl rfl
  · rw [Effects_changed_management_proxy hd e h0] at hq
    cases hq
    exact key _ (changedManagementProxy_isUpsert _ _) rfl rfl
  · rw [Effects_changed_voting_proxy hd e h0] at hq
    cases hq
    exact key _ (changedVotingProxy_isUpsert _ _) rfl rfl
  · rw [Effects_changed_dns hd e h0] at hq
    cases hq
    refine ⟨?_, fun _ => ⟨pts, empty_apply pts⟩⟩
    intro pts1 h1
    rw [empty_apply] at h1
    refine ⟨id, by simpa using (Except.ok.inj h1).symm, fun r => ⟨fun _ => rfl, fun _ _ => rfl⟩⟩

/-- Witness of C8: an OwnerChanged entry for identity `0x42` applied to a store holding
identities `0x42` and `5`. -/
theorem partial_update_frame_witness :
    (∃ pts1, applyEffect sampleOwnerEffect sampleStore = .ok pts1)
    ∧ ∃ g : Point → Point, sampleStoreOwned = sampleStore.map g
        ∧ ∀ r, ((∀ p ∈ sampleOwnerEffect.BindValues, r.Number ≠ p.Number) → g r = r)
            ∧ ∀ c, c ∉ ruleColumns "OwnerChanged" → (g r).get c = r.get c :=
  have h := partial_update_frame tableKeccak_distinct
    (mkLog 1 0 (OWNER_CHANGED tableKeccak) 0x42 0x99 []) "OwnerChanged" (by decide)
    sampleOwnerEffect (by decide) sampleStore (by decide)
  ⟨h.2 (by decide), h.1 sampleStoreOwned (by decide)⟩

/-! ## The Spawned statement is a plain insert -/

/-- C5: the effect of a Spawned entry is not idempotent. On the empty store the first
application inserts the row of identity `5`; the second application of the same effect fails
on the key and returns no store. -/
theorem spawned_effect_not_idempotent :
    Effects tableKeccak (spawnedFive 0) = .ok ⟨spawnedSQL, some { Number := 5 }⟩
    ∧ applyEffect ⟨spawnedSQL, some { Number := 5 }⟩ [] = .ok [{ Number := 5 }]
    ∧ applyEffect ⟨spawnedSQL, some { Number := 5 }⟩ [{ Number := 5 }]
        = .error .uniqueConstraint := by
  decide

/-- C6: the statement of the Spawned case has no `on conflict` clause, and applying it to a
store that already holds identity `5` fails with a key conflict. -/
theorem spawned_insert_conflicts :
    Effects tableKeccak (spawnedFive 0) = .ok ⟨spawnedSQL, some { Number := 5 }⟩
    ∧ spawnedSQL = .insert ⟨[.azimuth_number], [.named .azimuth_number], none⟩
    ∧ applyEffect ⟨spawnedSQL, some { Number := 5 }⟩ sampleStore
        = .error .uniqueConstraint := by
  decide

/-! ## Batches are not atomic -/

/-- C7: a batch that aborts leaves its earlier entries applied and marked. With a second
entry of unknown topic0, `ApplyEventEffects` panics after the Activated effect of the first
entry has reached the Point Store and the first entry has been marked processed; with two
Spawned entries for the same child, the second statement fails on the key, `tx.Rollback()`
runs, and the row inserted by the first entry and its processed flag remain. -/
theorem aborted_batch_keeps_partial_work :
    ApplyEventEffects tableKeccak { event_logs := logsWithUnknown, points := [] }
        (selectBatch 500 logsWithUnknown)
      = .error (.unknownEvent,
          { event_logs := [{ mkLog 1 0 (ACTIVATED tableKeccak) 0x42 0 [] with IsProcessed := true },
                           mkLog 1 1 zeroHash 0 0 []],
            points := [{ Number := 0x42, IsActive := true, HasSponsor := true,
                         Sponsor := 0x42 }] })
    ∧ ApplyEventEffects tableKeccak { event_logs := logsSpawnedTwice, points := [] }
        (selectBatch 500 logsSpawnedTwice)
      = .error (.storage .uniqueConstraint,
          { event_logs := [{ spawnedFive 0 with IsProcessed := true }, spawnedFive 1],
            points := [{ Number := 5 }] }) := by
  decide

/-! ## The replay loop -/

theorem applyEvents_ok (tx : Tx) (events : List AzimuthEventLog) (db db1 : DBState)
    (h : applyEvents K tx events db = .ok db1) :
    applyInOrder K events db.points = .ok db1.points
      ∧ db1.event_logs = markAll events db.event_logs := by
  induction events generalizing db with
  | nil =>
    simp only [applyEvents] at h
    cases h
    exact ⟨rfl, rfl⟩
  | cons e es ih =>
    simp only [applyEvents] at h
    cases hE : Effects K e with
    | error p => simp [hE] at h
    | ok q =>
      simp only [hE] at h
      cases hA : applyEffect q db.points with
      | error err => simp [hA] at h
      | ok pts =>
        simp only [hA] at h
        have := ih _ h
        simp only [applyInOrder, applyEntry, hE, hA, markAll, List.foldl_cons]
        exact this

theorem applyEvents_error (tx : Tx) (events : List AzimuthEventLog) (db db1 : DBState)
    (p : Panic) (h : applyEvents K tx events db = .error (p, db1)) :
    (∃ e ∈ events, Effects K e = .error p) ∨ ∃ err, p = .storage err := by
  induction events generalizing db with
  | nil => simp [applyEvents] at h
  | cons e es ih =>
    simp only [applyEvents] at h
    cases hE : Effects K e with
    | error p1 =>
      simp only [hE, Except.error.injEq, Prod.mk.injEq] at h
      exact Or.inl ⟨e, by simp, by rw [hE, h.1]⟩
    | ok q =>
      simp only [hE] at h
      cases hA : applyEffect q db.points with
      | error err =>
        simp only [hA, Except.error.injEq, Prod.mk.injEq] at h
        exact Or.inr ⟨err, h.1.symm⟩
      | ok pts =>
        simp only [hA] at h
        rcases ih _ h with ⟨e1, he1, hp⟩ | hs
        · exact Or.inl ⟨e1, by simp [he1], hp⟩
        · exact Or.inr hs

theorem ApplyEventEffects_eq (db : DBState) (events : List AzimuthEventLog) :
    ApplyEventEffects K db events = applyEvents K {} events db := by
  unfold ApplyEventEffects
  simp only [Begin]
  cases applyEvents K {} events db with
  | error r => rfl
  | ok db1 => rfl

theorem markProcessed_keys (e : AzimuthEventLog) (logs : List AzimuthEventLog) :
    (markProcessed e logs).map logKey = logs.map logKey := by
  simp only [markProcessed, List.map_map]
  apply List.map_congr_left
  intro r _
  simp only [Function.comp]
  split <;> rfl

theorem markAll_keys (events logs : List AzimuthEventLog) :
    (markAll events logs).map logKey = logs.map logKey := by
  induction events generalizing logs with
  | nil => rfl
  | cons e es ih =>
    simp only [markAll, List.foldl_cons]
    have := ih (markProcessed e logs)
    simp only [markAll] at this
    rw [this, markProcessed_keys]

theorem filter_markProcessed (e : AzimuthEventLog) (logs : List AzimuthEventLog) :
    (markProcessed e logs).filter (fun r => !r.IsProcessed)
      = (logs.filter fun r => !r.IsProcessed).filter fun r => decide (logKey r ≠ logKey e) := by
  induction logs with
  | nil => rfl
  | cons r rs ih =>
    simp only [markProcessed, List.map_cons] at ih ⊢
    by_cases hk : r.BlockNumber = e.BlockNumber ∧ r.LogIndex = e.LogIndex
    · have hk2 : logKey r = logKey e := by simp [logKey, hk.1, hk.2]
      cases hp : r.IsProcessed <;> simp [List.filter_cons, hk, hp, hk2, ih]
    · have hk2 : logKey r ≠ logKey e := by
        simp only [logKey, ne_eq, Prod.mk.injEq]; exact hk
      cases hp : r.IsProcessed <;> simp [List.filter_cons, hk, hp, hk2, ih]

theorem filter_markAll (events logs : List AzimuthEventLog) :
    (markAll events logs).filter (fun r => !r.IsProcessed)
      = (logs.filter fun r => !r.IsProcessed).filter
          fun r => decide (logKey r ∉ events.map logKey) := by
  induction events generalizing logs with
  | nil => simp [markAll]
  | cons e es ih =>
    simp only [markAll, List.foldl_cons]
    have := ih (markProcessed e logs)
    simp only [markAll] at this
    rw [this, filter_markProcessed, List.filter_filter, List.filter_filter, List.filter_filter]
    apply List.filter_congr
    intro r _
    by_cases h1 : logKey r = logKey e <;> by_cases h2 : logKey r ∈ es.map logKey <;>
      simp [h1, h2]

theorem logLt_of_logLe_of_ne {a b : AzimuthEventLog} (h : logLe a b) (hk : logKey a ≠ logKey b) :
    logLt a b := by
  simp only [logKey, ne_eq, Prod.mk.injEq] at hk
  unfold logLe at h
  unfold logLt
  omega

theorem sorted_logLt_of_unique {l : List AzimuthEventLog} (hs : l.Sorted logLe)
    (hu : UniqueKeys l) : l.Sorted logLt := by
  have h2 : l.Pairwise (fun a b => logKey a ≠ logKey b) := by
    simpa [UniqueKeys, List.Nodup, List.pairwise_map] using hu
  exact (List.Pairwise.and hs h2).imp fun h => logLt_of_logLe_of_ne h.1 h.2

theorem UniqueKeys.sublist {l1 l2 : List AzimuthEventLog} (h : l1.Sublist l2)
    (hu : UniqueKeys l2) : UniqueKeys l1 :=
  List.Nodup.sublist (h.map logKey) hu

theorem UniqueKeys.perm {l1 l2 : List AzimuthEventLog} (h : l1.Perm l2)
    (hu : UniqueKeys l2) : UniqueKeys l1 :=
  ((h.map logKey).nodup_iff).mpr hu

theorem UniqueKeys.unprocessed {logs : List AzimuthEventLog} (hu : UniqueKeys logs) :
    UniqueKeys (unprocessed logs) :=
  UniqueKeys.perm (List.perm_insertionSort _ _) (UniqueKeys.sublist (List.filter_sublist _) hu)

theorem UniqueKeys.markAll {logs : List AzimuthEventLog} (events : List AzimuthEventLog)
    (hu : UniqueKeys logs) : UniqueKeys (markAll events logs) := by
  unfold UniqueKeys
  rw [markAll_keys]
  exact hu

theorem filter_not_taken (S : List AzimuthEventLog) (B : Nat) (hu : UniqueKeys S) :
    S.filter (fun r => decide (logKey r ∉ (S.take B).map logKey)) = S.drop B := by
  have hsplit : S = S.take B ++ S.drop B := (List.take_append_drop B S).symm
  have hnd : ((S.take B).map logKey ++ (S.drop B).map logKey).Nodup := by
    rw [← List.map_append, ← hsplit]
    exact hu
  have hdis := (List.nodup_append.mp hnd).2.2
  have h1 : (S.take B).filter (fun r => decide (logKey r ∉ (S.take B).map logKey)) = [] := by
    rw [List.filter_eq_nil_iff]
    intro r hr
    simp only [decide_eq_true_eq, not_not]
    exact List.mem_map_of_mem _ hr
  have h2 : (S.drop B).filter (fun r => decide (logKey r ∉ (S.take B).map logKey))
      = S.drop B := by
    rw [List.filter_eq_self]
    intro r hr
    simp only [decide_eq_true_eq]
    intro hmem
    exact hdis hmem (List.mem_map_of_mem _ hr)
  have h3 : S.filter (fun r => decide (logKey r ∉ (S.take B).map logKey))
      = (S.take B ++ S.drop B).filter (fun r => decide (logKey r ∉ (S.take B).map logKey)) := by
    rw [List.take_append_drop]
  rw [h3, List.filter_append, h1, h2, List.nil_append]

theorem unprocessed_markAll_take (logs : List AzimuthEventLog) (B : Nat) (hu : UniqueKeys logs) :
    unprocessed (markAll ((unprocessed logs).take B) logs) = (unprocessed logs).drop B := by
  have hS : UniqueKeys (unprocessed logs) := hu.unprocessed
  rw [← filter_not_taken (unprocessed logs) B hS]
  unfold unprocessed at *
  rw [filter_markAll]
  have hperm : (logs.filter fun r => !r.IsProcessed).Perm
      ((logs.filter fun r => !r.IsProcessed).insertionSort logLe) :=
    (List.perm_insertionSort _ _).symm
  apply List.eq_of_perm_of_sorted (r := logLt)
  · exact (List.perm_insertionSort _ _).trans (hperm.filter _)
  · apply sorted_logLt_of_unique (List.sorted_insertionSort _ _)
    exact UniqueKeys.perm (List.perm_insertionSort _ _)
      (UniqueKeys.sublist ((List.filter_sublist _).trans (List.filter_sublist _)) hu)
  · apply sorted_logLt_of_unique
    · exact (List.sorted_insertionSort logLe _).filter _
    · exact UniqueKeys.sublist (List.filter_sublist _) hS

theorem applyInOrder_append (es1 es2 : List AzimuthEventLog) (pts : List Point) :
    applyInOrder K (es1 ++ es2) pts
      = match applyInOrder K es1 pts with
        | .error p => .error p
        | .ok pts1 => applyInOrder K es2 pts1 := by
  induction es1 generalizing pts with
  | nil => rfl
  | cons e es ih =>
    simp only [List.cons_append, applyInOrder]
    cases applyEntry K pts e with
    | error p => rfl
    | ok pts1 => exact ih pts1

theorem applyEvents_of_ok (tx : Tx) (events : List AzimuthEventLog) (db : DBState)
    (pts : List Point) (h : applyInOrder K events db.points = .ok pts) :
    applyEvents K tx events db
      = .ok { event_logs := markAll events db.event_logs, points := pts } := by
  induction events generalizing db with
  | nil =>
    simp only [applyInOrder, Except.ok.injEq] at h
    simp only [applyEvents, markAll, List.foldl_nil, ← h]
  | cons e es ih =>
    simp only [applyInOrder, applyEntry] at h
    cases hE : Effects K e with
    | error p => simp [hE] at h
    | ok q =>
      simp only [hE] at h
      cases hA : applyEffect q db.points with
      | error err => simp [hA] at h
      | ok pts1 =>
        simp only [hA] at h
        simp only [applyEvents, hE, hA]
        exact ih { event_logs := markProcessed e db.event_logs, points := pts1 } h

theorem play_step_empty (B fuel : Nat) (db : DBState)
    (hz : (selectBatch B db.event_logs).length = 0) :
    PlayAzimuthLogsWith K B (fuel + 1) db = some (.ok db) := by
  simp [PlayAzimuthLogsWith, hz]

theorem play_step_ok (B fuel : Nat) (db db1 : DBState)
    (hz : (selectBatch B db.event_logs).length ≠ 0)
    (hA : ApplyEventEffects K db (selectBatch B db.event_logs) = .ok db1) :
    PlayAzimuthLogsWith K B (fuel + 1) db = PlayAzimuthLogsWith K B fuel db1 := by
  simp only [PlayAzimuthLogsWith, hz, if_false, hA]

theorem play_step_error (B fuel : Nat) (db : DBState) (r : Panic × DBState)
    (hz : (selectBatch B db.event_logs).length ≠ 0)
    (hA : ApplyEventEffects K db (selectBatch B db.event_logs) = .error r) :
    PlayAzimuthLogsWith K B (fuel + 1) db = some (.error r) := by
  simp only [PlayAzimuthLogsWith, hz, if_false, hA]

theorem unprocessed_nil_of_batch_empty (B : Nat) (hB : 1 ≤ B) (logs : List AzimuthEventLog)
    (hz : (selectBatch B logs).length = 0) : unprocessed logs = [] := by
  unfold selectBatch at hz
  rw [List.length_take] at hz
  have : (unprocessed logs).length = 0 := by omega
  exact List.length_eq_zero.mp this

theorem play_ok_sound (B : Nat) (hB : 1 ≤ B) (fuel : Nat) (db db1 : DBState)
    (hu : UniqueKeys db.event_logs)
    (h : PlayAzimuthLogsWith K B fuel db = some (.ok db1)) :
    applyInOrder K (unprocessed db.event_logs) db.points = .ok db1.points := by
  induction fuel generalizing db with
  | zero => simp [PlayAzimuthLogsWith] at h
  | succ fuel ih =>
    by_cases hz : (selectBatch B db.event_logs).length = 0
    · rw [play_step_empty B fuel db hz] at h
      simp only [Option.some.injEq, Except.ok.injEq] at h
      rw [unprocessed_nil_of_batch_empty B hB _ hz, ← h]
      rfl
    · cases hA : ApplyEventEffects K db (selectBatch B db.event_logs) with
      | error r =>
        rw [play_step_error B fuel db r hz hA] at h
        simp at h
      | ok db2 =>
        rw [play_step_ok B fuel db db2 hz hA] at h
        rw [ApplyEventEffects_eq] at hA
        obtain ⟨hpts, hlogs⟩ := applyEvents_ok _ _ _ _ hA
        have hu2 : UniqueKeys db2.event_logs := by
          rw [hlogs]; exact hu.markAll _
        have h2 := ih db2 hu2 h
        rw [hlogs] at h2
        unfold selectBatch at hpts h2
        rw [unprocessed_markAll_take _ _ hu] at h2
        rw [← List.take_append_drop B (unprocessed db.event_logs), applyInOrder_append, hpts]
        exact h2

theorem play_ok_complete (B : Nat) (hB : 1 ≤ B) (n : Nat) (db : DBState) (pts : List Point)
    (hn : (unprocessed db.event_logs).length ≤ n) (hu : UniqueKeys db.event_logs)
    (h : applyInOrder K (unprocessed db.event_logs) db.points = .ok pts) :
    ∃ db1, PlayAzimuthLogsWith K B (n + 1) db = some (.ok db1) ∧ db1.points = pts := by
  induction n generalizing db with
  | zero =>
    have hnil : unprocessed db.event_logs = [] := List.length_eq_zero.mp (by omega)
    have hz : (selectBatch B db.event_logs).length = 0 := by simp [selectBatch, hnil]
    rw [hnil] at h
    simp only [applyInOrder, Except.ok.injEq] at h
    exact ⟨db, play_step_empty B 0 db hz, h⟩
  | succ n ih =>
    by_cases hz : (selectBatch B db.event_logs).length = 0
    · rw [unprocessed_nil_of_batch_empty B hB _ hz] at h
      simp only [applyInOrder, Except.ok.injEq] at h
      exact ⟨db, play_step_empty B (n + 1) db hz, h⟩
    · rw [← List.take_append_drop B (unprocessed db.event_logs), applyInOrder_append] at h
      cases hT : applyInOrder K ((unprocessed db.event_logs).take B) db.points with
      | error p => simp [hT] at h
      | ok mid =>
        simp only [hT] at h
        have hA : ApplyEventEffects K db (selectBatch B db.event_logs)
            = .ok { event_logs := markAll (selectBatch B db.event_logs) db.event_logs,
                    points := mid } := by
          rw [ApplyEventEffects_eq]
          exact applyEvents_of_ok _ _ _ _ hT
        rw [play_step_ok B (n + 1) db _ hz hA]
        apply ih
        · show (unprocessed (markAll ((unprocessed db.event_logs).take B) db.event_logs)).length ≤ n
          rw [unprocessed_markAll_take _ _ hu, List.length_drop]
          omega
        · exact hu.markAll _
        · show applyInOrder K
            (unprocessed (markAll ((unprocessed db.event_logs).take B) db.event_logs)) mid = _
          rw [unprocessed_markAll_take _ _ hu]
          exact h

/-- C9: on a table whose rows have distinct `(block_number, log_index)`, for every batch size
`B ≥ 1` (the source uses 500) the replay loop returns normally with Point Store `pts` exactly
when applying the effects of the initially unprocessed entries one by one, in ascending
`(block_number, log_index)` order, succeeds with `pts`. -/
theorem replay_refines_sequential (B : Nat) (hB : 1 ≤ B) (db : DBState)
    (hu : UniqueKeys db.event_logs) (pts : List Point) :
    (∃ fuel db1, PlayAzimuthLogsWith K B fuel db = some (.ok db1) ∧ db1.points = pts)
      ↔ applyInOrder K (unprocessed db.event_logs) db.points = .ok pts := by
  constructor
  · rintro ⟨fuel, db1, h, rfl⟩
    exact play_ok_sound B hB fuel db db1 hu h
  · intro h
    obtain ⟨db1, h1, h2⟩ := play_ok_complete B hB _ db pts (le_refl _) hu h
    exact ⟨_, db1, h1, h2⟩

/-- Witness of C9: three unprocessed entries replayed in batches of two. -/
theorem replay_refines_sequential_witness :
    ∃ fuel db1, PlayAzimuthLogsWith tableKeccak 2 fuel sampleReplayDB = some (.ok db1)
      ∧ db1.points = sampleReplayPoints :=
  (replay_refines_sequential 2 (by decide) sampleReplayDB (by decide) sampleReplayPoints).mpr
    (by decide)

theorem length_filter_lt_of_mem {α : Type} (p : α → Bool) (l : List α) (x : α) (hx : x ∈ l)
    (hp : p x = false) : (l.filter p).length < l.length := by
  have hle := List.length_filter_le p l
  have hne : (l.filter p).length ≠ l.length := by
    intro h
    have := (List.filter_length_eq_length.mp h) x hx
    simp [hp] at this
  omega

theorem unprocessed_length_markAll_lt (B : Nat) (logs : List AzimuthEventLog)
    (hz : (selectBatch B logs).length ≠ 0) :
    (unprocessed (markAll (selectBatch B logs) logs)).length < (unprocessed logs).length := by
  obtain ⟨x, hx⟩ := List.exists_mem_of_length_pos (Nat.pos_of_ne_zero hz)
  have hxS : x ∈ unprocessed logs := List.mem_of_mem_take hx
  have hxU : x ∈ logs.filter (fun r => !r.IsProcessed) :=
    (List.mem_insertionSort logLe).mp hxS
  unfold unprocessed at *
  rw [List.length_insertionSort, List.length_insertionSort, filter_markAll]
  apply length_filter_lt_of_mem _ _ x hxU
  simp only [decide_eq_false_iff_not, not_not]
  exact List.mem_map_of_mem _ hx

theorem mem_markAll_unprocessed (events logs : List AzimuthEventLog) (e : AzimuthEventLog)
    (he : e ∈ markAll events logs) (hp : e.IsProcessed = false) : e ∈ logs := by
  have h1 : e ∈ (markAll events logs).filter (fun r => !r.IsProcessed) := by
    simp [List.mem_filter, he, hp]
  rw [filter_markAll] at h1
  exact List.mem_of_mem_filter (List.mem_of_mem_filter h1)

theorem all_processed_of_unprocessed_nil (logs : List AzimuthEventLog)
    (h : unprocessed logs = []) : ∀ e ∈ logs, e.IsProcessed = true := by
  have h1 : (logs.filter fun r => !r.IsProcessed) = [] := by
    apply List.length_eq_zero.mp
    have := List.length_insertionSort logLe (logs.filter fun r => !r.IsProcessed)
    unfold unprocessed at h
    rw [h] at this
    exact this.symm
  intro e he
  have := (List.filter_eq_nil_iff.mp h1) e he
  simpa using this

theorem play_terminates (B : Nat) (hB : 1 ≤ B) (n : Nat) (db : DBState)
    (hn : (unprocessed db.event_logs).length ≤ n) (hwf : WellFormedLogs K db.event_logs) :
    ∃ r, PlayAzimuthLogsWith K B (n + 1) db = some r
      ∧ (¬ IsStorageError r →
          ∃ db1, r = .ok db1 ∧ (∀ e ∈ db1.event_logs, e.IsProcessed = true)
            ∧ selectBatch B db1.event_logs = []) := by
  induction n generalizing db with
  | zero =>
    have hnil : unprocessed db.event_logs = [] := List.length_eq_zero.mp (by omega)
    have hz : (selectBatch B db.event_logs).length = 0 := by simp [selectBatch, hnil]
    exact ⟨_, play_step_empty B 0 db hz, fun _ =>
      ⟨db, rfl, all_processed_of_unprocessed_nil _ hnil, List.length_eq_zero.mp hz⟩⟩
  | succ n ih =>
    by_cases hz : (selectBatch B db.event_logs).length = 0
    · have hnil := unprocessed_nil_of_batch_empty B hB _ hz
      exact ⟨_, play_step_empty B (n + 1) db hz, fun _ =>
        ⟨db, rfl, all_processed_of_unprocessed_nil _ hnil, List.length_eq_zero.mp hz⟩⟩
    · cases hA : ApplyEventEffects K db (selectBatch B db.event_logs) with
      | error r =>
        refine ⟨_, play_step_error B (n + 1) db r hz hA, ?_⟩
        intro hns
        exfalso
        obtain ⟨p, dbe⟩ := r
        rw [ApplyEventEffects_eq] at hA
        rcases applyEvents_error _ _ _ _ _ hA with ⟨e, he, hE⟩ | ⟨err, rfl⟩
        · have heS : e ∈ unprocessed db.event_logs := List.mem_of_mem_take he
          have heU := (List.mem_insertionSort logLe).mp heS
          rw [List.mem_filter] at heU
          have hw := hwf e heU.1 (by simpa using heU.2)
          obtain ⟨q, hq⟩ := Effects_total K e hw.1 hw.2
          rw [hq] at hE
          cases hE
        · exact hns ⟨err, dbe, rfl⟩
      | ok db2 =>
        rw [play_step_ok B (n + 1) db db2 hz hA]
        rw [ApplyEventEffects_eq] at hA
        obtain ⟨_, hlogs⟩ := applyEvents_ok _ _ _ _ hA
        apply ih
        · rw [hlogs]
          have := unprocessed_length_markAll_lt B db.event_logs hz
          omega
        · intro e he hp
          rw [hlogs] at he
          exact hwf e (mem_markAll_unprocessed _ _ e he hp) hp

theorem play_ok_batch_empty (B fuel : Nat) (db db1 : DBState)
    (h : PlayAzimuthLogsWith K B fuel db = some (.ok db1)) :
    selectBatch B db1.event_logs = [] := by
  induction fuel generalizing db with
  | zero => simp [PlayAzimuthLogsWith] at h
  | succ fuel ih =>
    by_cases hz : (selectBatch B db.event_logs).length = 0
    · rw [play_step_empty B fuel db hz] at h
      simp only [Option.some.injEq, Except.ok.injEq] at h
      rw [← h]
      exact List.length_eq_zero.mp hz
    · cases hA : ApplyEventEffects K db (selectBatch B db.event_logs) with
      | error r =>
        rw [play_step_error B fuel db r hz hA] at h
        simp at h
      | ok db2 =>
        rw [play_step_ok B fuel db db2 hz hA] at h
        exact ih db2 h

/-- C10: when every unprocessed entry has a catalogued topic0 and well-formed data, the replay
loop terminates for every batch size `B ≥ 1` (the source uses 500), and unless it stopped on
a storage error it returns normally with every entry marked processed; whenever the loop
returns normally, the batch fetched from the database it leaves is empty. -/
theorem replay_drains (B : Nat) (hB : 1 ≤ B) (db : DBState)
    (hwf : WellFormedLogs K db.event_logs) :
    (∃ fuel r, PlayAzimuthLogsWith K B fuel db = some r
      ∧ (¬ IsStorageError r →
          ∃ db1, r = .ok db1 ∧ (∀ e ∈ db1.event_logs, e.IsProcessed = true)))
    ∧ ∀ fuel db1, PlayAzimuthLogsWith K B fuel db = some (.ok db1) →
        selectBatch B db1.event_logs = [] := by
  obtain ⟨r, h1, h2⟩ := play_terminates B hB _ db (le_refl _) hwf
  refine ⟨⟨_, r, h1, fun hns => ?_⟩, fun fuel db1 h => play_ok_batch_empty B fuel db db1 h⟩
  obtain ⟨db1, hr, hall, _⟩ := h2 hns
  exact ⟨db1, hr, hall⟩

/-- Witness of C10: the replay of `sampleReplayDB` in batches of two. -/
theorem replay_drains_witness :
    ∃ fuel r, PlayAzimuthLogsWith tableKeccak 2 fuel sampleReplayDB = some r
      ∧ (¬ IsStorageError r →
          ∃ db1, r = .ok db1 ∧ (∀ e ∈ db1.event_logs, e.IsProcessed = true)) :=
  (replay_drains 2 (by decide) sampleReplayDB (by decide)).1

/-! ## Topic decoders: low bytes -/

theorem beValue_foldl_acc (l : List Byte) (acc : Nat) :
    l.foldl (fun acc x => acc * 256 + x.val) acc = acc * 256 ^ l.length + beValue l := by
  induction l generalizing acc with
  | nil => simp [beValue]
  | cons x xs ih =>
    simp only [List.foldl_cons, beValue, List.length_cons]
    rw [ih, ih (0 * 256 + x.val)]
    simp only [beValue]
    ring

theorem beValue_append (l1 l2 : List Byte) :
    beValue (l1 ++ l2) = beValue l1 * 256 ^ l2.length + beValue l2 := by
  simp only [beValue, List.foldl_append]
  rw [beValue_foldl_acc]
  rfl

theorem hash_split (h : Hash) :
    ∃ pre a b c d, pre.length = 28 ∧ h.val = pre ++ [a, b, c, d] := by
  obtain ⟨a, b, c, d, hd⟩ := list_length_four (h.val.drop 28) (by simp [h.property])
  refine ⟨h.val.take 28, a, b, c, d, by simp [h.property], ?_⟩
  rw [← hd, List.take_append_drop]

/-- C15: for every 32-byte topic `h`, `topic_to_uint32 h` is
`h[28]·2^24 + h[29]·2^16 + h[30]·2^8 + h[31]`, which is the topic read as a 256-bit big-endian
number reduced mod `2^32`; two topics with the same last four bytes decode to the same number,
and `topic_to_azimuth_number` returns the same number. -/
theorem topic_to_uint32_low_bytes (h : Hash) :
    topic_to_uint32 h
        = (h.val.get ⟨28, by simp [h.property]⟩).val * 2 ^ 24
          + (h.val.get ⟨29, by simp [h.property]⟩).val * 2 ^ 16
          + (h.val.get ⟨30, by simp [h.property]⟩).val * 2 ^ 8
          + (h.val.get ⟨31, by simp [h.property]⟩).val
    ∧ topic_to_uint32 h = beValue h.val % 2 ^ 32
    ∧ (∀ h1 : Hash, h1.val.drop 28 = h.val.drop 28 → topic_to_uint32 h1 = topic_to_uint32 h)
    ∧ topic_to_azimuth_number h = topic_to_uint32 h := by
  obtain ⟨pre, a, b, c, d, hpre, hv⟩ := hash_split h
  have hdrop : h.val.drop 28 = [a, b, c, d] := by
    rw [hv, List.drop_append_of_le_length (by omega), List.drop_of_length_le (by omega)]
    rfl
  have hval : topic_to_uint32 h = a.val * 2 ^ 24 + b.val * 2 ^ 16 + c.val * 2 ^ 8 + d.val := by
    rw [topic_to_uint32_eq, hdrop, beValue_four]
  refine ⟨?_, ?_, ?_, rfl⟩
  · rw [hval]
    have g28 : h.val.get ⟨28, by simp [h.property]⟩ = a := by
      simp [List.get_eq_getElem, hv, List.getElem_append_right, hpre]
    have g29 : h.val.get ⟨29, by simp [h.property]⟩ = b := by
      simp [List.get_eq_getElem, hv, List.getElem_append_right, hpre]
    have g30 : h.val.get ⟨30, by simp [h.property]⟩ = c := by
      simp [List.get_eq_getElem, hv, List.getElem_append_right, hpre]
    have g31 : h.val.get ⟨31, by simp [h.property]⟩ = d := by
      simp [List.get_eq_getElem, hv, List.getElem_append_right, hpre]
    rw [g28, g29, g30, g31]
  · rw [hval, hv, beValue_append, beValue_four]
    have ha := a.isLt
    have hb := b.isLt
    have hc := c.isLt
    have hd := d.isLt
    simp only [List.length_cons, List.length_nil]
    norm_num
    omega
  · intro h1 h1d
    rw [topic_to_uint32_eq, topic_to_uint32_eq, h1d]

/-- Witness of C15: a topic with non-zero high bytes decodes like the topic spelling `0x99`. -/
theorem topic_to_uint32_low_bytes_witness :
    topic_to_uint32 paddedTopic = topic_to_uint32 (uint32Topic 0x99) :=
  (topic_to_uint32_low_bytes (uint32Topic 0x99)).2.2.1 paddedTopic (by decide)

/-- C14: `topic_to_eth_address h` is the twenty bytes `h[12..32)`, so the first twelve bytes
do not influence it; and for OwnerChanged, ChangedSpawnProxy, ChangedTransferProxy,
ChangedManagementProxy and ChangedVotingProxy, `Effects` binds `azimuth_number` to the low
four bytes of topic1 and sets exactly the corresponding address column to that address of
topic2. -/
theorem address_events_decoding (hd : FingerprintsDistinct K) (e : AzimuthEventLog) :
    (∀ h : Hash, (topic_to_eth_address h).val = sliceBytes h.val 12 32)
    ∧ (∀ h1 h2 : Hash, h1.val.drop 12 = h2.val.drop 12 →
        topic_to_eth_address h1 = topic_to_eth_address h2)
    ∧ (e.Topic0 = OWNER_CHANGED K →
        Effects K e = .ok ⟨ownerChangedSQL, some {
          Number := low4 e.Topic1,
          OwnerAddress := topic_to_eth_address e.Topic2 }⟩
        ∧ ownerChangedSQL.setColumns = [Column.owner_address])
    ∧ (e.Topic0 = CHANGED_SPAWN_PROXY K →
        Effects K e = .ok ⟨changedSpawnProxySQL, some {
          Number := low4 e.Topic1,
          SpawnAddress := topic_to_eth_address e.Topic2 }⟩
        ∧ changedSpawnProxySQL.setColumns = [Column.spawn_address])
    ∧ (e.Topic0 = CHANGED_TRANSFER_PROXY K →
        Effects K e = .ok ⟨changedTransferProxySQL, some {
          Number := low4 e.Topic1,
          TransferAddress := topic_to_eth_address e.Topic2 }⟩
        ∧ changedTransferProxySQL.setColumns = [Column.transfer_address])
    ∧ (e.Topic0 = CHANGED_MANAGEMENT_PROXY K →
        Effects K e = .ok ⟨changedManagementProxySQL, some {
          Number := low4 e.Topic1,
          ManagementAddress := topic_to_eth_address e.Topic2 }⟩
        ∧ changedManagementProxySQL.setColumns = [Column.management_address])
    ∧ (e.Topic0 = CHANGED_VOTING_PROXY K →
        Effects K e = .ok ⟨changedVotingProxySQL, some {
          Number := low4 e.Topic1,
          VotingAddress := topic_to_eth_address e.Topic2 }⟩
        ∧ changedVotingProxySQL.setColumns = [Column.voting_address]) := by
  refine ⟨?_, ?_, ?_, ?_, ?_, ?_, ?_⟩
  · intro h
    simp only [topic_to_eth_address, sliceBytes]
    rw [List.take_of_length_le (by simp [h.property])]
  · intro h1 h2 h12
    exact Subtype.ext h12
  · intro h0
    exact ⟨by rw [Effects_owner_changed hd e h0, topic_to_azimuth_number_eq]; rfl, rfl⟩
  · intro h0
    exact ⟨by rw [Effects_changed_spawn_proxy hd e h0, topic_to_azimuth_number_eq]; rfl, rfl⟩
  · intro h0
    exact ⟨by rw [Effects_changed_transfer_proxy hd e h0, topic_to_azimuth_number_eq]; rfl, rfl⟩
  · intro h0
    exact ⟨by rw [Effects_changed_management_proxy hd e h0, topic_to_azimuth_number_eq]; rfl, rfl⟩
  · intro h0
    exact ⟨by rw [Effects_changed_voting_proxy hd e h0, topic_to_azimuth_number_eq]; rfl, rfl⟩

/-- Witness of C14: an OwnerChanged entry, and two topics that differ in their first twelve
bytes only. -/
theorem address_events_decoding_witness :
    Effects tableKeccak (mkLog 1 0 (OWNER_CHANGED tableKeccak) 0x42 0x99 [])
        = .ok ⟨ownerChangedSQL, some {
            Number := 0x42, OwnerAddress := sampleOwner }⟩
    ∧ topic_to_eth_address paddedTopic = topic_to_eth_address (uint32Topic 0x99) :=
  have h := address_events_decoding tableKeccak_distinct
    (mkLog 1 0 (OWNER_CHANGED tableKeccak) 0x42 0x99 [])
  ⟨(h.2.2.1 rfl).1.trans (by decide), h.2.1 paddedTopic (uint32Topic 0x99) (by decide)⟩

/-! ## Escape events -/

theorem upsertRows_spec (cols : List Column) (p : Point) (pts : List Point) :
    (∃ r ∈ upsertRows cols p pts, r.Number = p.Number)
    ∧ ∀ r ∈ upsertRows cols p pts, r.Number = p.Number → ∀ c ∈ cols, r.get c = p.get c := by
  by_cases hall : (pts.all fun r => decide (r.Number ≠ p.Number)) = true
  · have h1 : upsertRows cols p pts = pts ++ [p] := by
      unfold upsertRows; rw [if_pos hall]
    rw [h1]
    refine ⟨⟨p, by simp, rfl⟩, ?_⟩
    intro r hr hk c _
    rcases List.mem_append.mp hr with h | h
    · have := (List.all_eq_true.mp hall) r h
      simp only [decide_eq_true_eq] at this
      exact absurd hk this
    · rw [List.mem_singleton.mp h]
  · have hex : ∃ r ∈ pts, r.Number = p.Number := by
      simp only [List.all_eq_true, decide_eq_true_eq, not_forall] at hall
      obtain ⟨r, hr, hk⟩ := hall
      exact ⟨r, hr, not_not.mp hk⟩
    rw [upsertRows_of_mem _ _ _ hex]
    constructor
    · obtain ⟨r, hr, hk⟩ := hex
      by_cases hc : Column.azimuth_number ∈ cols
      · refine ⟨putAll cols p r, List.mem_map.mpr ⟨r, hr, by simp [hk]⟩, ?_⟩
        have := putAll_get cols p r Column.azimuth_number
        simp only [hc, if_true, Point.get, SqlValue.int.injEq] at this
        exact this
      · exact ⟨putAll cols p r, List.mem_map.mpr ⟨r, hr, by simp [hk]⟩,
          by rw [putAll_Number _ _ _ hc, hk]⟩
    · intro r hr hk c hc
      obtain ⟨r0, _, hr0⟩ := List.mem_map.mp hr
      by_cases hk0 : r0.Number = p.Number
      · rw [if_pos hk0] at hr0
        rw [← hr0, putAll_get, if_pos hc]
      · rw [if_neg hk0] at hr0
        rw [hr0] at hk0
        exact absurd hk hk0

theorem applyEntry_of_isUpsert (e : AzimuthEventLog) (q : Query) (hE : Effects K e = .ok q)
    (hU : IsUpsert q) :
    ∃ p, q.BindValues = some p
      ∧ ∀ s, applyEntry K s e = .ok (upsertRows q.SQL.setColumns p s) := by
  obtain ⟨p, hp, _, _, happ⟩ := hU
  refine ⟨p, hp, fun s => ?_⟩
  simp only [applyEntry, hE, happ]

/-- C16: for an entry whose topic0 is the EscapeAccepted fingerprint and every Point Store,
applying its effect succeeds and leaves a Point numbered by the low four bytes of topic1, and
every such Point has `is_escape_requested = false`, `escape_requested_to = 0`,
`has_sponsor = true` and `sponsor` equal to the low four bytes of topic2, whatever the store
held before. -/
theorem escape_accepted_effect (hd : FingerprintsDistinct K) (e : AzimuthEventLog)
    (h0 : e.Topic0 = ESCAPE_ACCEPTED K) (pts : List Point) :
    ∃ q s, Effects K e = .ok q ∧ applyEffect q pts = .ok s
      ∧ (∃ r ∈ s, r.Number = low4 e.Topic1)
      ∧ ∀ r ∈ s, r.Number = low4 e.Topic1 →
          r.IsEscapeRequested = false ∧ r.EscapeRequestedTo = 0
            ∧ r.HasSponsor = true ∧ r.Sponsor = low4 e.Topic2 := by
  have hE := Effects_escape_accepted hd e h0
  rw [topic_to_azimuth_number_eq, topic_to_azimuth_number_eq] at hE
  obtain ⟨p, hp, _, _, happ⟩ :=
    escapeAccepted_isUpsert (beValue (e.Topic1.val.drop 28)) (beValue (e.Topic2.val.drop 28))
  cases hp
  refine ⟨_, _, hE, happ pts, ?_, ?_⟩
  · exact (upsertRows_spec _ _ pts).1
  · intro r hr hk
    have hs := (upsertRows_spec [Column.is_escape_requested, Column.escape_requested_to,
      Column.has_sponsor, Column.sponsor] _ pts).2 r hr hk
    have h1 := hs Column.is_escape_requested (by decide)
    have h2 := hs Column.escape_requested_to (by decide)
    have h3 := hs Column.has_sponsor (by decide)
    have h4 := hs Column.sponsor (by decide)
    simp only [Point.get, SqlValue.int.injEq] at h1 h2 h3 h4
    exact ⟨boolInt_inj _ _ h1, h2, boolInt_inj _ _ h3, h4⟩

/-- Witness of C16: EscapeAccepted for identity `0x42` with new sponsor `9`. -/
theorem escape_accepted_effect_witness :
    ∃ q s, Effects tableKeccak (mkLog 3 0 (ESCAPE_ACCEPTED tableKeccak) 0x42 9 []) = .ok q
      ∧ applyEffect q sampleStore = .ok s
      ∧ (∃ r ∈ s, r.Number = low4 (uint32Topic 0x42))
      ∧ ∀ r ∈ s, r.Number = low4 (uint32Topic 0x42) →
          r.IsEscapeRequested = false ∧ r.EscapeRequestedTo = 0
            ∧ r.HasSponsor = true ∧ r.Sponsor = low4 (uint32Topic 9) :=
  escape_accepted_effect tableKeccak_distinct
    (mkLog 3 0 (ESCAPE_ACCEPTED tableKeccak) 0x42 9 []) rfl sampleStore

/-- C12: for an EscapeRequested entry and an EscapeCanceled entry of the same identity `n`
and every Point Store, applying the request and then the cancellation leaves Point `n` with
`is_escape_requested = false` and `escape_requested_to = 0`, whereas applying them in the
reverse order leaves it with `is_escape_requested = true` and `escape_requested_to` equal to
the low four bytes of topic2 of the request. -/
theorem escape_order_sensitivity (hd : FingerprintsDistinct K) (eR eC : AzimuthEventLog)
    (hR : eR.Topic0 = ESCAPE_REQUESTED K) (hC : eC.Topic0 = ESCAPE_CANCELED K)
    (hn : low4 eC.Topic1 = low4 eR.Topic1) (pts : List Point) :
    (∃ s, applyInOrder K [eR, eC] pts = .ok s
      ∧ (∃ r ∈ s, r.Number = low4 eR.Topic1)
      ∧ ∀ r ∈ s, r.Number = low4 eR.Topic1 →
          r.IsEscapeRequested = false ∧ r.EscapeRequestedTo = 0)
    ∧ (∃ s, applyInOrder K [eC, eR] pts = .ok s
      ∧ (∃ r ∈ s, r.Number = low4 eR.Topic1)
      ∧ ∀ r ∈ s, r.Number = low4 eR.Topic1 →
          r.IsEscapeRequested = true ∧ r.EscapeRequestedTo = low4 eR.Topic2) := by
  have hER := Effects_escape_requested hd eR hR
  have hEC := Effects_escape_canceled hd eC hC
  rw [topic_to_azimuth_number_eq, topic_to_azimuth_number_eq] at hER
  rw [topic_to_azimuth_number_eq] at hEC
  obtain ⟨pR, hpR, hRapp⟩ := applyEntry_of_isUpsert eR _ hER (escapeRequested_isUpsert _ _)
  obtain ⟨pC, hpC, hCapp⟩ := applyEntry_of_isUpsert eC _ hEC (escapeCanceled_isUpsert _)
  cases hpR
  cases hpC
  simp only [low4] at hn ⊢
  have hRC : applyInOrder K [eR, eC] pts = .ok
      (upsertRows [Column.is_escape_requested, Column.escape_requested_to]
        { Number := beValue (eC.Topic1.val.drop 28), IsEscapeRequested := false,
          EscapeRequestedTo := 0 }
        (upsertRows [Column.is_escape_requested, Column.escape_requested_to]
          { Number := beValue (eR.Topic1.val.drop 28), IsEscapeRequested := true,
            EscapeRequestedTo := beValue (eR.Topic2.val.drop 28) } pts)) := by
    simp only [applyInOrder, hRapp, hCapp]
    rfl
  have hCR : applyInOrder K [eC, eR] pts = .ok
      (upsertRows [Column.is_escape_requested, Column.escape_requested_to]
        { Number := beValue (eR.Topic1.val.drop 28), IsEscapeRequested := true,
          EscapeRequestedTo := beValue (eR.Topic2.val.drop 28) }
        (upsertRows [Column.is_escape_requested, Column.escape_requested_to]
          { Number := beValue (eC.Topic1.val.drop 28), IsEscapeRequested := false,
            EscapeRequestedTo := 0 } pts)) := by
    simp only [applyInOrder, hRapp, hCapp]
    rfl
  constructor
  · refine ⟨_, hRC, ?_, ?_⟩
    · rw [← hn]
      exact (upsertRows_spec _ _ _).1
    · intro r hr hk
      rw [← hn] at hk
      have hs := (upsertRows_spec _ _ _).2 r hr hk
      have h1 := hs Column.is_escape_requested (by decide)
      have h2 := hs Column.escape_requested_to (by decide)
      simp only [Point.get, SqlValue.int.injEq] at h1 h2
      exact ⟨boolInt_inj _ _ h1, h2⟩
  · refine ⟨_, hCR, ?_, ?_⟩
    · exact (upsertRows_spec _ _ _).1
    · intro r hr hk
      have hs := (upsertRows_spec _ _ _).2 r hr hk
      have h1 := hs Column.is_escape_requested (by decide)
      have h2 := hs Column.escape_requested_to (by decide)
      simp only [Point.get, SqlValue.int.injEq] at h1 h2
      exact ⟨boolInt_inj _ _ h1, h2⟩

/-- Witness of C12: request of identity `0x42` to sponsor `9`, and its cancellation. -/
theorem escape_order_sensitivity_witness :
    (∃ s, applyInOrder tableKeccak
        [mkLog 3 0 (ESCAPE_REQUESTED tableKeccak) 0x42 9 [],
         mkLog 3 1 (ESCAPE_CANCELED tableKeccak) 0x42 0 []] sampleStore = .ok s
      ∧ (∃ r ∈ s, r.Number = low4 (uint32Topic 0x42))
      ∧ ∀ r ∈ s, r.Number = low4 (uint32Topic 0x42) →
          r.IsEscapeRequested = false ∧ r.EscapeRequestedTo = 0)
    ∧ (∃ s, applyInOrder tableKeccak
        [mkLog 3 1 (ESCAPE_CANCELED tableKeccak) 0x42 0 [],
         mkLog 3 0 (ESCAPE_REQUESTED tableKeccak) 0x42 9 []] sampleStore = .ok s
      ∧ (∃ r ∈ s, r.Number = low4 (uint32Topic 0x42))
      ∧ ∀ r ∈ s, r.Number = low4 (uint32Topic 0x42) →
          r.IsEscapeRequested = true ∧ r.EscapeRequestedTo = low4 (uint32Topic 9)) :=
  escape_order_sensitivity tableKeccak_distinct
    (mkLog 3 0 (ESCAPE_REQUESTED tableKeccak) 0x42 9 [])
    (mkLog 3 1 (ESCAPE_CANCELED tableKeccak) 0x42 0 []) rfl rfl rfl sampleStore

/-! ## Catalogued effects by event name -/

theorem Effects_by_name (hd : FingerprintsDistinct K) (e : AzimuthEventLog) (name : String)
    (hn : (e.Topic0, name) ∈ EVENT_NAMES K) (q : Query) (hq : Effects K e = .ok q) :
    (name = "ChangedDns" ∧ q = {})
    ∨ (name = "Spawned"
        ∧ q = ⟨spawnedSQL, some { Number := topic_to_azimuth_number e.Topic2 }⟩)
    ∨ (name ≠ "Spawned" ∧ name ≠ "ChangedDns" ∧ IsUpsert q
        ∧ q.SQL.setColumns = ruleColumns name
        ∧ ∃ p, q.BindValues = some p ∧ p.Number = low4 e.Topic1
            ∧ (name = "BrokeContinuity" → p.Rift = low4 e.Topic2)) := by
  simp only [EVENT_NAMES, List.mem_cons, List.mem_singleton, List.not_mem_nil, or_false,
    Prod.mk.injEq] at hn
  rcases hn with h | h | h | h | h | h | h | h | h | h | h | h | h | h <;>
    obtain ⟨h0, rfl⟩ := h
  · rw [Effects_owner_changed hd e h0] at hq
    cases hq
    exact Or.inr (Or.inr ⟨by decide, by decide, ownerChanged_isUpsert _ _, rfl, _, rfl,
      topic_to_azimuth_number_eq _, fun h => absurd h (by decide)⟩)
  · rw [Effects_activated hd e h0, activatedPoint_eq] at hq
    cases hq
    exact Or.inr (Or.inr ⟨by decide, by decide, activated_isUpsert _ _, rfl, _, rfl,
      topic_to_azimuth_number_eq _, fun h => absurd h (by decide)⟩)
  · rw [Effects_spawned e h0] at hq
    cases hq
    exact Or.inr (Or.inl ⟨rfl, rfl⟩)
  · rw [Effects_escape_requested hd e h0] at hq
    cases hq
    exact Or.inr (Or.inr ⟨by decide, by decide, escapeRequested_isUpsert _ _, rfl, _, rfl,
      topic_to_azimuth_number_eq _, fun h => absurd h (by decide)⟩)
  · rw [Effects_escape_canceled hd e h0] at hq
    cases hq
    exact Or.inr (Or.inr ⟨by decide, by decide, escapeCanceled_isUpsert _, rfl, _, rfl,
      topic_to_azimuth_number_eq _, fun h => absurd h (by decide)⟩)
  · rw [Effects_escape_accepted hd e h0] at hq
    cases hq
    exact Or.inr (Or.inr ⟨by decide, by decide, escapeAccepted_isUpsert _ _, rfl, _, rfl,
      topic_to_azimuth_number_eq _, fun h => absurd h (by decide)⟩)
  · rw [Effects_lost_sponsor hd e h0] at hq
    cases hq
    exact Or.inr (Or.inr ⟨by decide, by decide, lostSponsor_isUpsert _, rfl, _, rfl,
      topic_to_azimuth_number_eq _, fun h => absurd h (by decide)⟩)
  · by_cases hlen : e.Data.length = 32 * 4
    · rw [Effects_changed_keys hd e h0 hlen] at hq
      cases hq
      exact Or.inr (Or.inr ⟨by decide, by decide, changedKeys_isUpsert _ _ _ _ _, rfl, _, rfl,
        topic_to_azimuth_number_eq _, fun h => absurd h (by decide)⟩)
    · rw [Effects_changed_keys_bad hd e h0 hlen] at hq
      cases hq
  · rw [Effects_broke_continuity hd e h0] at hq
    cases hq
    exact Or.inr (Or.inr ⟨by decide, by decide, brokeContinuity_isUpsert _ _, rfl, _, rfl,
      topic_to_azimuth_number_eq _, fun _ => topic_to_uint32_eq _⟩)
  · rw [Effects_changed_spawn_proxy hd e h0] at hq
    cases hq
    exact Or.inr (Or.inr ⟨by decide, by decide, changedSpawnProxy_isUpsert _ _, rfl, _, rfl,
      topic_to_azimuth_number_eq _, fun h => absurd h (by decide)⟩)
  · rw [Effects_changed_transfer_proxy hd e h0] at hq
    cases hq
    exact Or.inr (Or.inr ⟨by decide, by decide, changedTransferProxy_isUpsert _ _, rfl, _, rfl,
      topic_to_azimuth_number_eq _, fun h => absurd h (by decide)⟩)
  · rw [Effects_changed_management_proxy hd e h0] at hq
    cases hq
    exact Or.inr (Or.inr ⟨by decide, by decide, changedManagementProxy_isUpsert _ _, rfl, _, rfl,
      topic_to_azimuth_number_eq _, fun h => absurd h (by decide)⟩)
  · rw [Effects_changed_voting_proxy hd e h0] at hq
    cases hq
    exact Or.inr (Or.inr ⟨by decide, by decide, changedVotingProxy_isUpsert _ _, rfl, _, rfl,
      topic_to_azimuth_number_eq _, fun h => absurd h (by decide)⟩)
  · rw [Effects_changed_dns hd e h0] at hq
    cases hq
    exact Or.inl ⟨rfl, rfl⟩

/-! ## An already drained log -/

/-- C17: on a store with no unprocessed entry the query fetches no row, and
`PlayAzimuthLogs` returns after one round of its loop, hence one fetch, with the event log
and the Point Store exactly as they were; `ApplyEventEffects` is not reached. -/
theorem replay_noop_when_drained (K : List Byte → Hash) (db : DBState)
    (h : ∀ e ∈ db.event_logs, e.IsProcessed = true) :
    (∀ B, selectBatch B db.event_logs = []
        ∧ PlayAzimuthLogsWith K B 1 db = some (.ok db))
    ∧ PlayAzimuthLogs K 1 db = some (.ok db) := by
  have hnil : unprocessed db.event_logs = [] := by
    unfold unprocessed
    have : (db.event_logs.filter fun e => !e.IsProcessed) = [] := by
      rw [List.filter_eq_nil_iff]
      intro e he
      simp [h e he]
    rw [this]
    rfl
  have hB : ∀ B, selectBatch B db.event_logs = [] := by
    intro B
    simp [selectBatch, hnil]
  refine ⟨fun B => ⟨hB B, ?_⟩, ?_⟩
  · exact play_step_empty B 0 db (by rw [hB B]; rfl)
  · exact play_step_empty 500 0 db (by rw [hB 500]; rfl)

/-- Witness of C17: a table whose only entry is processed. -/
theorem replay_noop_when_drained_witness :
    PlayAzimuthLogs tableKeccak 1 { event_logs := [processedLog], points := sampleStore }
      = some (.ok { event_logs := [processedLog], points := sampleStore }) :=
  (replay_noop_when_drained tableKeccak
    { event_logs := [processedLog], points := sampleStore } (by decide)).2

/-- C18: the Activated entry of the planet `0x00020005` binds the sponsor `5`, which is not in
the star range `0x100 ≤ sponsor < 0x10000`, against the comment of the planet branch
("A planet's original sponsor is a star"). -/
theorem planet_sponsor_below_star_range :
    ∃ p, Effects tableKeccak (mkLog 1 0 (ACTIVATED tableKeccak) 0x00020005 0 [])
        = .ok ⟨activatedSQL, some p⟩
      ∧ 0x10000 ≤ p.Number
      ∧ ¬ (0x100 ≤ p.Sponsor ∧ p.Sponsor < 0x10000) :=
  ⟨{ Number := 0x00020005, IsActive := true, HasSponsor := true, Sponsor := 5 },
    by decide, by decide, by decide⟩

/-- The tiers the Activated case does reach: the sponsor bound for a star-class identity `n`
(`0x100 ≤ n < 0x10000`) is a galaxy (`sponsor < 0x100`); for a planet-class identity
(`n ≥ 0x10000`) it is `n mod 0x10000`, which is below `0x10000` and lies in the star range
exactly when `n mod 0x10000 ≥ 0x100`. -/
theorem activated_sponsor_tier (hd : FingerprintsDistinct K) (e : AzimuthEventLog)
    (h0 : e.Topic0 = ACTIVATED K) :
    ∃ p, Effects K e = .ok ⟨activatedSQL, some p⟩ ∧ p.Number = low4 e.Topic1
      ∧ (0x100 ≤ p.Number → p.Number < 0x10000 → p.Sponsor < 0x100)
      ∧ (0x10000 ≤ p.Number →
          p.Sponsor = p.Number % 0x10000 ∧ p.Sponsor < 0x10000
            ∧ (0x100 ≤ p.Sponsor ↔ 0x100 ≤ p.Number % 0x10000)) := by
  have hN : ∀ n, (activatedPoint n).Number = n := fun n => by rw [activatedPoint_eq]
  have hS : ∀ n, (activatedPoint n).Sponsor
      = if n < 0x10000 then n % 0x100 else n % 0x10000 := fun n => by rw [activatedPoint_eq]
  have star : ∀ m : Nat, m < 0x10000 →
      (if m < 0x10000 then m % 0x100 else m % 0x10000) < 0x100 := by
    intro m h
    rw [if_pos h]
    omega
  have planet : ∀ m : Nat, 0x10000 ≤ m →
      (if m < 0x10000 then m % 0x100 else m % 0x10000) = m % 0x10000
        ∧ (if m < 0x10000 then m % 0x100 else m % 0x10000) < 0x10000
        ∧ (0x100 ≤ (if m < 0x10000 then m % 0x100 else m % 0x10000) ↔ 0x100 ≤ m % 0x10000) := by
    intro m h
    rw [if_neg (by omega)]
    omega
  refine ⟨_, Effects_activated hd e h0, ?_, ?_, ?_⟩
  · rw [hN, topic_to_azimuth_number_eq]
    rfl
  · rw [hN, hS]
    intro _ h2
    exact star _ h2
  · rw [hN, hS]
    intro h1
    exact planet _ h1

/-- The planet `0x00020305`, whose sponsor is the star `0x0305`. -/
theorem activated_sponsor_tier_witness :
    ∃ p, Effects tableKeccak (mkLog 1 0 (ACTIVATED tableKeccak) 0x00020305 0 [])
        = .ok ⟨activatedSQL, some p⟩
      ∧ p.Number = low4 (uint32Topic 0x00020305)
      ∧ (0x100 ≤ p.Number → p.Number < 0x10000 → p.Sponsor < 0x100)
      ∧ (0x10000 ≤ p.Number →
          p.Sponsor = p.Number % 0x10000 ∧ p.Sponsor < 0x10000
            ∧ (0x100 ≤ p.Sponsor ↔ 0x100 ≤ p.Number % 0x10000)) :=
  activated_sponsor_tier tableKeccak_distinct
    (mkLog 1 0 (ACTIVATED tableKeccak) 0x00020305 0 []) rfl

/-- C13, counterexample: an entry handed to `Save` with `IsProcessed = true` is stored with
`is_processed = true`, and the replay query does not fetch it. -/
theorem save_keeps_true_flag :
    ∃ row, Save {} processedLog = .ok { event_logs := [row], points := [] }
      ∧ row.IsProcessed = true
      ∧ selectBatch 500 [row] = [] :=
  ⟨processedLog, by decide, by decide, by decide⟩

theorem markProcessed_processedRow (e : AzimuthEventLog) (logs : List AzimuthEventLog) :
    (markProcessed e logs).map processedRow = logs.map processedRow := by
  unfold markProcessed
  rw [List.map_map]
  apply List.map_congr_left
  intro r _
  simp only [Function.comp]
  split <;> rfl

theorem markAll_processedRow (events logs : List AzimuthEventLog) :
    (markAll events logs).map processedRow = logs.map processedRow := by
  induction events generalizing logs with
  | nil => rfl
  | cons e es ih =>
    show (markAll es (markProcessed e logs)).map processedRow = _
    rw [ih, markProcessed_processedRow]

theorem play_ok_rows (B : Nat) (hB : 1 ≤ B) (fuel : Nat) (db db1 : DBState)
    (h : PlayAzimuthLogsWith K B fuel db = some (.ok db1)) :
    db1.event_logs = db.event_logs.map processedRow := by
  induction fuel generalizing db with
  | zero => simp [PlayAzimuthLogsWith] at h
  | succ fuel ih =>
    by_cases hz : (selectBatch B db.event_logs).length = 0
    · rw [play_step_empty B fuel db hz] at h
      simp only [Option.some.injEq, Except.ok.injEq] at h
      have hall := all_processed_of_unprocessed_nil _ (unprocessed_nil_of_batch_empty B hB _ hz)
      rw [← h]
      symm
      have : ∀ r ∈ db.event_logs, processedRow r = id r := by
        intro r hr
        have hp := hall r hr
        cases r
        simp only [processedRow, id] at hp ⊢
        simp_all
      rw [List.map_congr_left this, List.map_id]
    · cases hA : ApplyEventEffects K db (selectBatch B db.event_logs) with
      | error r =>
        rw [play_step_error B fuel db r hz hA] at h
        simp at h
      | ok db2 =>
        rw [play_step_ok B fuel db db2 hz hA] at h
        rw [ApplyEventEffects_eq] at hA
        obtain ⟨_, hlogs⟩ := applyEvents_ok _ _ _ _ hA
        rw [ih db2 h, hlogs, markAll_processedRow]

theorem uniqueKeys_append_fresh (logs : List AzimuthEventLog) (row : AzimuthEventLog)
    (hu : UniqueKeys logs) (hfresh : ∀ r ∈ logs, logKey r ≠ logKey row) :
    UniqueKeys (logs ++ [row]) := by
  unfold UniqueKeys at *
  rw [List.map_append, List.nodup_append]
  refine ⟨hu, by simp, ?_⟩
  intro k hk1 hk2
  simp only [List.map_cons, List.map_nil, List.mem_singleton] at hk2
  obtain ⟨r, hr, rfl⟩ := List.mem_map.mp hk1
  exact hfresh r hr hk2

/-- C13, amended: `Save` of an entry at a fresh position appends one row to `event_logs`,
whose `is_processed` equals the `IsProcessed` field of the entry passed in. When that field is
false, the row is among the unprocessed rows the replay query selects; on a table with distinct
positions the replay loop returns normally with Point Store `pts` exactly when applying the
effects of those rows, the new one included, in ascending `(block_number, log_index)` order
succeeds with `pts`; and every run that returns normally leaves each row of the table, the new
one included, marked processed and otherwise as it was. -/
theorem save_binds_processed_flag (K : List Byte → Hash) (db : DBState) (e : AzimuthEventLog)
    (hfresh : ∀ r ∈ db.event_logs, logKey r ≠ logKey e) :
    ∃ row, Save db e = .ok { event_logs := db.event_logs ++ [row], points := db.points }
      ∧ row.IsProcessed = e.IsProcessed
      ∧ (e.IsProcessed = false →
          row ∈ unprocessed (db.event_logs ++ [row])
          ∧ (UniqueKeys db.event_logs → ∀ B, 1 ≤ B → ∀ pts,
              (∃ fuel db1,
                  PlayAzimuthLogsWith K B fuel
                      { event_logs := db.event_logs ++ [row], points := db.points }
                    = some (.ok db1)
                  ∧ db1.points = pts)
                ↔ applyInOrder K (unprocessed (db.event_logs ++ [row])) db.points = .ok pts)
          ∧ (∀ B, 1 ≤ B → ∀ fuel db1,
              PlayAzimuthLogsWith K B fuel
                  { event_logs := db.event_logs ++ [row], points := db.points }
                = some (.ok db1) →
              db1.event_logs = (db.event_logs ++ [row]).map processedRow)) := by
  refine ⟨{ e with Name := "" }, ?_, rfl, ?_⟩
  · have : (db.event_logs.all fun r => decide (logKey r ≠ logKey e)) = true := by
      rw [List.all_eq_true]
      intro r hr
      simpa using hfresh r hr
    have hk : logKey { e with Name := "" } = logKey e := rfl
    simp only [Save, insertEventLog, hk, this, if_true]
  · intro hp
    refine ⟨?_, ?_, ?_⟩
    · unfold unprocessed
      rw [List.mem_insertionSort, List.mem_filter]
      exact ⟨by simp, by simp [hp]⟩
    · intro hu B hB pts
      have hu2 : UniqueKeys (db.event_logs ++ [{ e with Name := "" }]) :=
        uniqueKeys_append_fresh _ _ hu hfresh
      constructor
      · rintro ⟨fuel, db1, h, rfl⟩
        exact play_ok_sound B hB fuel _ db1 hu2 h
      · intro h
        obtain ⟨db1, h1, h2⟩ := play_ok_complete B hB _
          { event_logs := db.event_logs ++ [{ e with Name := "" }], points := db.points } pts
          (le_refl _) hu2 h
        exact ⟨_, db1, h1, h2⟩
    · intro B hB fuel db1 h
      exact play_ok_rows B hB fuel _ db1 h

/-- Witness of C13 amended: an unprocessed entry saved into `sampleReplayDB`. -/
theorem save_binds_processed_flag_witness :
    ∃ row, Save sampleReplayDB (mkLog 9 0 (ACTIVATED tableKeccak) 7 0 [])
        = .ok { event_logs := sampleReplayDB.event_logs ++ [row],
                points := sampleReplayDB.points }
      ∧ row.IsProcessed = (mkLog 9 0 (ACTIVATED tableKeccak) 7 0 []).IsProcessed
      ∧ ((mkLog 9 0 (ACTIVATED tableKeccak) 7 0 []).IsProcessed = false →
          row ∈ unprocessed (sampleReplayDB.event_logs ++ [row])
          ∧ (UniqueKeys sampleReplayDB.event_logs → ∀ B, 1 ≤ B → ∀ pts,
              (∃ fuel db1,
                  PlayAzimuthLogsWith tableKeccak B fuel
                      { event_logs := sampleReplayDB.event_logs ++ [row],
                        points := sampleReplayDB.points }
                    = some (.ok db1)
                  ∧ db1.points = pts)
                ↔ applyInOrder tableKeccak (unprocessed (sampleReplayDB.event_logs ++ [row]))
                    sampleReplayDB.points = .ok pts)
          ∧ (∀ B, 1 ≤ B → ∀ fuel db1,
              PlayAzimuthLogsWith tableKeccak B fuel
                  { event_logs := sampleReplayDB.event_logs ++ [row],
                    points := sampleReplayDB.points }
                = some (.ok db1) →
              db1.event_logs = (sampleReplayDB.event_logs ++ [row]).map processedRow)) :=
  save_binds_processed_flag tableKeccak sampleReplayDB (mkLog 9 0 (ACTIVATED tableKeccak) 7 0 [])
    (by decide)

/-! ## Rift and the empty effect -/

theorem Effects_statement_of_ne_dns (K : List Byte → Hash) (e : AzimuthEventLog)
    (h : e.Topic0 ≠ CHANGED_DNS K) (q : Query) (hq : Effects K e = .ok q) :
    ∃ s p, q = ⟨.insert s, some p⟩ := by
  unfold Effects at hq
  by_cases c0 : e.Topic0 = SPAWNED K
  · rw [if_pos c0] at hq
    cases hq
    exact ⟨_, _, rfl⟩
  rw [if_neg c0] at hq
  by_cases c1 : e.Topic0 = ACTIVATED K
  · rw [if_pos c1] at hq
    cases hq
    exact ⟨_, _, rfl⟩
  rw [if_neg c1] at hq
  by_cases c2 : e.Topic0 = OWNER_CHANGED K
  · rw [if_pos c2] at hq
    cases hq
    exact ⟨_, _, rfl⟩
  rw [if_neg c2] at hq
  by_cases c3 : e.Topic0 = CHANGED_SPAWN_PROXY K
  · rw [if_pos c3] at hq
    cases hq
    exact ⟨_, _, rfl⟩
  rw [if_neg c3] at hq
  by_cases c4 : e.Topic0 = CHANGED_TRANSFER_PROXY K
  · rw [if_pos c4] at hq
    cases hq
    exact ⟨_, _, rfl⟩
  rw [if_neg c4] at hq
  by_cases c5 : e.Topic0 = CHANGED_MANAGEMENT_PROXY K
  · rw [if_pos c5] at hq
    cases hq
    exact ⟨_, _, rfl⟩
  rw [if_neg c5] at hq
  by_cases c6 : e.Topic0 = CHANGED_VOTING_PROXY K
  · rw [if_pos c6] at hq
    cases hq
    exact ⟨_, _, rfl⟩
  rw [if_neg c6] at hq
  by_cases c7 : e.Topic0 = ESCAPE_REQUESTED K
  · rw [if_pos c7] at hq
    cases hq
    exact ⟨_, _, rfl⟩
  rw [if_neg c7] at hq
  by_cases c8 : e.Topic0 = ESCAPE_CANCELED K
  · rw [if_pos c8] at hq
    cases hq
    exact ⟨_, _, rfl⟩
  rw [if_neg c8] at hq
  by_cases c9 : e.Topic0 = ESCAPE_ACCEPTED K
  · rw [if_pos c9] at hq
    cases hq
    exact ⟨_, _, rfl⟩
  rw [if_neg c9] at hq
  by_cases c10 : e.Topic0 = LOST_SPONSOR K
  · rw [if_pos c10] at hq
    cases hq
    exact ⟨_, _, rfl⟩
  rw [if_neg c10] at hq
  by_cases c11 : e.Topic0 = BROKE_CONTINUITY K
  · rw [if_pos c11] at hq
    cases hq
    exact ⟨_, _, rfl⟩
  rw [if_neg c11] at hq
  by_cases c12 : e.Topic0 = CHANGED_KEYS K
  · rw [if_pos c12] at hq
    by_cases hlen : e.Data.length = 32 * 4
    · rw [dif_pos hlen] at hq
      cases hq
      exact ⟨_, _, rfl⟩
    · rw [dif_neg hlen] at hq
      cases hq
  rw [if_neg c12] at hq
  rw [if_neg h] at hq
  cases hq

theorem upsertRows_as_map (cols : List Column) (p : Point) (pts : List Point) :
    ∃ extra, upsertRows cols p pts
      = pts.map (fun r => if r.Number = p.Number then putAll cols p r else r) ++ extra := by
  by_cases hall : (pts.all fun r => decide (r.Number ≠ p.Number)) = true
  · refine ⟨[p], ?_⟩
    have hid : ∀ r ∈ pts, (fun r => if r.Number = p.Number then putAll cols p r else r) r
        = id r := by
      intro r hr
      have := (List.all_eq_true.mp hall) r hr
      simp only [decide_eq_true_eq] at this
      simp [this]
    unfold upsertRows
    rw [if_pos hall, List.map_congr_left hid, List.map_id]
  · refine ⟨[], ?_⟩
    unfold upsertRows
    rw [if_neg hall, List.append_nil]

theorem rift_of_get {a b : Point} (h : a.get Column.rift = b.get Column.rift) :
    a.Rift = b.Rift := by
  simpa [Point.get] using h

theorem rift_mem_ruleColumns (name : String) (h : Column.rift ∈ ruleColumns name) :
    name = "BrokeContinuity" := by
  unfold ruleColumns at h
  by_cases c0 : name = "Activated"
  · rw [if_pos c0] at h
    exact absurd h (by decide)
  rw [if_neg c0] at h
  by_cases c1 : name = "OwnerChanged"
  · rw [if_pos c1] at h
    exact absurd h (by decide)
  rw [if_neg c1] at h
  by_cases c2 : name = "ChangedSpawnProxy"
  · rw [if_pos c2] at h
    exact absurd h (by decide)
  rw [if_neg c2] at h
  by_cases c3 : name = "ChangedTransferProxy"
  · rw [if_pos c3] at h
    exact absurd h (by decide)
  rw [if_neg c3] at h
  by_cases c4 : name = "ChangedManagementProxy"
  · rw [if_pos c4] at h
    exact absurd h (by decide)
  rw [if_neg c4] at h
  by_cases c5 : name = "ChangedVotingProxy"
  · rw [if_pos c5] at h
    exact absurd h (by decide)
  rw [if_neg c5] at h
  by_cases c6 : name = "EscapeRequested"
  · rw [if_pos c6] at h
    exact absurd h (by decide)
  rw [if_neg c6] at h
  by_cases c7 : name = "EscapeCanceled"
  · rw [if_pos c7] at h
    exact absurd h (by decide)
  rw [if_neg c7] at h
  by_cases c8 : name = "EscapeAccepted"
  · rw [if_pos c8] at h
    exact absurd h (by decide)
  rw [if_neg c8] at h
  by_cases c9 : name = "LostSponsor"
  · rw [if_pos c9] at h
    exact absurd h (by decide)
  rw [if_neg c9] at h
  by_cases c10 : name = "BrokeContinuity"
  · exact c10
  rw [if_neg c10] at h
  by_cases c11 : name = "ChangedKeys"
  · rw [if_pos c11] at h
    exact absurd h (by decide)
  rw [if_neg c11] at h
  exact absurd h (by decide)

/-- C19, counterexample: a BrokeContinuity entry carrying rift `3` applied to a store where
identity `0x42` has rift `5` leaves that Point with rift `3`. -/
theorem continuity_break_lowers_rift :
    ∃ q, Effects tableKeccak (mkLog 1 0 (BROKE_CONTINUITY tableKeccak) 0x42 3 []) = .ok q
      ∧ applyEffect q [{ Number := 0x42, Rift := 5 }] = .ok [{ Number := 0x42, Rift := 3 }]
      ∧ ¬ (({ Number := 0x42, Rift := 5 } : Point).Rift
            ≤ ({ Number := 0x42, Rift := 3 } : Point).Rift) :=
  ⟨⟨brokeContinuitySQL, some { Number := 0x42, Rift := 3 }⟩, by decide, by decide, by decide⟩

/-- C19, amended: applying the effect of a catalogued entry rewrites the existing rows one by
one (possibly appending a new row) and keeps their numbers; a BrokeContinuity entry sets the
rift of its Point to the low four bytes of topic2, whatever the stored value, and in every
other case the rift of a row is unchanged; so the rift of a row does not decrease exactly
when, for a BrokeContinuity entry on that row, the value of topic2 is not below the stored
rift. For every event but Spawned the application succeeds. -/
theorem rift_set_only_by_continuity_break (hd : FingerprintsDistinct K) (e : AzimuthEventLog)
    (name : String) (hn : (e.Topic0, name) ∈ EVENT_NAMES K) (q : Query)
    (hq : Effects K e = .ok q) (pts : List Point) :
    (name ≠ "Spawned" → ∃ pts1, applyEffect q pts = .ok pts1)
    ∧ ∀ pts1, applyEffect q pts = .ok pts1 →
        ∃ (g : Point → Point) (extra : List Point), pts1 = pts.map g ++ extra
          ∧ ∀ r, (g r).Number = r.Number
              ∧ ((name = "BrokeContinuity" ∧ r.Number = low4 e.Topic1) →
                  (g r).Rift = low4 e.Topic2)
              ∧ (¬ (name = "BrokeContinuity" ∧ r.Number = low4 e.Topic1) →
                  (g r).Rift = r.Rift)
              ∧ (r.Rift ≤ (g r).Rift ↔
                  ((name = "BrokeContinuity" ∧ r.Number = low4 e.Topic1) →
                    r.Rift ≤ low4 e.Topic2)) := by
  have fin : ∀ (g : Point → Point) (r : Point), (g r).Number = r.Number →
      ((name = "BrokeContinuity" ∧ r.Number = low4 e.Topic1) → (g r).Rift = low4 e.Topic2) →
      (¬ (name = "BrokeContinuity" ∧ r.Number = low4 e.Topic1) → (g r).Rift = r.Rift) →
      (g r).Number = r.Number
        ∧ ((name = "BrokeContinuity" ∧ r.Number = low4 e.Topic1) →
            (g r).Rift = low4 e.Topic2)
        ∧ (¬ (name = "BrokeContinuity" ∧ r.Number = low4 e.Topic1) →
            (g r).Rift = r.Rift)
        ∧ (r.Rift ≤ (g r).Rift ↔
            ((name = "BrokeContinuity" ∧ r.Number = low4 e.Topic1) →
              r.Rift ≤ low4 e.Topic2)) := by
    intro g r h1 h2 h3
    refine ⟨h1, h2, h3, ?_⟩
    by_cases hc : name = "BrokeContinuity" ∧ r.Number = low4 e.Topic1
    · rw [h2 hc]
      exact ⟨fun h _ => h, fun h => h hc⟩
    · rw [h3 hc]
      exact ⟨fun _ h => absurd h hc, fun _ => le_refl _⟩
  rcases Effects_by_name hd e name hn q hq with
    ⟨hdns, rfl⟩ | ⟨hname, rfl⟩ | ⟨hs, _, hU, hcols, p, hp, hnum, hrift⟩
  · refine ⟨fun _ => ⟨pts, empty_apply pts⟩, ?_⟩
    intro pts1 h1
    rw [empty_apply] at h1
    refine ⟨id, [], by simpa using (Except.ok.inj h1).symm, fun r => ?_⟩
    refine fin id r rfl ?_ (fun _ => rfl)
    rintro ⟨hb, _⟩
    rw [hdns] at hb
    exact absurd hb (by decide)
  · refine ⟨fun h => absurd hname h, ?_⟩
    intro pts1 h1
    rw [spawned_apply] at h1
    by_cases hall : (pts.all fun r => decide (r.Number ≠ topic_to_azimuth_number e.Topic2)) = true
    · rw [if_pos hall] at h1
      refine ⟨id, [{ Number := topic_to_azimuth_number e.Topic2 }],
        by simpa using (Except.ok.inj h1).symm, fun r => ?_⟩
      refine fin id r rfl ?_ (fun _ => rfl)
      rintro ⟨hb, _⟩
      rw [hname] at hb
      exact absurd hb (by decide)
    · rw [if_neg hall] at h1
      cases h1
  · obtain ⟨p1, hp1, _, hkey, happ⟩ := hU
    rw [hp] at hp1
    cases hp1
    refine ⟨fun _ => ⟨_, happ pts⟩, ?_⟩
    intro pts1 h1
    rw [happ] at h1
    obtain ⟨extra, hex⟩ := upsertRows_as_map q.SQL.setColumns p pts
    rw [hex] at h1
    refine ⟨_, extra, (Except.ok.inj h1).symm, fun r => ?_⟩
    apply fin
    · by_cases hk : r.Number = p.Number
      · simp only [hk, if_true]
        rw [putAll_Number _ _ _ hkey, hk]
      · simp only [hk, if_false]
    · rintro ⟨hb, hk⟩
      rw [← hnum] at hk
      simp only [hk, if_true]
      rw [← hrift hb]
      apply rift_of_get
      rw [putAll_get, if_pos]
      rw [hcols, hb]
      decide
    · intro hc
      by_cases hk : r.Number = p.Number
      · simp only [hk, if_true]
        have hb : name ≠ "BrokeContinuity" := fun hb => hc ⟨hb, by rw [hk, hnum]⟩
        apply rift_of_get
        apply putAll_get_of_not_mem
        rw [hcols]
        intro hmem
        exact hb (rift_mem_ruleColumns name hmem)
      · simp only [hk, if_false]

/-- Witness of C19 amended: BrokeContinuity with rift `9` for identity `0x42`. -/
theorem rift_set_only_by_continuity_break_witness :
    (∃ pts1, applyEffect ⟨brokeContinuitySQL, some { Number := 0x42, Rift := 9 }⟩ sampleStore
        = .ok pts1)
    ∧ ∃ (g : Point → Point) (extra : List Point),
        [{ Number := 0x42, IsActive := true, HasSponsor := true, Sponsor := 7, Rift := 9 },
         { Number := 5 }] = sampleStore.map g ++ extra
        ∧ ∀ r, (g r).Number = r.Number
            ∧ (("BrokeContinuity" = "BrokeContinuity" ∧ r.Number = low4 (uint32Topic 0x42)) →
                (g r).Rift = low4 (uint32Topic 9))
            ∧ (¬ ("BrokeContinuity" = "BrokeContinuity" ∧ r.Number = low4 (uint32Topic 0x42)) →
                (g r).Rift = r.Rift)
            ∧ (r.Rift ≤ (g r).Rift ↔
                (("BrokeContinuity" = "BrokeContinuity" ∧ r.Number = low4 (uint32Topic 0x42)) →
                  r.Rift ≤ low4 (uint32Topic 9))) :=
  have h := rift_set_only_by_continuity_break tableKeccak_distinct
    (mkLog 4 0 (BROKE_CONTINUITY tableKeccak) 0x42 9 []) "BrokeContinuity" (by decide)
    ⟨brokeContinuitySQL, some { Number := 0x42, Rift := 9 }⟩ (by decide) sampleStore
  ⟨h.1 (by decide), h.2 _ (by decide)⟩

/-- C20, counterexample: ChangedKeys is a catalogued fingerprint other than ChangedDns, and
for a ChangedKeys entry with a payload of 100 bytes `Effects` returns no statement: it
panics. -/
theorem changed_keys_short_payload_no_statement :
    Catalogued tableKeccak (CHANGED_KEYS tableKeccak)
    ∧ CHANGED_KEYS tableKeccak ≠ CHANGED_DNS tableKeccak
    ∧ Effects tableKeccak
        (mkLog 1 0 (CHANGED_KEYS tableKeccak) 0x42 0 (List.replicate 100 0))
        = .error (.badDataLength 100) := by
  decide

/-- C20, amended: with pairwise distinct fingerprints, `Effects` returns the empty effect
exactly when topic0 is the ChangedDns fingerprint; every effect it returns for another topic0
is a non-empty statement with one bound Point, and it does return one for every other
catalogued fingerprint whose ChangedKeys payload, if any, is 128 bytes long; for a ChangedDns
entry `ApplyEventEffects` leaves the Point Store unchanged and marks the entry processed. -/
theorem empty_effect_iff_changed_dns (hd : FingerprintsDistinct K) (e : AzimuthEventLog) :
    (Effects K e = .ok {} ↔ e.Topic0 = CHANGED_DNS K)
    ∧ (∀ q, Effects K e = .ok q → e.Topic0 ≠ CHANGED_DNS K →
        ∃ s p, q = ⟨.insert s, some p⟩)
    ∧ (Catalogued K e.Topic0 → e.Topic0 ≠ CHANGED_DNS K →
        (e.Topic0 = CHANGED_KEYS K → e.Data.length = 128) →
        ∃ s p, Effects K e = .ok ⟨.insert s, some p⟩)
    ∧ (e.Topic0 = CHANGED_DNS K →
        ∀ db, ApplyEventEffects K db [e]
          = .ok { event_logs := markProcessed e db.event_logs, points := db.points }) := by
  refine ⟨⟨?_, fun h0 => Effects_changed_dns hd e h0⟩, ?_, ?_, ?_⟩
  · intro hq
    by_contra hne
    obtain ⟨s, p, h⟩ := Effects_statement_of_ne_dns K e hne _ hq
    cases h
  · intro q hq hne
    exact Effects_statement_of_ne_dns K e hne q hq
  · intro hc hne hlen
    obtain ⟨q, hq⟩ := Effects_total K e hc hlen
    obtain ⟨s, p, rfl⟩ := Effects_statement_of_ne_dns K e hne q hq
    exact ⟨s, p, hq⟩
  · intro h0 db
    rw [ApplyEventEffects_eq]
    simp only [applyEvents, Effects_changed_dns hd e h0, empty_apply]

/-- Witness of C20 amended: a ChangedDns entry and an OwnerChanged entry. -/
theorem empty_effect_iff_changed_dns_witness :
    Effects tableKeccak (mkLog 5 0 (CHANGED_DNS tableKeccak) 0 0 []) = .ok {}
    ∧ ApplyEventEffects tableKeccak
        { event_logs := [mkLog 5 0 (CHANGED_DNS tableKeccak) 0 0 []], points := sampleStore }
        [mkLog 5 0 (CHANGED_DNS tableKeccak) 0 0 []]
      = .ok { event_logs := markProcessed (mkLog 5 0 (CHANGED_DNS tableKeccak) 0 0 [])
                [mkLog 5 0 (CHANGED_DNS tableKeccak) 0 0 []],
              points := sampleStore }
    ∧ ∃ s p, Effects tableKeccak (mkLog 1 0 (OWNER_CHANGED tableKeccak) 0x42 0x99 [])
        = .ok ⟨.insert s, some p⟩ :=
  have h := empty_effect_iff_changed_dns tableKeccak_distinct
    (mkLog 5 0 (CHANGED_DNS tableKeccak) 0 0 [])
  have h2 := empty_effect_iff_changed_dns tableKeccak_distinct
    (mkLog 1 0 (OWNER_CHANGED tableKeccak) 0x42 0x99 [])
  ⟨h.1.mpr rfl, h.2.2.2 rfl _, h2.2.2.1 (by decide) (by decide) (by decide)⟩

/-! ## Order independence across identities -/

theorem SameOutcome.refl (r : Except Panic (List Point)) : SameOutcome r r := by
  cases r with
  | error p => trivial
  | ok s => exact List.Perm.refl s

theorem SameOutcome.symm {r1 r2 : Except Panic (List Point)} (h : SameOutcome r1 r2) :
    SameOutcome r2 r1 := by
  cases r1 <;> cases r2 <;> simp only [SameOutcome] at h ⊢
  exact h.symm

theorem SameOutcome.trans {r1 r2 r3 : Except Panic (List Point)} (h12 : SameOutcome r1 r2)
    (h23 : SameOutcome r2 r3) : SameOutcome r1 r3 := by
  cases r1 <;> cases r2 <;> cases r3 <;> simp only [SameOutcome] at h12 h23 ⊢
  exact h12.trans h23

theorem all_ne_iff (k : AzimuthNumber) (s : List Point) :
    (s.all fun r => decide (r.Number ≠ k)) = true ↔ ∀ r ∈ s, r.Number ≠ k := by
  simp [List.all_eq_true]

theorem all_ne_perm (k : AzimuthNumber) {s1 s2 : List Point} (h : s1.Perm s2) :
    (s1.all fun r => decide (r.Number ≠ k)) = (s2.all fun r => decide (r.Number ≠ k)) := by
  rw [Bool.eq_iff_iff, all_ne_iff, all_ne_iff]
  exact ⟨fun h1 r hr => h1 r (h.mem_iff.mpr hr), fun h2 r hr => h2 r (h.mem_iff.mp hr)⟩

theorem keyedInsert_perm (oc : Option (Point → Point)) (p : Point) {s1 s2 : List Point}
    (h : s1.Perm s2) : SameOutcome (keyedInsert oc p s1) (keyedInsert oc p s2) := by
  unfold keyedInsert
  rw [all_ne_perm p.Number h]
  by_cases hall : (s2.all fun r => decide (r.Number ≠ p.Number)) = true
  · rw [if_pos hall, if_pos hall]
    exact h.append_right [p]
  · rw [if_neg hall, if_neg hall]
    cases oc with
    | none => trivial
    | some f => exact h.map _

theorem onKey_Number (k : AzimuthNumber) (f : Point → Point)
    (hf : ∀ r, (f r).Number = r.Number) (r : Point) : (onKey k f r).Number = r.Number := by
  unfold onKey
  split
  · exact hf r
  · rfl

theorem onKey_of_ne (k : AzimuthNumber) (f : Point → Point) (r : Point) (h : r.Number ≠ k) :
    onKey k f r = r := by
  unfold onKey
  rw [if_neg h]

theorem all_ne_map_onKey (k k1 : AzimuthNumber) (f : Point → Point)
    (hf : ∀ r, (f r).Number = r.Number) (s : List Point) :
    ((s.map (onKey k1 f)).all fun r => decide (r.Number ≠ k))
      = (s.all fun r => decide (r.Number ≠ k)) := by
  rw [Bool.eq_iff_iff, all_ne_iff, all_ne_iff]
  constructor
  · intro h r hr
    have := h (onKey k1 f r) (List.mem_map_of_mem _ hr)
    rwa [onKey_Number k1 f hf] at this
  · intro h r hr
    obtain ⟨r0, hr0, rfl⟩ := List.mem_map.mp hr
    rw [onKey_Number k1 f hf]
    exact h r0 hr0

theorem onKey_comm (ka kb : AzimuthNumber) (hne : ka ≠ kb) (fa fb : Point → Point)
    (hfa : ∀ r, (fa r).Number = r.Number) (hfb : ∀ r, (fb r).Number = r.Number) (r : Point) :
    onKey kb fb (onKey ka fa r) = onKey ka fa (onKey kb fb r) := by
  by_cases h1 : r.Number = ka
  · have h2 : r.Number ≠ kb := fun h => hne (h1.symm.trans h)
    rw [onKey_of_ne kb fb r h2]
    apply onKey_of_ne
    rw [onKey_Number ka fa hfa]
    exact h2
  · rw [onKey_of_ne ka fa r h1]
    symm
    apply onKey_of_ne
    rw [onKey_Number kb fb hfb]
    exact h1

theorem keyedInsert_eq (oc : Option (Point → Point)) (p : Point) (s : List Point) :
    keyedInsert oc p s
      = if s.all (fun r => decide (r.Number ≠ p.Number)) then .ok (s ++ [p])
        else match oc with
          | none => .error (.storage .uniqueConstraint)
          | some f => .ok (s.map (onKey p.Number f)) := rfl

theorem keyedInsert_comm (oca ocb : Option (Point → Point)) (pa pb : Point)
    (hne : pa.Number ≠ pb.Number)
    (hfa : ∀ f ∈ oca, ∀ r, (f r).Number = r.Number)
    (hfb : ∀ f ∈ ocb, ∀ r, (f r).Number = r.Number) (s : List Point) :
    SameOutcome (andThen (keyedInsert oca pa s) (keyedInsert ocb pb))
      (andThen (keyedInsert ocb pb s) (keyedInsert oca pa)) := by
  have hpa : ([pa].all fun r => decide (r.Number ≠ pb.Number)) = true := by
    simp [hne]
  have hpb : ([pb].all fun r => decide (r.Number ≠ pa.Number)) = true := by
    simp [Ne.symm hne]
  by_cases ha : (s.all fun r => decide (r.Number ≠ pa.Number)) = true <;>
    by_cases hb : (s.all fun r => decide (r.Number ≠ pb.Number)) = true
  · -- both rows are new
    have h1 : keyedInsert oca pa s = .ok (s ++ [pa]) := by rw [keyedInsert_eq, if_pos ha]
    have h2 : keyedInsert ocb pb s = .ok (s ++ [pb]) := by rw [keyedInsert_eq, if_pos hb]
    have h3 : keyedInsert ocb pb (s ++ [pa]) = .ok (s ++ [pa] ++ [pb]) := by
      rw [keyedInsert_eq, if_pos (by rw [List.all_append, hb, hpa]; rfl)]
    have h4 : keyedInsert oca pa (s ++ [pb]) = .ok (s ++ [pb] ++ [pa]) := by
      rw [keyedInsert_eq, if_pos (by rw [List.all_append, ha, hpb]; rfl)]
    rw [h1, h2]
    simp only [andThen, h3, h4, SameOutcome, List.append_assoc]
    exact List.Perm.append_left s List.perm_append_comm
  · -- the row of `pa` is new, the row of `pb` exists
    have h1 : keyedInsert oca pa s = .ok (s ++ [pa]) := by rw [keyedInsert_eq, if_pos ha]
    rw [h1]
    cases ocb with
    | none =>
      have h2 : keyedInsert none pb s = .error (.storage .uniqueConstraint) := by
        rw [keyedInsert_eq, if_neg hb]
      have h3 : keyedInsert none pb (s ++ [pa]) = .error (.storage .uniqueConstraint) := by
        rw [keyedInsert_eq, if_neg (by rw [List.all_append, hpa, Bool.and_true]; exact hb)]
      rw [h2]
      simp only [andThen, h3, SameOutcome]
    | some fb =>
      have hfb1 := hfb fb rfl
      have h2 : keyedInsert (some fb) pb s = .ok (s.map (onKey pb.Number fb)) := by
        rw [keyedInsert_eq, if_neg hb]
      have h3 : keyedInsert (some fb) pb (s ++ [pa])
          = .ok (s.map (onKey pb.Number fb) ++ [pa]) := by
        rw [keyedInsert_eq, if_neg (by rw [List.all_append, hpa, Bool.and_true]; exact hb)]
        simp only [List.map_append, List.map_cons, List.map_nil, onKey_of_ne _ _ _ hne]
      have h4 : keyedInsert oca pa (s.map (onKey pb.Number fb))
          = .ok (s.map (onKey pb.Number fb) ++ [pa]) := by
        rw [keyedInsert_eq, if_pos (by rw [all_ne_map_onKey _ _ _ hfb1]; exact ha)]
      rw [h2]
      simp only [andThen, h3, h4]
      exact SameOutcome.refl _
  · -- the row of `pa` exists, the row of `pb` is new
    have h1 : keyedInsert ocb pb s = .ok (s ++ [pb]) := by rw [keyedInsert_eq, if_pos hb]
    rw [h1]
    cases oca with
    | none =>
      have h2 : keyedInsert none pa s = .error (.storage .uniqueConstraint) := by
        rw [keyedInsert_eq, if_neg ha]
      have h3 : keyedInsert none pa (s ++ [pb]) = .error (.storage .uniqueConstraint) := by
        rw [keyedInsert_eq, if_neg (by rw [List.all_append, hpb, Bool.and_true]; exact ha)]
      rw [h2]
      simp only [andThen, h3, SameOutcome]
    | some fa =>
      have hfa1 := hfa fa rfl
      have h2 : keyedInsert (some fa) pa s = .ok (s.map (onKey pa.Number fa)) := by
        rw [keyedInsert_eq, if_neg ha]
      have h3 : keyedInsert (some fa) pa (s ++ [pb])
          = .ok (s.map (onKey pa.Number fa) ++ [pb]) := by
        rw [keyedInsert_eq, if_neg (by rw [List.all_append, hpb, Bool.and_true]; exact ha)]
        simp only [List.map_append, List.map_cons, List.map_nil,
          onKey_of_ne _ _ _ (Ne.symm hne)]
      have h4 : keyedInsert ocb pb (s.map (onKey pa.Number fa))
          = .ok (s.map (onKey pa.Number fa) ++ [pb]) := by
        rw [keyedInsert_eq, if_pos (by rw [all_ne_map_onKey _ _ _ hfa1]; exact hb)]
      rw [h2]
      simp only [andThen, h3, h4]
      exact SameOutcome.refl _
  · -- both rows exist
    cases oca with
    | none =>
      have h2 : keyedInsert none pa s = .error (.storage .uniqueConstraint) := by
        rw [keyedInsert_eq, if_neg ha]
      rw [h2]
      cases ocb with
      | none =>
        have h3 : keyedInsert none pb s = .error (.storage .uniqueConstraint) := by
          rw [keyedInsert_eq, if_neg hb]
        rw [h3]
        simp only [andThen, SameOutcome]
      | some fb =>
        have h3 : keyedInsert (some fb) pb s = .ok (s.map (onKey pb.Number fb)) := by
          rw [keyedInsert_eq, if_neg hb]
        have h4 : keyedInsert none pa (s.map (onKey pb.Number fb))
            = .error (.storage .uniqueConstraint) := by
          rw [keyedInsert_eq, if_neg (by rw [all_ne_map_onKey _ _ _ (hfb fb rfl)]; exact ha)]
        rw [h3]
        simp only [andThen, h4, SameOutcome]
    | some fa =>
      have hfa1 := hfa fa rfl
      have h2 : keyedInsert (some fa) pa s = .ok (s.map (onKey pa.Number fa)) := by
        rw [keyedInsert_eq, if_neg ha]
      rw [h2]
      cases ocb with
      | none =>
        have h3 : keyedInsert none pb s = .error (.storage .uniqueConstraint) := by
          rw [keyedInsert_eq, if_neg hb]
        have h4 : keyedInsert none pb (s.map (onKey pa.Number fa))
            = .error (.storage .uniqueConstraint) := by
          rw [keyedInsert_eq, if_neg (by rw [all_ne_map_onKey _ _ _ hfa1]; exact hb)]
        rw [h3]
        simp only [andThen, h4, SameOutcome]
      | some fb =>
        have hfb1 := hfb fb rfl
        have h3 : keyedInsert (some fb) pb s = .ok (s.map (onKey pb.Number fb)) := by
          rw [keyedInsert_eq, if_neg hb]
        have h4 : keyedInsert (some fb) pb (s.map (onKey pa.Number fa))
            = .ok ((s.map (onKey pa.Number fa)).map (onKey pb.Number fb)) := by
          rw [keyedInsert_eq, if_neg (by rw [all_ne_map_onKey _ _ _ hfa1]; exact hb)]
        have h5 : keyedInsert (some fa) pa (s.map (onKey pb.Number fb))
            = .ok ((s.map (onKey pb.Number fb)).map (onKey pa.Number fa)) := by
          rw [keyedInsert_eq, if_neg (by rw [all_ne_map_onKey _ _ _ hfb1]; exact ha)]
        rw [h3]
        simp only [andThen, h4, h5, List.map_map]
        have : (onKey pb.Number fb ∘ onKey pa.Number fa)
            = (onKey pa.Number fa ∘ onKey pb.Number fb) := by
          funext r
          exact onKey_comm _ _ hne fa fb hfa1 hfb1 r
        rw [this]
        exact SameOutcome.refl _

theorem entry_normal_form (K : List Byte → Hash) (e : AzimuthEventLog) :
    (∃ p, ∀ s, applyEntry K s e = .error p)
    ∨ (entryTarget K e = none ∧ ∀ s, applyEntry K s e = .ok s)
    ∨ (∃ oc p, entryTarget K e = some p.Number
        ∧ (∀ f ∈ oc, ∀ r, (f r).Number = r.Number)
        ∧ ∀ s, applyEntry K s e = keyedInsert oc p s) := by
  cases hE : Effects K e with
  | error p =>
    exact Or.inl ⟨p, fun s => by simp only [applyEntry, hE]⟩
  | ok q =>
    rcases Effects_shape K e q hE with rfl | ⟨n, rfl⟩ | hU
    · refine Or.inr (Or.inl ⟨by simp only [entryTarget, hE]; rfl, fun s => ?_⟩)
      simp only [applyEntry, hE, empty_apply]
    · refine Or.inr (Or.inr ⟨none, { Number := n }, by simp only [entryTarget, hE]; rfl,
        by simp, fun s => ?_⟩)
      simp only [applyEntry, hE, spawned_apply, keyedInsert]
      by_cases hall : (s.all fun r => decide (r.Number ≠ n)) = true
      · simp only [if_pos hall]
      · simp only [if_neg hall]
    · obtain ⟨p, hp, _, hkey, happ⟩ := hU
      refine Or.inr (Or.inr ⟨some (putAll q.SQL.setColumns p), p,
        by simp only [entryTarget, hE, hp]; rfl, ?_, fun s => ?_⟩)
      · intro f hf r
        cases hf
        exact putAll_Number _ _ _ hkey
      · simp only [applyEntry, hE, happ, keyedInsert, upsertRows]
        by_cases hall : (s.all fun r => decide (r.Number ≠ p.Number)) = true
        · simp only [if_pos hall]
        · simp only [if_neg hall]

theorem applyEntry_perm (K : List Byte → Hash) (e : AzimuthEventLog) {s1 s2 : List Point}
    (h : s1.Perm s2) : SameOutcome (applyEntry K s1 e) (applyEntry K s2 e) := by
  rcases entry_normal_form K e with ⟨p, hp⟩ | ⟨_, hid⟩ | ⟨oc, p, _, _, hk⟩
  · rw [hp, hp]
    trivial
  · rw [hid, hid]
    exact h
  · rw [hk, hk]
    exact keyedInsert_perm oc p h

theorem andThen_congr {r1 r2 : Except Panic (List Point)}
    {F G : List Point → Except Panic (List Point)} (h : SameOutcome r1 r2)
    (hFG : ∀ s1 s2, s1.Perm s2 → SameOutcome (F s1) (G s2)) :
    SameOutcome (andThen r1 F) (andThen r2 G) := by
  cases r1 <;> cases r2 <;> simp only [SameOutcome] at h
  · trivial
  · exact hFG _ _ h

theorem applyInOrder_cons (K : List Byte → Hash) (e : AzimuthEventLog)
    (es : List AzimuthEventLog) (s : List Point) :
    applyInOrder K (e :: es) s = andThen (applyEntry K s e) (applyInOrder K es) := by
  cases h : applyEntry K s e with
  | error p => simp only [applyInOrder, andThen, h]
  | ok s1 => simp only [applyInOrder, andThen, h]

theorem applyInOrder_perm (K : List Byte → Hash) (l : List AzimuthEventLog)
    {s1 s2 : List Point} (h : s1.Perm s2) :
    SameOutcome (applyInOrder K l s1) (applyInOrder K l s2) := by
  induction l generalizing s1 s2 with
  | nil => exact h
  | cons e es ih =>
    rw [applyInOrder_cons, applyInOrder_cons]
    exact andThen_congr (applyEntry_perm K e h) (fun _ _ h12 => ih h12)

theorem applyEntry_comm (K : List Byte → Hash) (a b : AzimuthEventLog)
    (hdis : ∀ n ∈ entryTarget K a, ∀ m ∈ entryTarget K b, n ≠ m) (s : List Point) :
    SameOutcome (andThen (applyEntry K s a) (fun s1 => applyEntry K s1 b))
      (andThen (applyEntry K s b) (fun s1 => applyEntry K s1 a)) := by
  rcases entry_normal_form K a with ⟨p, hp⟩ | ⟨_, hid⟩ | ⟨oca, pa, hta, hfa, hka⟩
  · simp only [hp, andThen]
    cases applyEntry K s b <;> trivial
  · simp only [hid, andThen]
    cases applyEntry K s b with
    | error p => trivial
    | ok s1 => exact List.Perm.refl s1
  · rcases entry_normal_form K b with ⟨p, hp⟩ | ⟨_, hid⟩ | ⟨ocb, pb, htb, hfb, hkb⟩
    · simp only [hp, andThen]
      cases applyEntry K s a <;> trivial
    · simp only [hid, andThen]
      cases applyEntry K s a with
      | error p => trivial
      | ok s1 => exact List.Perm.refl s1
    · have hne : pa.Number ≠ pb.Number :=
        hdis pa.Number (by rw [hta]; rfl) pb.Number (by rw [htb]; rfl)
      have := keyedInsert_comm oca ocb pa pb hne hfa hfb s
      rw [hka, hkb]
      have e1 : (fun s1 => applyEntry K s1 b) = keyedInsert ocb pb := funext hkb
      have e2 : (fun s1 => applyEntry K s1 a) = keyedInsert oca pa := funext hka
      rw [e1, e2]
      exact this

theorem applyInOrder_swap (K : List Byte → Hash) (a b : AzimuthEventLog)
    (hdis : ∀ n ∈ entryTarget K a, ∀ m ∈ entryTarget K b, n ≠ m)
    (rest : List AzimuthEventLog) (s : List Point) :
    SameOutcome (applyInOrder K (a :: b :: rest) s) (applyInOrder K (b :: a :: rest) s) := by
  have h1 : ∀ x y : AzimuthEventLog, applyInOrder K (x :: y :: rest) s
      = andThen (andThen (applyEntry K s x) (fun s1 => applyEntry K s1 y))
          (applyInOrder K rest) := by
    intro x y
    rw [applyInOrder_cons]
    cases hx : applyEntry K s x with
    | error p => rfl
    | ok s1 =>
      simp only [andThen]
      rw [applyInOrder_cons]
      rfl
  rw [h1 a b, h1 b a]
  exact andThen_congr (applyEntry_comm K a b hdis s)
    (fun _ _ h12 => applyInOrder_perm K rest h12)

theorem applyInOrder_cons_congr (K : List Byte → Hash) (e : AzimuthEventLog)
    (l1 l2 : List AzimuthEventLog)
    (h : ∀ s, SameOutcome (applyInOrder K l1 s) (applyInOrder K l2 s)) (s : List Point) :
    SameOutcome (applyInOrder K (e :: l1) s) (applyInOrder K (e :: l2) s) := by
  rw [applyInOrder_cons, applyInOrder_cons]
  cases applyEntry K s e with
  | error p => trivial
  | ok s1 => exact h s1

theorem applyInOrder_move (K : List Byte → Hash) (b : AzimuthEventLog)
    (A rest : List AzimuthEventLog)
    (hdis : ∀ a ∈ A, ∀ n ∈ entryTarget K a, ∀ m ∈ entryTarget K b, n ≠ m) (s : List Point) :
    SameOutcome (applyInOrder K (b :: (A ++ rest)) s) (applyInOrder K (A ++ b :: rest) s) := by
  induction A generalizing s with
  | nil => exact SameOutcome.refl _
  | cons a A1 ih =>
    have hba : ∀ n ∈ entryTarget K b, ∀ m ∈ entryTarget K a, n ≠ m :=
      fun n hn m hm => Ne.symm (hdis a (by simp) m hm n hn)
    have step1 := applyInOrder_swap K b a hba (A1 ++ rest) s
    have step2 := applyInOrder_cons_congr K a (b :: (A1 ++ rest)) (A1 ++ b :: rest)
      (fun s1 => ih (fun x hx => hdis x (by simp [hx])) s1) s
    exact step1.trans step2

theorem interleaving_outcome (K : List Byte → Hash) (A B l : List AzimuthEventLog)
    (hint : Interleaving A B l)
    (hdis : ∀ x ∈ A, ∀ y ∈ B, ∀ n ∈ entryTarget K x, ∀ m ∈ entryTarget K y, n ≠ m)
    (s : List Point) :
    SameOutcome (applyInOrder K l s) (applyInOrder K (A ++ B) s) := by
  induction hint generalizing s with
  | nil => exact SameOutcome.refl _
  | left a _ ih =>
    exact applyInOrder_cons_congr K a _ _
      (fun s1 => ih (fun x hx y hy => hdis x (by simp [hx]) y hy) s1) s
  | @right b A1 B1 l1 _ ih =>
    have step1 := applyInOrder_cons_congr K b l1 (A1 ++ B1)
      (fun s1 => ih (fun x hx y hy => hdis x hx y (by simp [hy])) s1) s
    have step2 := applyInOrder_move K b A1 B1
      (fun a ha n hn m hm => hdis a ha b (by simp) n hn m hm) s
    exact step1.trans step2

/-- Order independence as far as it holds: two entries whose effects are keyed by different
identity numbers, applied in either order, both fail or both succeed, and when they succeed
they leave Point Stores with the same rows; and every interleaving `l` of two lists of
entries `A` and `B` whose effects are keyed by disjoint identity numbers, which keeps the
order inside `A` and inside `B`, has the same outcome as `A` followed by `B`. -/
theorem disjoint_identities_commute (K : List Byte → Hash) (a b : AzimuthEventLog)
    (A B l : List AzimuthEventLog) (pts : List Point) :
    ((∀ n ∈ entryTarget K a, ∀ m ∈ entryTarget K b, n ≠ m) →
      SameOutcome (applyInOrder K [a, b] pts) (applyInOrder K [b, a] pts))
    ∧ (Interleaving A B l →
        (∀ x ∈ A, ∀ y ∈ B, ∀ n ∈ entryTarget K x, ∀ m ∈ entryTarget K y, n ≠ m) →
        SameOutcome (applyInOrder K l pts) (applyInOrder K (A ++ B) pts)) :=
  ⟨fun h => applyInOrder_swap K a b h [] pts,
   fun hint hdis => interleaving_outcome K A B l hint hdis pts⟩

/-- The entries of identity `0x42` interleaved with an entry of identity `7`, and the two
orders of one entry of each, on the empty store. -/
theorem disjoint_identities_commute_witness :
    SameOutcome (applyInOrder tableKeccak [activated42, activated7, owner42] [])
        (applyInOrder tableKeccak ([activated42, owner42] ++ [activated7]) [])
    ∧ SameOutcome (applyInOrder tableKeccak [activated42, activated7] [])
        (applyInOrder tableKeccak [activated7, activated42] []) :=
  have h := disjoint_identities_commute tableKeccak activated42 activated7
    [activated42, owner42] [activated7] [activated42, activated7, owner42] []
  ⟨h.2 (.left activated42 (.right activated7 (.left owner42 .nil))) (by decide),
   h.1 (by decide)⟩

/-- C11: the Spawned entry of child `5` and the Activated entry of identity `7` have catalogued
fingerprints and effects keyed by the different numbers `5` and `7`; on a Point Store that
holds identity `5` the plain insert of Spawned fails in both orders, and `ApplyEventEffects`
leaves the store as it was when Spawned comes first, but with the row of identity `7` added
when Activated comes first: the two orders do not yield the same Point Store. -/
theorem spawned_conflict_breaks_order_independence :
    Catalogued tableKeccak (spawnedFive 0).Topic0
    ∧ Catalogued tableKeccak activated7.Topic0
    ∧ entryTarget tableKeccak (spawnedFive 0) = some 5
    ∧ entryTarget tableKeccak activated7 = some 7
    ∧ applyInOrder tableKeccak [spawnedFive 0, activated7] [{ Number := 5 }]
        = .error (.storage .uniqueConstraint)
    ∧ applyInOrder tableKeccak [activated7, spawnedFive 0] [{ Number := 5 }]
        = .error (.storage .uniqueConstraint)
    ∧ ApplyEventEffects tableKeccak { points := [{ Number := 5 }] } [spawnedFive 0, activated7]
        = .error (.storage .uniqueConstraint, { points := [{ Number := 5 }] })
    ∧ ApplyEventEffects tableKeccak { points := [{ Number := 5 }] } [activated7, spawnedFive 0]
        = .error (.storage .uniqueConstraint,
            { points := [{ Number := 5 },
                         { Number := 7, IsActive := true, HasSponsor := true, Sponsor := 7 }] }) :=
  ⟨by decide, by decide, by decide, by decide, by decide, by decide, by decide, by decide⟩

end Azimuth
